import Mathlib

/-!
# nrg_tools: conversions through a flat vector, and the low-pass filters

A shallow embedding of `conversions.hpp`, `basic_lowpass_filters.cpp`,
`controller_tools.hpp` and `ros_lowpass_filter.cpp`.

Conventions of the embedding:
* a `double` is an exact rational (`ℚ`); a `std::vector<double>` is a `List ℚ`;
  the `float` fields of `Point32` hold the rational value of a single-precision
  number, and a `double` assigned to one is rounded by `double_to_float`;
* a C++ function `bool fromVec(const std::vector<double>& input, T& output)`
  becomes a function `List ℚ → T → Bool × T`: the second argument is what the
  caller's object held before the call, the second component of the result is
  what it holds after the call;
* a member function that changes its object returns the new object next to
  its result; where a member can throw, or read a vector through an index
  that nothing in the member itself bounds, its result is an `Outcome`.
-/

namespace nrg_tools

/-! ## Message records -/

/-- Modelled from the spec: the time tag that the "stamped" variants carry
(`std_msgs::Header`, declared outside this repository): sequence number,
time stamp and frame name. No conversion reads or writes it. -/
structure Header where
  seq : Nat
  stamp_sec : Nat
  stamp_nsec : Nat
  frame_id : String
  deriving DecidableEq, Repr

/-- Modelled from the spec: `geometry_msgs::Vector3` (declared outside this
repository), a 3-vector of doubles with the fields `x`, `y`, `z` that the
conversions read and write. -/
structure Vector3 where
  x : ℚ
  y : ℚ
  z : ℚ
  deriving DecidableEq, Repr

/-- Modelled from the spec: `geometry_msgs::Point` (declared outside this
repository), fields `x`, `y`, `z`. -/
structure Point where
  x : ℚ
  y : ℚ
  z : ℚ
  deriving DecidableEq, Repr

/-- Modelled from the spec: `geometry_msgs::Point32` (declared outside this
repository), fields `x`, `y`, `z` of the single-precision type `float`; each
holds the rational value of a `float`. -/
structure Point32 where
  x : ℚ
  y : ℚ
  z : ℚ
  deriving DecidableEq, Repr

/-- Modelled from the spec: `geometry_msgs::Pose2D` (declared outside this
repository), the 2-D pose with fields `x`, `y`, `theta`. -/
structure Pose2D where
  x : ℚ
  y : ℚ
  theta : ℚ
  deriving DecidableEq, Repr

/-- Modelled from the spec: `geometry_msgs::Quaternion` (declared outside this
repository), the 4-component orientation value with fields `x`, `y`, `z`, `w`. -/
structure Quaternion where
  x : ℚ
  y : ℚ
  z : ℚ
  w : ℚ
  deriving DecidableEq, Repr

/-- Modelled from the spec: `tf::Quaternion` (declared outside this
repository); its four components are read as `input[0]` .. `input[3]` and it is
built by the constructor `tf::Quaternion(x, y, z, w)`. -/
structure TfQuaternion where
  x : ℚ
  y : ℚ
  z : ℚ
  w : ℚ
  deriving DecidableEq, Repr

/-- Modelled from the spec: `tf2::Quaternion` (declared outside this
repository), as `TfQuaternion`. -/
structure Tf2Quaternion where
  x : ℚ
  y : ℚ
  z : ℚ
  w : ℚ
  deriving DecidableEq, Repr

/-- Modelled from the spec: `tf::Vector3` (declared outside this repository);
read through `getX()`, `getY()`, `getZ()`, built by `tf::Vector3(x, y, z)`. -/
structure TfVector3 where
  x : ℚ
  y : ℚ
  z : ℚ
  deriving DecidableEq, Repr

/-- Modelled from the spec: `tf2::Vector3` (declared outside this repository),
as `TfVector3`. -/
structure Tf2Vector3 where
  x : ℚ
  y : ℚ
  z : ℚ
  deriving DecidableEq, Repr

/-- Modelled from the spec: `geometry_msgs::Accel` (declared outside this
repository): a linear and an angular 3-vector. -/
structure Accel where
  linear : Vector3
  angular : Vector3
  deriving DecidableEq, Repr

/-- Modelled from the spec: `geometry_msgs::Twist` (declared outside this
repository): a linear and an angular 3-vector. -/
structure Twist where
  linear : Vector3
  angular : Vector3
  deriving DecidableEq, Repr

/-- Modelled from the spec: `geometry_msgs::Wrench` (declared outside this
repository): a force and a torque 3-vector. -/
structure Wrench where
  force : Vector3
  torque : Vector3
  deriving DecidableEq, Repr

/-- Modelled from the spec: `geometry_msgs::Pose` (declared outside this
repository): a position and an orientation. -/
structure Pose where
  position : Point
  orientation : Quaternion
  deriving DecidableEq, Repr

/-- Modelled from the spec: `geometry_msgs::Transform` (declared outside this
repository): a translation and a rotation. -/
structure Transform where
  translation : Vector3
  rotation : Quaternion
  deriving DecidableEq, Repr

/-- Modelled from the spec: `geometry_msgs::Polygon` (declared outside this
repository): the point list `points`, a `std::vector` of `Point32`. -/
structure Polygon where
  points : List Point32
  deriving DecidableEq, Repr

/-- Modelled from the spec: `geometry_msgs::AccelStamped` (declared outside
this repository). -/
structure AccelStamped where
  header : Header
  accel : Accel
  deriving DecidableEq, Repr

/-- Modelled from the spec: `geometry_msgs::PointStamped` (declared outside
this repository). -/
structure PointStamped where
  header : Header
  point : Point
  deriving DecidableEq, Repr

/-- Modelled from the spec: `geometry_msgs::PolygonStamped` (declared outside
this repository). -/
structure PolygonStamped where
  header : Header
  polygon : Polygon
  deriving DecidableEq, Repr

/-- Modelled from the spec: `geometry_msgs::PoseStamped` (declared outside
this repository). -/
structure PoseStamped where
  header : Header
  pose : Pose
  deriving DecidableEq, Repr

/-- Modelled from the spec: `geometry_msgs::QuaternionStamped` (declared
outside this repository). -/
structure QuaternionStamped where
  header : Header
  quaternion : Quaternion
  deriving DecidableEq, Repr

/-- Modelled from the spec: `geometry_msgs::TransformStamped` (declared
outside this repository); the field `child_frame_id` belongs to the time tag
side of the record and no conversion reads or writes it. -/
structure TransformStamped where
  header : Header
  child_frame_id : String
  transform : Transform
  deriving DecidableEq, Repr

/-- Modelled from the spec: `geometry_msgs::TwistStamped` (declared outside
this repository). -/
structure TwistStamped where
  header : Header
  twist : Twist
  deriving DecidableEq, Repr

/-- Modelled from the spec: `geometry_msgs::Vector3Stamped` (declared outside
this repository). -/
structure Vector3Stamped where
  header : Header
  vector : Vector3
  deriving DecidableEq, Repr

/-- Modelled from the spec: `geometry_msgs::WrenchStamped` (declared outside
this repository). -/
structure WrenchStamped where
  header : Header
  wrench : Wrench
  deriving DecidableEq, Repr

/-! ### Default construction

A declaration `T t;` of a message gives the value with every number zero and
every list and string empty. -/

instance : Inhabited Header := ⟨{ seq := 0, stamp_sec := 0, stamp_nsec := 0, frame_id := "" }⟩
instance : Inhabited Vector3 := ⟨{ x := 0, y := 0, z := 0 }⟩
instance : Inhabited Point := ⟨{ x := 0, y := 0, z := 0 }⟩
instance : Inhabited Point32 := ⟨{ x := 0, y := 0, z := 0 }⟩
instance : Inhabited Pose2D := ⟨{ x := 0, y := 0, theta := 0 }⟩
instance : Inhabited Quaternion := ⟨{ x := 0, y := 0, z := 0, w := 0 }⟩
instance : Inhabited Accel := ⟨{ linear := default, angular := default }⟩
instance : Inhabited Twist := ⟨{ linear := default, angular := default }⟩
instance : Inhabited Wrench := ⟨{ force := default, torque := default }⟩
instance : Inhabited Pose := ⟨{ position := default, orientation := default }⟩
instance : Inhabited Transform := ⟨{ translation := default, rotation := default }⟩
instance : Inhabited Polygon := ⟨{ points := [] }⟩

/-- The element `input[i]` of a `std::vector<double>`. Every read in the
conversions is behind a size check that puts `i` inside the vector; reading
past the end, undefined in C++, gives `0` here. -/
def idx (input : List ℚ) (i : Nat) : ℚ := input.getD i 0

/-! ### Assigning a `double` to a `float`

The fields of `Point32` are `float`: an assignment `point.x = input[k]`
converts the `double` to the nearest single-precision value (IEEE 754
binary32, 24 significant bits, exponents from -126 to 127, ties to the even
significand). -/

/-- The integer nearest to `q`, the even one of the two when `q` is half way
between them. -/
def round_half_even (q : ℚ) : ℤ :=
  let f : ℤ := ⌊q⌋
  if q - f < 1 / 2 then f
  else if 1 / 2 < q - f then f + 1
  else if f % 2 = 0 then f else f + 1

/-- The largest finite `float`, `(2^24 - 1) * 2^104`. -/
def float_max : ℚ := (2 ^ 24 - 1) * 2 ^ 104

/-- The binary exponent of a non-zero `q`: the `e` with `2^e ≤ |q| < 2^(e+1)`,
found from the bit lengths of the numerator and the denominator. -/
def float_exponent (q : ℚ) : ℤ :=
  let e : ℤ := (Nat.log2 q.num.natAbs : ℤ) - (Nat.log2 q.den : ℤ)
  if (2 : ℚ) ^ e ≤ |q| then e else e - 1

/-- The conversion of a `double` to `float`: `q` is rounded to the nearest
multiple of the unit in the last place of its binade, `2^(e - 23)` with the
exponent `e` no lower than -126 (below that the values are the subnormal
ones). Where the rounded magnitude exceeds `float_max` the C++ result is an
infinity, which no rational is; the model stops at `float_max` there, so that
the values it leaves unchanged are exactly the finite `float` values. -/
def double_to_float (q : ℚ) : ℚ :=
  if q = 0 then 0
  else
    let e : ℤ := max (float_exponent q) (-126)
    let ulp : ℚ := 2 ^ (e - 23)
    let r : ℚ := round_half_even (q / ulp) * ulp
    if r > float_max then float_max else if r < -float_max then -float_max else r

/-! ## Conversions to `std::vector` (`nrg_conversions::toVec`) -/

/-- The overload `toVec(std::vector<double>)`: the trivial case, returns its input. -/
def StdVector.toVec (input : List ℚ) : List ℚ := input

/-- The overload `toVec(geometry_msgs::Vector3)`. -/
def Vector3.toVec (input : Vector3) : List ℚ :=
  let output := [input.x, input.y, input.z]
  output

/-- The overload `toVec(geometry_msgs::Quaternion)`. -/
def Quaternion.toVec (input : Quaternion) : List ℚ :=
  let output := [input.x, input.y, input.z, input.w]
  output

/-- The overload `toVec(geometry_msgs::Accel)`: the linear part, then the angular part. -/
def Accel.toVec (input : Accel) : List ℚ :=
  let linear := input.linear
  let angular := input.angular
  let lin_std_vec := linear.toVec
  let ang_std_vec := angular.toVec
  let output := lin_std_vec
  output ++ ang_std_vec

/-- The overload `toVec(geometry_msgs::AccelStamped)`. -/
def AccelStamped.toVec (input : AccelStamped) : List ℚ :=
  let accel := input.accel
  accel.toVec

/-- The overload `toVec(geometry_msgs::Point)`. -/
def Point.toVec (input : Point) : List ℚ :=
  let output := [input.x, input.y, input.z]
  output

/-- The overload `toVec(geometry_msgs::Point32)`. -/
def Point32.toVec (input : Point32) : List ℚ :=
  let output := [input.x, input.y, input.z]
  output

/-- The overload `toVec(geometry_msgs::PointStamped)`. -/
def PointStamped.toVec (input : PointStamped) : List ℚ :=
  let point := input.point
  point.toVec

/-- The overload `toVec(geometry_msgs::Polygon)`: the loop `for i in 0 .. num_points-1`
appends `points[i].x`, `points[i].y`, `points[i].z` to the output. -/
def Polygon.toVec (input : Polygon) : List ℚ :=
  let num_points := input.points.length
  (List.range num_points).foldl
    (fun (output : List ℚ) (i : Nat) =>
      ((output ++ [(input.points.getD i default).x])
        ++ [(input.points.getD i default).y])
        ++ [(input.points.getD i default).z])
    []

/-- The overload `toVec(geometry_msgs::PolygonStamped)`. -/
def PolygonStamped.toVec (input : PolygonStamped) : List ℚ :=
  let poly := input.polygon
  poly.toVec

/-- The overload `toVec(geometry_msgs::Pose)`: the position, then the orientation. -/
def Pose.toVec (input : Pose) : List ℚ :=
  let point := input.position
  let quat := input.orientation
  let v1 := point.toVec
  let v2 := quat.toVec
  let output := v1
  output ++ v2

/-- The overload `toVec(geometry_msgs::Pose2D)`. -/
def Pose2D.toVec (input : Pose2D) : List ℚ :=
  let output := [input.x, input.y, input.theta]
  output

/-- The overload `toVec(geometry_msgs::PoseStamped)`. -/
def PoseStamped.toVec (input : PoseStamped) : List ℚ :=
  let pose := input.pose
  pose.toVec

/-- The overload `toVec(tf::Quaternion)`. -/
def TfQuaternion.toVec (input : TfQuaternion) : List ℚ :=
  let output := [input.x, input.y, input.z, input.w]
  output

/-- The overload `toVec(tf2::Quaternion)`. -/
def Tf2Quaternion.toVec (input : Tf2Quaternion) : List ℚ :=
  let output := [input.x, input.y, input.z, input.w]
  output

/-- The overload `toVec(geometry_msgs::QuaternionStamped)`. -/
def QuaternionStamped.toVec (input : QuaternionStamped) : List ℚ :=
  let quat := input.quaternion
  quat.toVec

/-- The overload `toVec(geometry_msgs::Transform)`: the translation, then the rotation. -/
def Transform.toVec (input : Transform) : List ℚ :=
  let vec := input.translation
  let quat := input.rotation
  let v1 := vec.toVec
  let v2 := quat.toVec
  let output := v1
  output ++ v2

/-- The overload `toVec(geometry_msgs::TransformStamped)`. -/
def TransformStamped.toVec (input : TransformStamped) : List ℚ :=
  let tran := input.transform
  tran.toVec

/-- The overload `toVec(geometry_msgs::Twist)`: the linear part, then the angular part. -/
def Twist.toVec (input : Twist) : List ℚ :=
  let vec1 := input.linear
  let vec2 := input.angular
  let v1 := vec1.toVec
  let v2 := vec2.toVec
  let output := v1
  output ++ v2

/-- The overload `toVec(geometry_msgs::TwistStamped)`. -/
def TwistStamped.toVec (input : TwistStamped) : List ℚ :=
  let twist := input.twist
  twist.toVec

/-- The overload `toVec(tf::Vector3)`. -/
def TfVector3.toVec (input : TfVector3) : List ℚ :=
  let output := [input.x, input.y, input.z]
  output

/-- The overload `toVec(tf2::Vector3)`. -/
def Tf2Vector3.toVec (input : Tf2Vector3) : List ℚ :=
  let output := [input.x, input.y, input.z]
  output

/-- The overload `toVec(geometry_msgs::Vector3Stamped)`. -/
def Vector3Stamped.toVec (input : Vector3Stamped) : List ℚ :=
  let vec := input.vector
  vec.toVec

/-- The overload `toVec(geometry_msgs::Wrench)`: the force, then the torque. -/
def Wrench.toVec (input : Wrench) : List ℚ :=
  let vec1 := input.force
  let vec2 := input.torque
  let v1 := vec1.toVec
  let v2 := vec2.toVec
  let output := v1
  output ++ v2

/-- The overload `toVec(geometry_msgs::WrenchStamped)`. -/
def WrenchStamped.toVec (input : WrenchStamped) : List ℚ :=
  let wrench := input.wrench
  wrench.toVec

/-! ## Conversions from `std::vector` (`nrg_conversions::fromVec`) -/

/-- The overload `fromVec(input, std::vector<double>& output)`: the trivial case, always
true. -/
def StdVector.fromVec (input : List ℚ) (_output : List ℚ) : Bool × List ℚ :=
  (true, input)

/-- The overload `fromVec(input, geometry_msgs::Vector3& output)`. -/
def Vector3.fromVec (input : List ℚ) (output : Vector3) : Bool × Vector3 :=
  if input.length ≠ 3 then (false, output)
  else
    let vec3 : Vector3 := { x := idx input 0, y := idx input 1, z := idx input 2 }
    (true, vec3)

/-- The overload `fromVec(input, geometry_msgs::Quaternion& output)`. The source line is
`quat.x = input[0]; quat.y = input[1]; quat.z = input[2]; quat.w = input[2];`. -/
def Quaternion.fromVec (input : List ℚ) (output : Quaternion) : Bool × Quaternion :=
  if input.length ≠ 4 then (false, output)
  else
    let quat : Quaternion :=
      { x := idx input 0, y := idx input 1, z := idx input 2, w := idx input 2 }
    (true, quat)

/-- The overload `fromVec(input, geometry_msgs::Accel& output)`. -/
def Accel.fromVec (input : List ℚ) (output : Accel) : Bool × Accel :=
  if input.length ≠ 6 then (false, output)
  else
    let accel : Accel :=
      { linear := { x := idx input 0, y := idx input 1, z := idx input 2 },
        angular := { x := idx input 3, y := idx input 4, z := idx input 5 } }
    (true, accel)

/-- The overload `fromVec(input, geometry_msgs::AccelStamped& output)`: converts into a freshly declared
payload and stores it in `output.accel`, whatever the flag; returns the
payload conversion's flag. -/
def AccelStamped.fromVec (input : List ℚ) (output : AccelStamped) : Bool × AccelStamped :=
  let accel : Accel := default
  let r := Accel.fromVec input accel
  let val := r.1
  let accel := r.2
  (val, { output with accel := accel })

/-- The overload `fromVec(input, geometry_msgs::Point& output)`. -/
def Point.fromVec (input : List ℚ) (output : Point) : Bool × Point :=
  if input.length ≠ 3 then (false, output)
  else
    let point : Point := { x := idx input 0, y := idx input 1, z := idx input 2 }
    (true, point)

/-- The overload `fromVec(input, geometry_msgs::Point32& output)`: each
`double` is assigned to a `float` field. -/
def Point32.fromVec (input : List ℚ) (output : Point32) : Bool × Point32 :=
  if input.length ≠ 3 then (false, output)
  else
    let point : Point32 :=
      { x := double_to_float (idx input 0), y := double_to_float (idx input 1),
        z := double_to_float (idx input 2) }
    (true, point)

/-- The overload `fromVec(input, geometry_msgs::PointStamped& output)`: converts into a freshly declared
payload and stores it in `output.point`, whatever the flag; returns the
payload conversion's flag. -/
def PointStamped.fromVec (input : List ℚ) (output : PointStamped) : Bool × PointStamped :=
  let point : Point := default
  let r := Point.fromVec input point
  let val := r.1
  let point := r.2
  (val, { output with point := point })

/-- The body of the overload `fromVec(input, geometry_msgs::Polygon& output)`,
with the conversion `narrow` that the assignments to the `float` fields of
`point` apply: it refuses a length that is not a multiple of 3; otherwise the
loop `for i in 0 .. num_points-1` fills the one `point` from `input[3*i]`,
`input[3*i+1]`, `input[3*i+2]` and appends it to `poly.points`. -/
def Polygon.fromVec_with (narrow : ℚ → ℚ) (input : List ℚ) (output : Polygon) :
    Bool × Polygon :=
  if input.length % 3 ≠ 0 then (false, output)
  else
    let num_points := input.length / 3
    let poly : Polygon :=
      (List.range num_points).foldl
        (fun (poly : Polygon) (i : Nat) =>
          let point : Point32 :=
            { x := narrow (idx input (3 * i)), y := narrow (idx input (3 * i + 1)),
              z := narrow (idx input (3 * i + 2)) }
          { poly with points := poly.points ++ [point] })
        default
    (true, poly)

/-- The overload `fromVec(input, geometry_msgs::Polygon& output)`: the
coordinates are assigned to `float` fields, so each `double` goes through
`double_to_float`. -/
def Polygon.fromVec (input : List ℚ) (output : Polygon) : Bool × Polygon :=
  Polygon.fromVec_with double_to_float input output

/-- The overload `fromVec(input, geometry_msgs::PolygonStamped& output)`: converts into a freshly declared
payload and stores it in `output.polygon`, whatever the flag; returns the
payload conversion's flag. -/
def PolygonStamped.fromVec (input : List ℚ) (output : PolygonStamped) : Bool × PolygonStamped :=
  let poly : Polygon := default
  let r := Polygon.fromVec input poly
  let val := r.1
  let poly := r.2
  (val, { output with polygon := poly })

/-- The overload `fromVec(input, geometry_msgs::Pose& output)`: assigns the two fields
`output.position` and `output.orientation`. -/
def Pose.fromVec (input : List ℚ) (output : Pose) : Bool × Pose :=
  if input.length ≠ 7 then (false, output)
  else
    let point : Point := { x := idx input 0, y := idx input 1, z := idx input 2 }
    let quat : Quaternion :=
      { x := idx input 3, y := idx input 4, z := idx input 5, w := idx input 6 }
    (true, { output with position := point, orientation := quat })

/-- The overload `fromVec(input, geometry_msgs::Pose2D& output)`. -/
def Pose2D.fromVec (input : List ℚ) (output : Pose2D) : Bool × Pose2D :=
  if input.length ≠ 3 then (false, output)
  else
    let pose : Pose2D := { x := idx input 0, y := idx input 1, theta := idx input 2 }
    (true, pose)

/-- The overload `fromVec(input, geometry_msgs::PoseStamped& output)`: converts into a freshly declared
payload and stores it in `output.pose`, whatever the flag; returns the
payload conversion's flag. -/
def PoseStamped.fromVec (input : List ℚ) (output : PoseStamped) : Bool × PoseStamped :=
  let pose : Pose := default
  let r := Pose.fromVec input pose
  let val := r.1
  let pose := r.2
  (val, { output with pose := pose })

/-- The overload `fromVec(input, tf::Quaternion& output)`: built by the constructor
`tf::Quaternion(input[0], input[1], input[2], input[3])`. -/
def TfQuaternion.fromVec (input : List ℚ) (output : TfQuaternion) : Bool × TfQuaternion :=
  if input.length ≠ 4 then (false, output)
  else
    let quat : TfQuaternion := { x := idx input 0, y := idx input 1, z := idx input 2, w := idx input 3 }
    (true, quat)

/-- The overload `fromVec(input, tf2::Quaternion& output)`: built by the constructor
`tf2::Quaternion(input[0], input[1], input[2], input[3])`. -/
def Tf2Quaternion.fromVec (input : List ℚ) (output : Tf2Quaternion) : Bool × Tf2Quaternion :=
  if input.length ≠ 4 then (false, output)
  else
    let quat : Tf2Quaternion := { x := idx input 0, y := idx input 1, z := idx input 2, w := idx input 3 }
    (true, quat)

/-- The overload `fromVec(input, geometry_msgs::QuaternionStamped& output)`: converts into a freshly declared
payload and stores it in `output.quaternion`, whatever the flag; returns the
payload conversion's flag. -/
def QuaternionStamped.fromVec (input : List ℚ) (output : QuaternionStamped) : Bool × QuaternionStamped :=
  let quat : Quaternion := default
  let r := Quaternion.fromVec input quat
  let val := r.1
  let quat := r.2
  (val, { output with quaternion := quat })

/-- The overload `fromVec(input, geometry_msgs::Transform& output)`: assigns the two fields
`output.translation` and `output.rotation`. -/
def Transform.fromVec (input : List ℚ) (output : Transform) : Bool × Transform :=
  if input.length ≠ 7 then (false, output)
  else
    let vec : Vector3 := { x := idx input 0, y := idx input 1, z := idx input 2 }
    let quat : Quaternion :=
      { x := idx input 3, y := idx input 4, z := idx input 5, w := idx input 6 }
    (true, { output with translation := vec, rotation := quat })

/-- The overload `fromVec(input, geometry_msgs::TransformStamped& output)`: converts into a freshly declared
payload and stores it in `output.transform`, whatever the flag; returns the
payload conversion's flag. -/
def TransformStamped.fromVec (input : List ℚ) (output : TransformStamped) : Bool × TransformStamped :=
  let tran : Transform := default
  let r := Transform.fromVec input tran
  let val := r.1
  let tran := r.2
  (val, { output with transform := tran })

/-- The overload `fromVec(input, geometry_msgs::Twist& output)`. -/
def Twist.fromVec (input : List ℚ) (output : Twist) : Bool × Twist :=
  if input.length ≠ 6 then (false, output)
  else
    let twist : Twist :=
      { linear := { x := idx input 0, y := idx input 1, z := idx input 2 },
        angular := { x := idx input 3, y := idx input 4, z := idx input 5 } }
    (true, twist)

/-- The overload `fromVec(input, geometry_msgs::TwistStamped& output)`: converts into a freshly declared
payload and stores it in `output.twist`, whatever the flag; returns the
payload conversion's flag. -/
def TwistStamped.fromVec (input : List ℚ) (output : TwistStamped) : Bool × TwistStamped :=
  let twist : Twist := default
  let r := Twist.fromVec input twist
  let val := r.1
  let twist := r.2
  (val, { output with twist := twist })

/-- The overload `fromVec(input, tf::Vector3& output)`. -/
def TfVector3.fromVec (input : List ℚ) (output : TfVector3) : Bool × TfVector3 :=
  if input.length ≠ 3 then (false, output)
  else
    let vec : TfVector3 := { x := idx input 0, y := idx input 1, z := idx input 2 }
    (true, vec)

/-- The overload `fromVec(input, tf2::Vector3& output)`. -/
def Tf2Vector3.fromVec (input : List ℚ) (output : Tf2Vector3) : Bool × Tf2Vector3 :=
  if input.length ≠ 3 then (false, output)
  else
    let vec : Tf2Vector3 := { x := idx input 0, y := idx input 1, z := idx input 2 }
    (true, vec)

/-- The overload `fromVec(input, geometry_msgs::Vector3Stamped& output)`: converts into a freshly declared
payload and stores it in `output.vector`, whatever the flag; returns the
payload conversion's flag. -/
def Vector3Stamped.fromVec (input : List ℚ) (output : Vector3Stamped) : Bool × Vector3Stamped :=
  let vec : Vector3 := default
  let r := Vector3.fromVec input vec
  let val := r.1
  let vec := r.2
  (val, { output with vector := vec })

/-- The overload `fromVec(input, geometry_msgs::Wrench& output)`. -/
def Wrench.fromVec (input : List ℚ) (output : Wrench) : Bool × Wrench :=
  if input.length ≠ 6 then (false, output)
  else
    let wrench : Wrench :=
      { force := { x := idx input 0, y := idx input 1, z := idx input 2 },
        torque := { x := idx input 3, y := idx input 4, z := idx input 5 } }
    (true, wrench)

/-- The overload `fromVec(input, geometry_msgs::WrenchStamped& output)`: converts into a freshly declared
payload and stores it in `output.wrench`, whatever the flag; returns the
payload conversion's flag. -/
def WrenchStamped.fromVec (input : List ℚ) (output : WrenchStamped) : Bool × WrenchStamped :=
  let wrench : Wrench := default
  let r := Wrench.fromVec input wrench
  let val := r.1
  let wrench := r.2
  (val, { output with wrench := wrench })

/-! ## The template `convert`

The C++ overloads of `toVec` and `fromVec` are picked by the static type of the
argument; the class below is that overload set, one instance per overload
pair. -/

/-- A type with a `toVec` overload and a `fromVec` overload. -/
class VecConvertible (T : Type) where
  /-- The `toVec` overload of `T`. -/
  toVec : T → List ℚ
  /-- The `fromVec` overload of `T`. -/
  fromVec : List ℚ → T → Bool × T

instance : VecConvertible (List ℚ) := ⟨StdVector.toVec, StdVector.fromVec⟩
instance : VecConvertible Vector3 := ⟨Vector3.toVec, Vector3.fromVec⟩
instance : VecConvertible Quaternion := ⟨Quaternion.toVec, Quaternion.fromVec⟩
instance : VecConvertible Accel := ⟨Accel.toVec, Accel.fromVec⟩
instance : VecConvertible AccelStamped := ⟨AccelStamped.toVec, AccelStamped.fromVec⟩
instance : VecConvertible Point := ⟨Point.toVec, Point.fromVec⟩
instance : VecConvertible Point32 := ⟨Point32.toVec, Point32.fromVec⟩
instance : VecConvertible PointStamped := ⟨PointStamped.toVec, PointStamped.fromVec⟩
instance : VecConvertible Polygon := ⟨Polygon.toVec, Polygon.fromVec⟩
instance : VecConvertible PolygonStamped := ⟨PolygonStamped.toVec, PolygonStamped.fromVec⟩
instance : VecConvertible Pose := ⟨Pose.toVec, Pose.fromVec⟩
instance : VecConvertible Pose2D := ⟨Pose2D.toVec, Pose2D.fromVec⟩
instance : VecConvertible PoseStamped := ⟨PoseStamped.toVec, PoseStamped.fromVec⟩
instance : VecConvertible TfQuaternion := ⟨TfQuaternion.toVec, TfQuaternion.fromVec⟩
instance : VecConvertible Tf2Quaternion := ⟨Tf2Quaternion.toVec, Tf2Quaternion.fromVec⟩
instance : VecConvertible QuaternionStamped := ⟨QuaternionStamped.toVec, QuaternionStamped.fromVec⟩
instance : VecConvertible Transform := ⟨Transform.toVec, Transform.fromVec⟩
instance : VecConvertible TransformStamped := ⟨TransformStamped.toVec, TransformStamped.fromVec⟩
instance : VecConvertible Twist := ⟨Twist.toVec, Twist.fromVec⟩
instance : VecConvertible TwistStamped := ⟨TwistStamped.toVec, TwistStamped.fromVec⟩
instance : VecConvertible TfVector3 := ⟨TfVector3.toVec, TfVector3.fromVec⟩
instance : VecConvertible Tf2Vector3 := ⟨Tf2Vector3.toVec, Tf2Vector3.fromVec⟩
instance : VecConvertible Vector3Stamped := ⟨Vector3Stamped.toVec, Vector3Stamped.fromVec⟩
instance : VecConvertible Wrench := ⟨Wrench.toVec, Wrench.fromVec⟩
instance : VecConvertible WrenchStamped := ⟨WrenchStamped.toVec, WrenchStamped.fromVec⟩

/-- The template `nrg_tools::convert(a, b)`:
`return nrg_conversions::fromVec(nrg_conversions::toVec(a), b);`. -/
def convert {T U : Type} [VecConvertible T] [VecConvertible U] (a : T) (b : U) : Bool × U :=
  VecConvertible.fromVec (VecConvertible.toVec a) b

/-! ## `BasicLowPassFilter` -/

/-- The data members of `BasicLowPassFilter`; the array
`previous_measurements_[2]` is the two fields `previous_measurements_0`
(newest) and `previous_measurements_1`. -/
structure BasicLowPassFilter where
  previous_measurements_0 : ℚ
  previous_measurements_1 : ℚ
  previous_filtered_measurement_ : ℚ
  filter_coeff_ : ℚ
  deriving DecidableEq, Repr

/-- The constructor `BasicLowPassFilter(filter_coefficient, init_value)`. -/
def BasicLowPassFilter.ctor (filter_coefficient init_value : ℚ) : BasicLowPassFilter :=
  { filter_coeff_ := filter_coefficient,
    previous_measurements_0 := init_value,
    previous_measurements_1 := init_value,
    previous_filtered_measurement_ := init_value }

/-- The member `BasicLowPassFilter::filter(new_measurement)`: the returned value and the
object afterwards. Division is that of `ℚ`; with `filter_coeff_ = -1` the
factor `1. / (1. + filter_coeff_)` is a division by zero. -/
def BasicLowPassFilter.filter (self : BasicLowPassFilter) (new_measurement : ℚ) :
    ℚ × BasicLowPassFilter :=
  let self := { self with previous_measurements_1 := self.previous_measurements_0 }
  let self := { self with previous_measurements_0 := new_measurement }
  let new_filtered_msrmt :=
    (1 / (1 + self.filter_coeff_)) *
      (self.previous_measurements_1 + self.previous_measurements_0 -
        (-self.filter_coeff_ + 1) * self.previous_filtered_measurement_)
  let self := { self with previous_filtered_measurement_ := new_filtered_msrmt }
  (new_filtered_msrmt, self)

/-- The member `BasicLowPassFilter::reset(reset_value)`: the object afterwards. -/
def BasicLowPassFilter.reset (self : BasicLowPassFilter) (reset_value : ℚ) :
    BasicLowPassFilter :=
  let self := { self with previous_measurements_0 := reset_value }
  let self := { self with previous_measurements_1 := reset_value }
  { self with previous_filtered_measurement_ := reset_value }

/-- One call a client can make on a constructed `BasicLowPassFilter`. -/
inductive FilterCall where
  | filter (new_measurement : ℚ)
  | reset (reset_value : ℚ)
  deriving DecidableEq, Repr

/-- The object after one call. -/
def BasicLowPassFilter.call (self : BasicLowPassFilter) : FilterCall → BasicLowPassFilter
  | .filter new_measurement => (self.filter new_measurement).2
  | .reset reset_value => self.reset reset_value

/-- The object after a sequence of calls, made in order. -/
def BasicLowPassFilter.calls (self : BasicLowPassFilter) (cs : List FilterCall) :
    BasicLowPassFilter :=
  cs.foldl BasicLowPassFilter.call self

/-! ## `Eigen::VectorXd` -/

/-- Modelled from the spec: `Eigen::VectorXd` (declared outside this
repository), a vector of doubles whose size is fixed when it is built; its
coefficients are read and written through `operator[]` and `operator()`. -/
structure VectorXd where
  coeffs : List ℚ
  deriving DecidableEq, Repr

/-- A declaration `Eigen::VectorXd v;` gives the vector of size 0. -/
instance : Inhabited VectorXd := ⟨{ coeffs := [] }⟩

/-- The member `size()` of a `VectorXd`. -/
def VectorXd.size (v : VectorXd) : Nat := v.coeffs.length

/-- The coefficient `v[i]`, also written `v(i)`; every read in this
repository is behind a loop bound that puts `i` inside the vector. -/
def VectorXd.coeff (v : VectorXd) (i : Nat) : ℚ := idx v.coeffs i

/-- The assignment `v[i] = a`. -/
def VectorXd.setCoeff (v : VectorXd) (i : Nat) (a : ℚ) : VectorXd :=
  { v with coeffs := v.coeffs.set i a }

/-- The compound assignment `v *= s`: every coefficient times the scalar. -/
def VectorXd.scale (v : VectorXd) (s : ℚ) : VectorXd :=
  { v with coeffs := v.coeffs.map (fun a => a * s) }

/-- The overload `toVec(Eigen::VectorXd)`: the loop `for i in 0 .. size-1`
appends `input[i]` to the output. -/
def VectorXd.toVec (input : VectorXd) : List ℚ :=
  (List.range input.size).foldl
    (fun (output : List ℚ) (i : Nat) => output ++ [input.coeff i])
    []

/-- The overload `fromVec(input, Eigen::VectorXd& output)`: builds a vector
of the size of the input (its coefficients, not initialised in C++, start at 0
here) and the loop `for i in 0 .. size-1` assigns `vec[i] = input[i]`; always
true. -/
def VectorXd.fromVec (input : List ℚ) (_output : VectorXd) : Bool × VectorXd :=
  let vec : VectorXd := { coeffs := List.replicate input.length 0 }
  let vec := (List.range input.length).foldl
    (fun (vec : VectorXd) (i : Nat) => vec.setCoeff i (idx input i))
    vec
  (true, vec)

instance : VecConvertible VectorXd := ⟨VectorXd.toVec, VectorXd.fromVec⟩

/-! ## `BasicLowPassMultiFilter` -/

/-- The two exception classes this repository throws. -/
inductive Exception where
  | out_of_range
  | invalid_argument
  deriving DecidableEq, Repr

/-- How a call on an object of type `σ` ends: it returns a value and leaves
the object in a state; or it throws, the object being in the state it had at
the `throw`; or it reads a `std::vector` past its end, which C++ leaves
undefined. -/
inductive Outcome (σ α : Type) where
  | returned (value : α) (self : σ)
  | raised (e : Exception) (self : σ)
  | undefined
  deriving DecidableEq, Repr

/-- The object after the call, when the call has a defined behaviour. -/
def Outcome.self? {σ α : Type} : Outcome σ α → Option σ
  | .returned _ self => some self
  | .raised _ self => some self
  | .undefined => none

/-- The data members of `BasicLowPassMultiFilter`. -/
structure BasicLowPassMultiFilter where
  num_filters_ : Nat
  filters_ : List BasicLowPassFilter
  deriving DecidableEq, Repr

/-- The body of the constructor's loop, at index `i`:
`filters_.push_back(BasicLowPassFilter(filter_coefficients[i], init_values[i]))`.
`none` stands for a read past the end of one of the two vectors. -/
def BasicLowPassMultiFilter.ctor_body (filter_coefficients init_values : List ℚ)
    (st : Option (List BasicLowPassFilter)) (i : Nat) : Option (List BasicLowPassFilter) :=
  st.bind fun filters_ =>
    match filter_coefficients[i]?, init_values[i]? with
    | some c, some v => some (filters_ ++ [BasicLowPassFilter.ctor c v])
    | _, _ => none

/-- The constructor `BasicLowPassMultiFilter(filter_coefficients, init_values)`:
`num_filters_ = init_values.size()`, then the loop over `0 .. num_filters_-1`.
The source compares no lengths. -/
def BasicLowPassMultiFilter.ctor (filter_coefficients init_values : List ℚ) :
    Outcome BasicLowPassMultiFilter Unit :=
  let self : BasicLowPassMultiFilter := { num_filters_ := 0, filters_ := [] }
  let self := { self with num_filters_ := init_values.length }
  match (List.range self.num_filters_).foldl
      (BasicLowPassMultiFilter.ctor_body filter_coefficients init_values)
      (some self.filters_) with
  | some filters_ => .returned () { self with filters_ := filters_ }
  | none => .undefined

/-- The body of the loop of `filter`, at index `i`:
`output.push_back(filters_[i].filter(new_measurements[i]))`; the state is the
output so far and the filters. -/
def BasicLowPassMultiFilter.filter_body (new_measurements : List ℚ)
    (st : Option (List ℚ × List BasicLowPassFilter)) (i : Nat) :
    Option (List ℚ × List BasicLowPassFilter) :=
  st.bind fun (output, filters_) =>
    match filters_[i]?, new_measurements[i]? with
    | some f, some m => some (output ++ [(f.filter m).1], filters_.set i (f.filter m).2)
    | _, _ => none

/-- The member `BasicLowPassMultiFilter::filter(new_measurements)`. -/
def BasicLowPassMultiFilter.filter (self : BasicLowPassMultiFilter)
    (new_measurements : List ℚ) : Outcome BasicLowPassMultiFilter (List ℚ) :=
  if new_measurements.length ≠ self.num_filters_ then
    .raised .out_of_range self
  else
    match (List.range self.num_filters_).foldl
        (BasicLowPassMultiFilter.filter_body new_measurements)
        (some ([], self.filters_)) with
    | some (output, filters_) => .returned output { self with filters_ := filters_ }
    | none => .undefined

/-- The body of the loop of `reset(reset_values)`, at index `i`:
`filters_[i].reset(reset_values[i])`. -/
def BasicLowPassMultiFilter.reset_body (reset_values : List ℚ)
    (st : Option (List BasicLowPassFilter)) (i : Nat) : Option (List BasicLowPassFilter) :=
  st.bind fun filters_ =>
    match filters_[i]?, reset_values[i]? with
    | some f, some v => some (filters_.set i (f.reset v))
    | _, _ => none

/-- The member `BasicLowPassMultiFilter::reset(reset_values)`. -/
def BasicLowPassMultiFilter.reset (self : BasicLowPassMultiFilter)
    (reset_values : List ℚ) : Outcome BasicLowPassMultiFilter Unit :=
  if reset_values.length ≠ self.num_filters_ then
    .raised .out_of_range self
  else
    match (List.range self.num_filters_).foldl
        (BasicLowPassMultiFilter.reset_body reset_values)
        (some self.filters_) with
    | some filters_ => .returned () { self with filters_ := filters_ }
    | none => .undefined

/-- The conversion of an `int` to `size_t` (64 bits, unsigned): the value
modulo `2^64`, so a negative `int` becomes a value of at least `2^64 - 2^31`. -/
def int_to_size_t (index : Int) : Nat := (index % (2 ^ 64 : Int)).toNat

/-- The member `BasicLowPassMultiFilter::reset(index, reset_value)`, `index`
an `int`: the test `index >= num_filters_` compares as `size_t`, and so does
the subscript `filters_[index]`. -/
def BasicLowPassMultiFilter.reset_index (self : BasicLowPassMultiFilter)
    (index : Int) (reset_value : ℚ) : Outcome BasicLowPassMultiFilter Unit :=
  if int_to_size_t index ≥ self.num_filters_ then
    .raised .out_of_range self
  else
    match self.filters_[int_to_size_t index]? with
    | some f =>
      .returned ()
        { self with filters_ := self.filters_.set (int_to_size_t index) (f.reset reset_value) }
    | none => .undefined

/-- The member `getNumberFilters()`. -/
def BasicLowPassMultiFilter.getNumberFilters (self : BasicLowPassMultiFilter) : Nat :=
  self.num_filters_

/-- One call a client can make on a constructed `BasicLowPassMultiFilter`. -/
inductive MultiFilterCall where
  | filter (new_measurements : List ℚ)
  | reset (reset_values : List ℚ)
  | reset_index (index : Int) (reset_value : ℚ)
  deriving DecidableEq, Repr

/-- The object after one call, whether the call returned or threw; `none`
when the call has no defined behaviour. -/
def BasicLowPassMultiFilter.call (self : BasicLowPassMultiFilter) :
    MultiFilterCall → Option BasicLowPassMultiFilter
  | .filter new_measurements => (self.filter new_measurements).self?
  | .reset reset_values => (self.reset reset_values).self?
  | .reset_index index reset_value => (self.reset_index index reset_value).self?

/-- The object after a sequence of calls made in order, a caller catching
every exception and going on. -/
def BasicLowPassMultiFilter.calls (self : BasicLowPassMultiFilter) :
    List MultiFilterCall → Option BasicLowPassMultiFilter
  | [] => some self
  | c :: cs => (self.call c).bind fun self => self.calls cs

/-! ## `controller_tools.hpp`: bounding -/

/-- Modelled from the spec: `std::min(a, b)` of the C++ standard library
(declared outside this repository), which returns `b` when `b < a` and `a`
otherwise. -/
def std_min {T : Type} [LinearOrder T] (a b : T) : T := if b < a then b else a

/-- Modelled from the spec: `std::max(a, b)` of the C++ standard library
(declared outside this repository), which returns `b` when `a < b` and `a`
otherwise. -/
def std_max {T : Type} [LinearOrder T] (a b : T) : T := if a < b then b else a

/-- The template `bound(n, lower, upper)`:
`return std::max(lower, std::min(n, upper));`. -/
def bound {T : Type} [LinearOrder T] (n lower upper : T) : T :=
  std_max lower (std_min n upper)

/-- The template `boundAll(input, lower, upper)`: the three arguments are
converted to `std::vector`; unequal sizes throw `std::invalid_argument`;
otherwise the loop appends `bound(input_vector[i], lower_vector[i],
upper_vector[i])`, and the result is `fromVec` of that into a freshly declared
`T`, the flag ignored. -/
def boundAll {T U : Type} [VecConvertible T] [VecConvertible U] [Inhabited T]
    (input : T) (lower upper : U) : Except Exception T :=
  let input_vector : List ℚ := (convert input ([] : List ℚ)).2
  let lower_vector : List ℚ := (convert lower ([] : List ℚ)).2
  let upper_vector : List ℚ := (convert upper ([] : List ℚ)).2
  if input_vector.length ≠ lower_vector.length
      ∨ input_vector.length ≠ upper_vector.length then
    .error .invalid_argument
  else
    let output_vector : List ℚ :=
      (List.range input_vector.length).foldl
        (fun (output_vector : List ℚ) (i : Nat) =>
          output_vector ++ [bound (idx input_vector i) (idx lower_vector i) (idx upper_vector i)])
        []
    let output : T := default
    .ok (VecConvertible.fromVec output_vector output).2

/-- The loop of `boundUniform` that computes `min_multiplier`: it starts at 1
and, at every index `i` with `fabs(input_vector(i)) > fabs(limit_vector(i))`,
becomes `std::min(min_multiplier, fabs(limit_vector(i)) / fabs(input_vector(i)))`. -/
def boundUniform_min_multiplier (input_vector limit_vector : VectorXd) : ℚ :=
  (List.range input_vector.size).foldl
    (fun (min_multiplier : ℚ) (i : Nat) =>
      if |input_vector.coeff i| > |limit_vector.coeff i| then
        std_min min_multiplier (|limit_vector.coeff i| / |input_vector.coeff i|)
      else min_multiplier)
    1

/-- The template `boundUniform(input, limit)`: the two arguments are
converted to `Eigen::VectorXd`; unequal sizes throw `std::invalid_argument`;
otherwise `input_vector *= min_multiplier` and the result is `convert` of that
into a freshly declared `T`, the flag ignored. -/
def boundUniform {T U : Type} [VecConvertible T] [VecConvertible U] [Inhabited T]
    (input : T) (limit : U) : Except Exception T :=
  let input_vector : VectorXd := (convert input (default : VectorXd)).2
  let limit_vector : VectorXd := (convert limit (default : VectorXd)).2
  if input_vector.size ≠ limit_vector.size then
    .error .invalid_argument
  else
    let min_multiplier := boundUniform_min_multiplier input_vector limit_vector
    let input_vector := input_vector.scale min_multiplier
    let output : T := default
    .ok (convert input_vector output).2

/-! ## `RosLowPassFilter` (`ros_lowpass_filter.cpp`) -/

instance : Inhabited AccelStamped := ⟨{ header := default, accel := default }⟩
instance : Inhabited PointStamped := ⟨{ header := default, point := default }⟩
instance : Inhabited PolygonStamped := ⟨{ header := default, polygon := default }⟩
instance : Inhabited PoseStamped := ⟨{ header := default, pose := default }⟩
instance : Inhabited QuaternionStamped := ⟨{ header := default, quaternion := default }⟩
instance : Inhabited TransformStamped :=
  ⟨{ header := default, child_frame_id := "", transform := default }⟩
instance : Inhabited TwistStamped := ⟨{ header := default, twist := default }⟩
instance : Inhabited Vector3Stamped := ⟨{ header := default, vector := default }⟩
instance : Inhabited WrenchStamped := ⟨{ header := default, wrench := default }⟩

/-- The data member of the class template `RosLowPassFilter<T>`: the multi
filter it owns through the pointer `multifilter_`. -/
structure RosLowPassFilter (T : Type) where
  multifilter_ : BasicLowPassMultiFilter
  deriving DecidableEq, Repr

/-- The constructor `RosLowPassFilter<T>(filter_coefficients)`: the
coefficients are converted to a `std::vector`, the initial vector is that
many zeros (`inital_vector.assign(coeff_vector.size(), 0.0)`), and the two
build the owned multi filter. -/
def RosLowPassFilter.ctor {T : Type} [VecConvertible T] (filter_coefficients : T) :
    Outcome (RosLowPassFilter T) Unit :=
  let coeff_vector : List ℚ := (convert filter_coefficients ([] : List ℚ)).2
  let inital_vector : List ℚ := List.replicate coeff_vector.length 0
  match BasicLowPassMultiFilter.ctor coeff_vector inital_vector with
  | .returned _ multifilter_ => .returned () { multifilter_ := multifilter_ }
  | .raised e multifilter_ => .raised e { multifilter_ := multifilter_ }
  | .undefined => .undefined

/-- The member `RosLowPassFilter<T>::filter(new_measurement)`: the measurement
is converted to a `std::vector` and fed to the multi filter, whose exception
propagates; the filtered vector is converted into a freshly declared `T`. -/
def RosLowPassFilter.filter {T : Type} [VecConvertible T] [Inhabited T]
    (self : RosLowPassFilter T) (new_measurement : T) : Outcome (RosLowPassFilter T) T :=
  let measurement_data : List ℚ := (convert new_measurement ([] : List ℚ)).2
  match self.multifilter_.filter measurement_data with
  | .returned filtered_data multifilter_ =>
    let output : T := default
    .returned (convert filtered_data output).2 { self with multifilter_ := multifilter_ }
  | .raised e multifilter_ => .raised e { self with multifilter_ := multifilter_ }
  | .undefined => .undefined

/-- The member `RosLowPassFilter<T>::reset(reset_value)`: the value is
converted to a `std::vector` and resets the multi filter, whose exception
propagates. -/
def RosLowPassFilter.reset {T : Type} [VecConvertible T]
    (self : RosLowPassFilter T) (reset_value : T) : Outcome (RosLowPassFilter T) Unit :=
  let reset_vector : List ℚ := (convert reset_value ([] : List ℚ)).2
  match self.multifilter_.reset reset_vector with
  | .returned _ multifilter_ => .returned () { self with multifilter_ := multifilter_ }
  | .raised e multifilter_ => .raised e { self with multifilter_ := multifilter_ }
  | .undefined => .undefined

/-- One call a client can make on a constructed `RosLowPassFilter<T>`. -/
inductive RosFilterCall (T : Type) where
  | filter (new_measurement : T)
  | reset (reset_value : T)

/-- Whether every call of a sequence, made in order on the object, returns:
false as soon as one throws or has no defined behaviour. -/
def RosLowPassFilter.all_return {T : Type} [VecConvertible T] [Inhabited T]
    (self : RosLowPassFilter T) : List (RosFilterCall T) → Bool
  | [] => true
  | .filter new_measurement :: cs =>
    match self.filter new_measurement with
    | .returned _ self => self.all_return cs
    | _ => false
  | .reset reset_value :: cs =>
    match self.reset reset_value with
    | .returned _ self => self.all_return cs
    | _ => false

/-- The values that successive calls `filter(x)` return, for the inputs `xs`
in order. -/
def BasicLowPassFilter.filter_outputs (self : BasicLowPassFilter) : List ℚ → List ℚ
  | [] => []
  | x :: xs => (self.filter x).1 :: (self.filter x).2.filter_outputs xs

/-! ## Theorems -/

/-! ### Round trips -/

/-- C1: for every value `v` of `Vector3`, `Point`, `Pose2D`, `Accel`, `Twist`,
`Wrench`, `Pose` and `Transform`, and whatever the output object `out` held
before, `fromVec(toVec(v), out)` returns true and leaves `out` equal to `v`. -/
theorem fromVec_toVec_fixed_arity :
    (∀ v out : Vector3, Vector3.fromVec v.toVec out = (true, v)) ∧
    (∀ v out : Point, Point.fromVec v.toVec out = (true, v)) ∧
    (∀ v out : Pose2D, Pose2D.fromVec v.toVec out = (true, v)) ∧
    (∀ v out : Accel, Accel.fromVec v.toVec out = (true, v)) ∧
    (∀ v out : Twist, Twist.fromVec v.toVec out = (true, v)) ∧
    (∀ v out : Wrench, Wrench.fromVec v.toVec out = (true, v)) ∧
    (∀ v out : Pose, Pose.fromVec v.toVec out = (true, v)) ∧
    (∀ v out : Transform, Transform.fromVec v.toVec out = (true, v)) := by
  refine ⟨?_, ?_, ?_, ?_, ?_, ?_, ?_, ?_⟩ <;> intro v out <;> rfl

/-- C2, at the failing input: the unit quaternion `(0, 0, 0, 1)` converted to
a vector and back comes out as `(0, 0, 0, 0)`, with the flag true; the same
through `QuaternionStamped`. Its `w` is lost, so the round trip does not give
the value back. -/
theorem Quaternion_roundtrip_failing_input :
    Quaternion.fromVec (Quaternion.toVec { x := 0, y := 0, z := 0, w := 1 }) default
        = (true, { x := 0, y := 0, z := 0, w := 0 }) ∧
    (Quaternion.fromVec (Quaternion.toVec { x := 0, y := 0, z := 0, w := 1 }) default).2
        ≠ { x := 0, y := 0, z := 0, w := 1 } ∧
    (∀ h : Header,
      (QuaternionStamped.fromVec
          (QuaternionStamped.toVec { header := h, quaternion := { x := 0, y := 0, z := 0, w := 1 } })
          { header := h, quaternion := default }).2.quaternion
        = { x := 0, y := 0, z := 0, w := 0 }) := by
  refine ⟨rfl, ?_, fun _ => rfl⟩
  decide

/-! ### The success flag -/

/-- C3: for every fixed-arity target type and every input vector, `fromVec`
returns true exactly when the length of the vector is the arity of the type
(3 for `Vector3`, `Point`, `Point32`, `Pose2D` and the two tf 3-vectors, 4 for
`Quaternion` and the two tf quaternions, 6 for `Accel`, `Twist`, `Wrench`,
7 for `Pose`, `Transform`); each Stamped variant, `PolygonStamped` too,
returns the flag of its payload's `fromVec` on the same vector; and the
9-element vector `[9,8,7,6,5,4,3,2,1]` converted into a `Twist` returns false.
The conversions are total functions returning a flag and an object: no call
raises. -/
theorem fromVec_flag_iff_arity :
    (∀ (v : List ℚ) (out : Vector3), (Vector3.fromVec v out).1 = true ↔ v.length = 3) ∧
    (∀ (v : List ℚ) (out : Point), (Point.fromVec v out).1 = true ↔ v.length = 3) ∧
    (∀ (v : List ℚ) (out : Point32), (Point32.fromVec v out).1 = true ↔ v.length = 3) ∧
    (∀ (v : List ℚ) (out : Pose2D), (Pose2D.fromVec v out).1 = true ↔ v.length = 3) ∧
    (∀ (v : List ℚ) (out : TfVector3), (TfVector3.fromVec v out).1 = true ↔ v.length = 3) ∧
    (∀ (v : List ℚ) (out : Tf2Vector3), (Tf2Vector3.fromVec v out).1 = true ↔ v.length = 3) ∧
    (∀ (v : List ℚ) (out : Quaternion), (Quaternion.fromVec v out).1 = true ↔ v.length = 4) ∧
    (∀ (v : List ℚ) (out : TfQuaternion), (TfQuaternion.fromVec v out).1 = true ↔ v.length = 4) ∧
    (∀ (v : List ℚ) (out : Tf2Quaternion), (Tf2Quaternion.fromVec v out).1 = true ↔ v.length = 4) ∧
    (∀ (v : List ℚ) (out : Accel), (Accel.fromVec v out).1 = true ↔ v.length = 6) ∧
    (∀ (v : List ℚ) (out : Twist), (Twist.fromVec v out).1 = true ↔ v.length = 6) ∧
    (∀ (v : List ℚ) (out : Wrench), (Wrench.fromVec v out).1 = true ↔ v.length = 6) ∧
    (∀ (v : List ℚ) (out : Pose), (Pose.fromVec v out).1 = true ↔ v.length = 7) ∧
    (∀ (v : List ℚ) (out : Transform), (Transform.fromVec v out).1 = true ↔ v.length = 7) ∧
    (∀ (v : List ℚ) (out : AccelStamped) (p : Accel),
      (AccelStamped.fromVec v out).1 = (Accel.fromVec v p).1) ∧
    (∀ (v : List ℚ) (out : PointStamped) (p : Point),
      (PointStamped.fromVec v out).1 = (Point.fromVec v p).1) ∧
    (∀ (v : List ℚ) (out : PoseStamped) (p : Pose),
      (PoseStamped.fromVec v out).1 = (Pose.fromVec v p).1) ∧
    (∀ (v : List ℚ) (out : QuaternionStamped) (p : Quaternion),
      (QuaternionStamped.fromVec v out).1 = (Quaternion.fromVec v p).1) ∧
    (∀ (v : List ℚ) (out : TransformStamped) (p : Transform),
      (TransformStamped.fromVec v out).1 = (Transform.fromVec v p).1) ∧
    (∀ (v : List ℚ) (out : TwistStamped) (p : Twist),
      (TwistStamped.fromVec v out).1 = (Twist.fromVec v p).1) ∧
    (∀ (v : List ℚ) (out : Vector3Stamped) (p : Vector3),
      (Vector3Stamped.fromVec v out).1 = (Vector3.fromVec v p).1) ∧
    (∀ (v : List ℚ) (out : WrenchStamped) (p : Wrench),
      (WrenchStamped.fromVec v out).1 = (Wrench.fromVec v p).1) ∧
    (∀ (v : List ℚ) (out : PolygonStamped) (p : Polygon),
      (PolygonStamped.fromVec v out).1 = (Polygon.fromVec v p).1) ∧
    (∀ out : Twist, (convert [(9 : ℚ), 8, 7, 6, 5, 4, 3, 2, 1] out).1 = false) := by
  refine ⟨?_, ?_, ?_, ?_, ?_, ?_, ?_, ?_, ?_, ?_, ?_, ?_, ?_, ?_,
    ?_, ?_, ?_, ?_, ?_, ?_, ?_, ?_, ?_, ?_⟩
  case refine_24 => intro out; rfl
  iterate 14
    (intro v out
     simp only [Vector3.fromVec, Point.fromVec, Point32.fromVec, Pose2D.fromVec,
        TfVector3.fromVec, Tf2Vector3.fromVec, Quaternion.fromVec, TfQuaternion.fromVec,
        Tf2Quaternion.fromVec, Accel.fromVec, Twist.fromVec, Wrench.fromVec, Pose.fromVec,
        Transform.fromVec]
     split_ifs with h <;> simp_all)
  all_goals
    (intro v out p
     simp only [AccelStamped.fromVec, PointStamped.fromVec, PoseStamped.fromVec,
        QuaternionStamped.fromVec, TransformStamped.fromVec, TwistStamped.fromVec,
        Vector3Stamped.fromVec, WrenchStamped.fromVec, PolygonStamped.fromVec,
        Polygon.fromVec, Polygon.fromVec_with, Vector3.fromVec, Point.fromVec,
        Quaternion.fromVec, Accel.fromVec, Twist.fromVec, Wrench.fromVec, Pose.fromVec,
        Transform.fromVec]
     split_ifs with h <;> rfl)

/-! ### Polygons -/

/-- The loop of `fromVec` into a `Polygon`, run over the indices `l` from the
polygon `p`, appends one point per index, in order. -/
theorem Polygon.fromVec_loop (narrow : ℚ → ℚ) (input : List ℚ) (l : List Nat) (p : Polygon) :
    (l.foldl
        (fun (poly : Polygon) (i : Nat) =>
          let point : Point32 :=
            { x := narrow (idx input (3 * i)), y := narrow (idx input (3 * i + 1)),
              z := narrow (idx input (3 * i + 2)) }
          { poly with points := poly.points ++ [point] })
        p).points
      = p.points ++ l.map (fun i =>
          ({ x := narrow (idx input (3 * i)), y := narrow (idx input (3 * i + 1)),
             z := narrow (idx input (3 * i + 2)) } : Point32)) := by
  induction l generalizing p with
  | nil => simp
  | cons i l ih => simp [List.foldl_cons, ih]

/-- The points of the polygon that `fromVec` builds from a vector whose length
is a multiple of 3, whatever conversion the assignments apply. -/
theorem Polygon.fromVec_points (narrow : ℚ → ℚ) (v : List ℚ) (out : Polygon)
    (h : v.length % 3 = 0) :
    (Polygon.fromVec_with narrow v out).2.points
      = (List.range (v.length / 3)).map (fun i =>
          ({ x := narrow (idx v (3 * i)), y := narrow (idx v (3 * i + 1)),
             z := narrow (idx v (3 * i + 2)) } : Point32)) := by
  have hd : (default : Polygon).points = [] := rfl
  simp only [Polygon.fromVec_with, h, ne_eq, not_true_eq_false, if_false]
  rw [Polygon.fromVec_loop, hd, List.nil_append]

/-- Inside the vector, `idx` is the element. -/
theorem idx_eq_getElem_some (v : List ℚ) (k : Nat) (h : k < v.length) :
    v[k]? = some (idx v k) := by
  simp [idx, List.getD_eq_getElem?_getD, List.getElem?_eq_getElem h]

/-- An integer rounds to itself. -/
theorem round_half_even_intCast (m : ℤ) : round_half_even (m : ℚ) = m := by
  simp [round_half_even]

/-- A non-zero number of exponent `e ≥ -126` that is a whole number of units
in the last place, not beyond `float_max`, is a `float`: the conversion leaves
it unchanged. -/
theorem double_to_float_of_exponent (q : ℚ) (e m : ℤ) (hq : q ≠ 0)
    (he : float_exponent q = e) (he2 : -126 ≤ e) (hm : q / 2 ^ (e - 23) = m)
    (hr : |q| ≤ float_max) : double_to_float q = q := by
  have hulp : (2 : ℚ) ^ (e - 23) ≠ 0 := zpow_ne_zero _ (by norm_num)
  have hback : (m : ℚ) * 2 ^ (e - 23) = q := by
    rw [← hm]
    field_simp
  have h1 : ¬ q > float_max := not_lt.mpr (le_trans (le_abs_self q) hr)
  have h2 : ¬ q < -float_max := not_lt.mpr (by linarith [neg_abs_le q])
  simp only [double_to_float, hq, if_false, he, max_eq_left he2, hm, round_half_even_intCast,
    hback, h1, h2]

/-- The integers 0 to 9 are `float` values. -/
theorem double_to_float_digits :
    double_to_float 0 = 0 ∧ double_to_float 1 = 1 ∧ double_to_float 2 = 2 ∧
    double_to_float 3 = 3 ∧ double_to_float 4 = 4 ∧ double_to_float 5 = 5 ∧
    double_to_float 6 = 6 ∧ double_to_float 7 = 7 ∧ double_to_float 8 = 8 ∧
    double_to_float 9 = 9 := by
  have hmax : ∀ q : ℚ, |q| ≤ 9 → |q| ≤ float_max := fun q hq =>
    le_trans hq (by norm_num [float_max])
  refine ⟨by simp [double_to_float], ?_, ?_, ?_, ?_, ?_, ?_, ?_, ?_, ?_⟩
  · exact double_to_float_of_exponent 1 0 (2 ^ 23) (by norm_num)
      (by simp [float_exponent, Nat.log2]) (by norm_num) (by norm_num)
      (hmax 1 (by norm_num [abs_of_nonneg]))
  · exact double_to_float_of_exponent 2 1 (2 ^ 23) (by norm_num)
      (by simp [float_exponent, Nat.log2]) (by norm_num)
      (by norm_num) (hmax 2 (by norm_num [abs_of_nonneg]))
  · exact double_to_float_of_exponent 3 1 (3 * 2 ^ 22) (by norm_num)
      (by simp [float_exponent, Nat.log2]; norm_num [abs_of_nonneg]) (by norm_num)
      (by norm_num) (hmax 3 (by norm_num [abs_of_nonneg]))
  · exact double_to_float_of_exponent 4 2 (2 ^ 23) (by norm_num)
      (by simp [float_exponent, Nat.log2]; norm_num [abs_of_nonneg]) (by norm_num)
      (by norm_num) (hmax 4 (by norm_num [abs_of_nonneg]))
  · exact double_to_float_of_exponent 5 2 (5 * 2 ^ 21) (by norm_num)
      (by simp [float_exponent, Nat.log2]; norm_num [abs_of_nonneg]) (by norm_num)
      (by norm_num) (hmax 5 (by norm_num [abs_of_nonneg]))
  · exact double_to_float_of_exponent 6 2 (6 * 2 ^ 21) (by norm_num)
      (by simp [float_exponent, Nat.log2]; norm_num [abs_of_nonneg]) (by norm_num)
      (by norm_num) (hmax 6 (by norm_num [abs_of_nonneg]))
  · exact double_to_float_of_exponent 7 2 (7 * 2 ^ 21) (by norm_num)
      (by simp [float_exponent, Nat.log2]; norm_num [abs_of_nonneg]) (by norm_num)
      (by norm_num) (hmax 7 (by norm_num [abs_of_nonneg]))
  · exact double_to_float_of_exponent 8 3 (2 ^ 23) (by norm_num)
      (by simp [float_exponent, Nat.log2]; norm_num [abs_of_nonneg]) (by norm_num)
      (by norm_num) (hmax 8 (by norm_num [abs_of_nonneg]))
  · exact double_to_float_of_exponent 9 3 (9 * 2 ^ 20) (by norm_num)
      (by simp [float_exponent, Nat.log2]; norm_num [abs_of_nonneg]) (by norm_num)
      (by norm_num) (hmax 9 (by norm_num [abs_of_nonneg]))

/-- The `double` `16777217 = 2^24 + 1` is not a `float`: it is half way between
`16777216` and `16777218` and becomes `16777216`. -/
theorem double_to_float_16777217 : double_to_float 16777217 = 16777216 := by
  have hlog : Nat.log2 16777217 = 24 := by
    have h1 : 24 ≤ Nat.log2 16777217 := (Nat.le_log2 (by norm_num)).mpr (by norm_num)
    have h2 : Nat.log2 16777217 < 25 := (Nat.log2_lt (by norm_num)).mpr (by norm_num)
    omega
  have he : float_exponent 16777217 = 24 := by
    simp [float_exponent, hlog, Nat.log2]
    norm_num [abs_of_nonneg]
  have hmaxe : max (24 : ℤ) (-126) = 24 := by norm_num
  have hf : ⌊(16777217 / 2 : ℚ)⌋ = 8388608 := by
    rw [Int.floor_eq_iff]
    norm_num
  have hround : round_half_even (16777217 / 2) = 8388608 := by
    simp only [round_half_even, hf]
    norm_num
  have hq : (16777217 : ℚ) / 2 ^ ((24 : ℤ) - 23) = 16777217 / 2 := by norm_num
  simp only [double_to_float, he, hmaxe, hq, hround]
  norm_num [float_max]

/-- C4 as stated fails: the 3-element vector `[16777217, 0, 0]` converts, with
the flag true, to the polygon of the one point `(16777216, 0, 0)`, because the
coordinate is stored in a `float`; so point 0 is not `(v[0], v[1], v[2])`. -/
theorem Polygon_fromVec_counterexample :
    Polygon.fromVec [16777217, 0, 0] default
      = (true, { points := [{ x := 16777216, y := 0, z := 0 }] }) ∧
    ¬(∃ x y z, [(16777217 : ℚ), 0, 0][3 * 0]? = some x ∧
        [(16777217 : ℚ), 0, 0][3 * 0 + 1]? = some y ∧
        [(16777217 : ℚ), 0, 0][3 * 0 + 2]? = some z ∧
        (Polygon.fromVec [16777217, 0, 0] default).2.points[0]?
          = some { x := x, y := y, z := z }) := by
  have h : Polygon.fromVec [16777217, 0, 0] default
      = (true, { points := [{ x := 16777216, y := 0, z := 0 }] }) := by
    have h0 : Polygon.fromVec [16777217, 0, 0] default
        = (true, { points := [{ x := double_to_float 16777217, y := double_to_float 0,
                                z := double_to_float 0 }] }) := rfl
    rw [h0, double_to_float_16777217, double_to_float_digits.1]
  refine ⟨h, ?_⟩
  rw [h]
  rintro ⟨x, y, z, hx, hy, hz, hp⟩
  simp at hx hy hz hp
  rw [← hx] at hp
  norm_num at hp

/-- C4, amended: for every input vector `v`, `fromVec` into a `Polygon` returns
true exactly when `length(v)` is a multiple of 3 (the empty vector included);
on success the polygon has exactly `length(v) / 3` points and point `i` is
`(v[3i], v[3i+1], v[3i+2])`, the three elements being inside `v`, each
converted to the `float` of the point's fields (for coordinates of magnitude
at most `float_max`, beyond which C++ stores an infinity); so point `i` is
`(v[3i], v[3i+1], v[3i+2])` itself whenever the three are `float` values. The
9-element vector `[9,..,1]` gives the 3 points `(9,8,7)`, `(6,5,4)`, `(3,2,1)`,
also through `convert` into a `PolygonStamped`; a 10-element vector returns
false. -/
theorem Polygon_fromVec_spec :
    (∀ (v : List ℚ) (out : Polygon),
      ((Polygon.fromVec v out).1 = true ↔ v.length % 3 = 0) ∧
      (v.length % 3 = 0 →
        (Polygon.fromVec v out).2.points.length = v.length / 3 ∧
        ∀ i, i < v.length / 3 →
          ∃ x y z, v[3 * i]? = some x ∧ v[3 * i + 1]? = some y ∧ v[3 * i + 2]? = some z ∧
            (|x| ≤ float_max → |y| ≤ float_max → |z| ≤ float_max →
              (Polygon.fromVec v out).2.points[i]?
                = some { x := double_to_float x, y := double_to_float y,
                         z := double_to_float z }) ∧
            (double_to_float x = x → double_to_float y = y → double_to_float z = z →
              (Polygon.fromVec v out).2.points[i]? = some { x := x, y := y, z := z }))) ∧
    (∀ out : Polygon, (Polygon.fromVec [] out).1 = true) ∧
    (∀ out : Polygon, Polygon.fromVec [9, 8, 7, 6, 5, 4, 3, 2, 1] out
        = (true, { points := [{ x := 9, y := 8, z := 7 }, { x := 6, y := 5, z := 4 },
                              { x := 3, y := 2, z := 1 }] })) ∧
    (∀ out : PolygonStamped, convert [(9 : ℚ), 8, 7, 6, 5, 4, 3, 2, 1] out
        = (true, { out with polygon :=
              { points := [{ x := 9, y := 8, z := 7 }, { x := 6, y := 5, z := 4 },
                           { x := 3, y := 2, z := 1 }] } })) ∧
    (∀ out : Polygon, Polygon.fromVec [10, 9, 8, 7, 6, 5, 4, 3, 2, 1] out = (false, out)) := by
  obtain ⟨-, d1, d2, d3, d4, d5, d6, d7, d8, d9⟩ := double_to_float_digits
  have h9 : ∀ out : Polygon, Polygon.fromVec [9, 8, 7, 6, 5, 4, 3, 2, 1] out
      = (true, { points := [{ x := 9, y := 8, z := 7 }, { x := 6, y := 5, z := 4 },
                            { x := 3, y := 2, z := 1 }] }) := by
    intro out
    have h0 : Polygon.fromVec [9, 8, 7, 6, 5, 4, 3, 2, 1] out
        = (true, { points :=
            [{ x := double_to_float 9, y := double_to_float 8, z := double_to_float 7 },
             { x := double_to_float 6, y := double_to_float 5, z := double_to_float 4 },
             { x := double_to_float 3, y := double_to_float 2, z := double_to_float 1 }] }) :=
      rfl
    rw [h0, d1, d2, d3, d4, d5, d6, d7, d8, d9]
  refine ⟨fun v out => ⟨?_, ?_⟩, fun _ => rfl, h9, fun out => ?_, fun _ => rfl⟩
  · simp only [Polygon.fromVec, Polygon.fromVec_with]
    split_ifs with h <;> simp_all
  · intro h
    rw [Polygon.fromVec, Polygon.fromVec_points double_to_float v out h]
    refine ⟨by simp, fun i hi => ?_⟩
    have h2 : 3 * i + 2 < v.length := by omega
    have hp : ((List.range (v.length / 3)).map (fun i =>
        ({ x := double_to_float (idx v (3 * i)), y := double_to_float (idx v (3 * i + 1)),
           z := double_to_float (idx v (3 * i + 2)) } : Point32)))[i]?
        = some { x := double_to_float (idx v (3 * i)), y := double_to_float (idx v (3 * i + 1)),
                 z := double_to_float (idx v (3 * i + 2)) } := by
      simp [List.getElem?_map, List.getElem?_range hi]
    refine ⟨idx v (3 * i), idx v (3 * i + 1), idx v (3 * i + 2),
      idx_eq_getElem_some v _ (by omega), idx_eq_getElem_some v _ (by omega),
      idx_eq_getElem_some v _ h2, fun _ _ _ => hp, fun hx hy hz => ?_⟩
    rw [hp, hx, hy, hz]
  · have h0 : convert [(9 : ℚ), 8, 7, 6, 5, 4, 3, 2, 1] out
        = ((Polygon.fromVec [9, 8, 7, 6, 5, 4, 3, 2, 1] default).1,
            { out with polygon := (Polygon.fromVec [9, 8, 7, 6, 5, 4, 3, 2, 1] default).2 }) :=
      rfl
    rw [h0, h9]

/-- C4, amended, at a concrete input: the 9-element vector `[9,..,1]` has a
length that is a multiple of 3, so the polygon has 9 / 3 points; its elements
are `float` values, so point 0 is `(9, 8, 7)`. -/
theorem Polygon_fromVec_spec_witness :
    (Polygon.fromVec [9, 8, 7, 6, 5, 4, 3, 2, 1] default).2.points.length = 9 / 3 ∧
    (Polygon.fromVec [9, 8, 7, 6, 5, 4, 3, 2, 1] default).2.points[0]?
      = some { x := 9, y := 8, z := 7 } :=
  let h := (Polygon_fromVec_spec.1 [9, 8, 7, 6, 5, 4, 3, 2, 1] default).2 (by decide)
  ⟨h.1,
   let ⟨x, y, z, hx, hy, hz, _, hfix⟩ := h.2 0 (by decide)
   by
    have hx1 : (9 : ℚ) = x := by simpa using hx
    have hy1 : (8 : ℚ) = y := by simpa using hy
    have hz1 : (7 : ℚ) = z := by simpa using hz
    subst hx1 hy1 hz1
    exact hfix double_to_float_digits.2.2.2.2.2.2.2.2.2 double_to_float_digits.2.2.2.2.2.2.2.2.1
      double_to_float_digits.2.2.2.2.2.2.2.1⟩

/-! ### Composites and `convert` -/

/-- C5: `toVec` of a composite is the concatenation of the `toVec` of its
sub-records in a fixed order, of the length of the type's arity: linear then
angular for `Twist` and `Accel` (6), force then torque for `Wrench` (6),
position then orientation for `Pose`, that is `[x,y,z,qx,qy,qz,qw]` (7),
translation then rotation for `Transform` (7); `toVec` of each Stamped
variant is `toVec` of its payload. -/
theorem toVec_composite :
    (∀ t : Twist, t.toVec = t.linear.toVec ++ t.angular.toVec ∧ t.toVec.length = 6 ∧
      t.toVec = [t.linear.x, t.linear.y, t.linear.z, t.angular.x, t.angular.y, t.angular.z]) ∧
    (∀ w : Wrench, w.toVec = w.force.toVec ++ w.torque.toVec ∧ w.toVec.length = 6 ∧
      w.toVec = [w.force.x, w.force.y, w.force.z, w.torque.x, w.torque.y, w.torque.z]) ∧
    (∀ a : Accel, a.toVec = a.linear.toVec ++ a.angular.toVec ∧ a.toVec.length = 6 ∧
      a.toVec = [a.linear.x, a.linear.y, a.linear.z, a.angular.x, a.angular.y, a.angular.z]) ∧
    (∀ p : Pose, p.toVec = p.position.toVec ++ p.orientation.toVec ∧ p.toVec.length = 7 ∧
      p.toVec = [p.position.x, p.position.y, p.position.z,
        p.orientation.x, p.orientation.y, p.orientation.z, p.orientation.w]) ∧
    (∀ t : Transform, t.toVec = t.translation.toVec ++ t.rotation.toVec ∧ t.toVec.length = 7 ∧
      t.toVec = [t.translation.x, t.translation.y, t.translation.z,
        t.rotation.x, t.rotation.y, t.rotation.z, t.rotation.w]) ∧
    (∀ s : AccelStamped, s.toVec = s.accel.toVec) ∧
    (∀ s : PointStamped, s.toVec = s.point.toVec) ∧
    (∀ s : PolygonStamped, s.toVec = s.polygon.toVec) ∧
    (∀ s : PoseStamped, s.toVec = s.pose.toVec) ∧
    (∀ s : QuaternionStamped, s.toVec = s.quaternion.toVec) ∧
    (∀ s : TransformStamped, s.toVec = s.transform.toVec) ∧
    (∀ s : TwistStamped, s.toVec = s.twist.toVec) ∧
    (∀ s : Vector3Stamped, s.toVec = s.vector.toVec) ∧
    (∀ s : WrenchStamped, s.toVec = s.wrench.toVec) := by
  refine ⟨fun _ => ⟨rfl, rfl, rfl⟩, fun _ => ⟨rfl, rfl, rfl⟩, fun _ => ⟨rfl, rfl, rfl⟩,
    fun _ => ⟨rfl, rfl, rfl⟩, fun _ => ⟨rfl, rfl, rfl⟩, fun _ => rfl, fun _ => rfl,
    fun _ => rfl, fun _ => rfl, fun _ => rfl, fun _ => rfl, fun _ => rfl, fun _ => rfl,
    fun _ => rfl⟩

/-- C6: `convert(a, b)` is `fromVec(toVec(a), b)` for every pair of
convertible types; for every `Wrench` `w`, `convert(w, twist)` returns true
with `twist.linear = w.force` and `twist.angular = w.torque`, whatever `twist`
held; the wrench `(111,222,333,444,555,666)` converts to the twist with linear
`(111,222,333)` and angular `(444,555,666)`. -/
theorem convert_spec :
    (∀ (T U : Type) [VecConvertible T] [VecConvertible U] (a : T) (b : U),
      convert a b = VecConvertible.fromVec (VecConvertible.toVec a) b) ∧
    (∀ (w : Wrench) (twist : Twist),
      convert w twist = Twist.fromVec (Wrench.toVec w) twist ∧
      convert w twist = (true, { linear := w.force, angular := w.torque }) ∧
      (convert w twist).2.linear.x = w.force.x ∧ (convert w twist).2.linear.y = w.force.y ∧
      (convert w twist).2.linear.z = w.force.z ∧ (convert w twist).2.angular.x = w.torque.x ∧
      (convert w twist).2.angular.y = w.torque.y ∧ (convert w twist).2.angular.z = w.torque.z) ∧
    (∀ twist : Twist,
      convert ({ force := { x := 111, y := 222, z := 333 },
                 torque := { x := 444, y := 555, z := 666 } } : Wrench) twist
        = (true, { linear := { x := 111, y := 222, z := 333 },
                   angular := { x := 444, y := 555, z := 666 } })) := by
  refine ⟨fun _ _ _ _ _ _ => rfl, fun _ _ => ⟨rfl, rfl, rfl, rfl, rfl, rfl, rfl, rfl⟩,
    fun _ => rfl⟩

/-! ### The scalar low-pass filter -/

/-- The object after `filter(x)`: the old newest slot moves to the second
slot, `x` becomes the newest slot, the returned value is stored, and the
coefficient stays. -/
theorem BasicLowPassFilter.filter_state (s : BasicLowPassFilter) (x : ℚ) :
    (s.filter x).2
      = { previous_measurements_1 := s.previous_measurements_0,
          previous_measurements_0 := x,
          previous_filtered_measurement_ := (s.filter x).1,
          filter_coeff_ := s.filter_coeff_ } := rfl

/-- C7: for every state `(slot0, slot1, y_prev, c)` and every input `x`,
`filter(x)` returns `y = (x + slot0 - (1 - c) * y_prev) / (1 + c)`, and
afterwards `slot1 = slot0` (the old one), `slot0 = x`, `y_prev = y`, with `c`
unchanged. Division is that of `ℚ`: at `c = -1` both sides divide by zero. -/
theorem BasicLowPassFilter.filter_spec (s : BasicLowPassFilter) (x : ℚ) :
    (s.filter x).1
      = (x + s.previous_measurements_0
          - (1 - s.filter_coeff_) * s.previous_filtered_measurement_) / (1 + s.filter_coeff_) ∧
    (s.filter x).2
      = { previous_measurements_1 := s.previous_measurements_0,
          previous_measurements_0 := x,
          previous_filtered_measurement_ := (s.filter x).1,
          filter_coeff_ := s.filter_coeff_ } := by
  refine ⟨?_, rfl⟩
  simp only [BasicLowPassFilter.filter]
  ring

/-- A filter whose two slots and stored output all hold `v`, with coefficient
other than -1, returns `v` on the input `v`. -/
theorem BasicLowPassFilter.filter_steady (c v : ℚ) (hc : c ≠ -1) :
    (BasicLowPassFilter.filter
      { previous_measurements_0 := v, previous_measurements_1 := v,
        previous_filtered_measurement_ := v, filter_coeff_ := c } v).1 = v := by
  have h : (1 : ℚ) + c ≠ 0 := fun h0 => hc (by linarith)
  simp only [BasicLowPassFilter.filter]
  field_simp
  ring

/-- C8: for every initial value `v0` and every coefficient `c` other than -1,
in particular every non-negative `c`, a filter constructed with `(c, v0)`
returns exactly `v0` on an immediate `filter(v0)`. -/
theorem BasicLowPassFilter.seeding (c v0 : ℚ) :
    (c ≠ -1 → ((BasicLowPassFilter.ctor c v0).filter v0).1 = v0) ∧
    (0 ≤ c → ((BasicLowPassFilter.ctor c v0).filter v0).1 = v0) :=
  ⟨fun hc => BasicLowPassFilter.filter_steady c v0 hc,
   fun hc => BasicLowPassFilter.filter_steady c v0 (by linarith)⟩

/-- C8 at a concrete input: coefficient 2 (not -1, and non-negative), initial
value 5. -/
theorem BasicLowPassFilter.seeding_witness :
    (2 : ℚ) ≠ -1 ∧ (0 : ℚ) ≤ 2 ∧ ((BasicLowPassFilter.ctor 2 5).filter 5).1 = 5 :=
  ⟨by norm_num, by norm_num, (BasicLowPassFilter.seeding 2 5).1 (by norm_num)⟩

/-- C9: a filter constructed with coefficient 2 and initial value 0 returns
1/3 on the first `filter(1)` and 7/9 on the second `filter(1)`. -/
theorem BasicLowPassFilter.step_response :
    ((BasicLowPassFilter.ctor 2 0).filter 1).1 = 1 / 3 ∧
    ((((BasicLowPassFilter.ctor 2 0).filter 1).2).filter 1).1 = 7 / 9 := by
  constructor <;> norm_num [BasicLowPassFilter.ctor, BasicLowPassFilter.filter]

/-- No call changes the coefficient. -/
theorem BasicLowPassFilter.calls_coeff (s : BasicLowPassFilter) (cs : List FilterCall) :
    (s.calls cs).filter_coeff_ = s.filter_coeff_ := by
  induction cs generalizing s with
  | nil => rfl
  | cons a cs ih =>
    have h := ih (s.call a)
    cases a <;> simpa [BasicLowPassFilter.calls, List.foldl_cons] using h

/-- C10: for every coefficient `c` other than -1, every state `s` reached from
construction by a sequence of `filter` and `reset` calls, and every value `v`:
`reset(v)` then `filter(v)` returns exactly `v`; `reset(v)` sets both history
slots and the stored output to `v` and leaves the coefficient as it was, which
is the `c` of the construction. -/
theorem BasicLowPassFilter.reset_then_filter (c v0 : ℚ) (cs : List FilterCall) (v : ℚ)
    (hc : c ≠ -1) :
    (((BasicLowPassFilter.ctor c v0).calls cs).reset v).filter v = (v,
        { previous_measurements_0 := v, previous_measurements_1 := v,
          previous_filtered_measurement_ := v, filter_coeff_ := c }) ∧
    ((BasicLowPassFilter.ctor c v0).calls cs).reset v
      = { previous_measurements_0 := v, previous_measurements_1 := v,
          previous_filtered_measurement_ := v,
          filter_coeff_ := ((BasicLowPassFilter.ctor c v0).calls cs).filter_coeff_ } ∧
    ((BasicLowPassFilter.ctor c v0).calls cs).filter_coeff_ = c := by
  have hcoeff : ((BasicLowPassFilter.ctor c v0).calls cs).filter_coeff_ = c :=
    BasicLowPassFilter.calls_coeff _ cs
  have hreset : ((BasicLowPassFilter.ctor c v0).calls cs).reset v
      = { previous_measurements_0 := v, previous_measurements_1 := v,
          previous_filtered_measurement_ := v, filter_coeff_ := c } := by
    have h0 : ((BasicLowPassFilter.ctor c v0).calls cs).reset v
        = { previous_measurements_0 := v, previous_measurements_1 := v,
            previous_filtered_measurement_ := v,
            filter_coeff_ := ((BasicLowPassFilter.ctor c v0).calls cs).filter_coeff_ } := rfl
    rw [h0, hcoeff]
  refine ⟨?_, rfl, hcoeff⟩
  rw [hreset]
  have hy := BasicLowPassFilter.filter_steady c v hc
  have hs := BasicLowPassFilter.filter_state
    { previous_measurements_0 := v, previous_measurements_1 := v,
      previous_filtered_measurement_ := v, filter_coeff_ := c } v
  rw [Prod.ext_iff]
  exact ⟨hy, by rw [hs, hy]⟩

/-- C10 at a concrete input: coefficient 2, initial value 0, after the calls
`filter(1)`, `reset(7)`, `filter(3)`, reset to 4. -/
theorem BasicLowPassFilter.reset_then_filter_witness :
    (2 : ℚ) ≠ -1 ∧
    ((((BasicLowPassFilter.ctor 2 0).calls
        [FilterCall.filter 1, FilterCall.reset 7, FilterCall.filter 3]).reset 4).filter 4).1
      = 4 :=
  ⟨by norm_num,
   congrArg Prod.fst
     (BasicLowPassFilter.reset_then_filter 2 0
       [FilterCall.filter 1, FilterCall.reset 7, FilterCall.filter 3] 4 (by norm_num)).1⟩

/-! ### Loops over the indices of a vector -/

/-- Writing index `k` of a list whose first `k` elements are `new` and whose
others are those of `l`. -/
theorem set_take_drop {α : Type} (new l : List α) (k : Nat) (a : α)
    (hk : k < l.length) (hn : new.length = k) :
    (new ++ l.drop k).set k a = (new ++ [a]) ++ l.drop (k + 1) := by
  subst hn
  rw [List.set_append_right _ _ (le_refl _), Nat.sub_self, List.drop_eq_getElem_cons hk]
  simp only [List.set_cons_zero, List.append_assoc, List.singleton_append]

/-- Reading index `k` of such a list reads `l`. -/
theorem getElem?_take_drop {α : Type} (new l : List α) (k : Nat) (hn : new.length = k) :
    (new ++ l.drop k)[k]? = l[k]? := by
  subst hn
  rw [List.getElem?_append_right (le_refl _)]
  simp

/-- One more element taken from both lists gives one more element of the
`zipWith`. -/
theorem zipWith_take_succ {α β γ : Type} (g : α → β → γ) (l : List α) (m : List β) (k : Nat)
    (hl : k < l.length) (hm : k < m.length) :
    List.zipWith g (l.take (k + 1)) (m.take (k + 1))
      = List.zipWith g (l.take k) (m.take k) ++ [g l[k] m[k]] := by
  rw [List.take_succ, List.take_succ, List.getElem?_eq_getElem hl, List.getElem?_eq_getElem hm]
  rw [List.zipWith_append]
  · simp
  · simp [List.length_take, Nat.min_eq_left (le_of_lt hl), Nat.min_eq_left (le_of_lt hm)]

/-- The constructor's loop, run for `k` rounds inside both vectors, has built
one scalar filter per round. -/
theorem BasicLowPassMultiFilter.ctor_loop (cs vs : List ℚ) (k : Nat)
    (hc : k ≤ cs.length) (hv : k ≤ vs.length) :
    (List.range k).foldl (BasicLowPassMultiFilter.ctor_body cs vs) (some [])
      = some (List.zipWith BasicLowPassFilter.ctor (cs.take k) (vs.take k)) := by
  induction k with
  | zero => simp
  | succ k ih =>
    have hc1 : k < cs.length := hc
    have hv1 : k < vs.length := hv
    rw [List.range_succ, List.foldl_append, ih (le_of_lt hc1) (le_of_lt hv1)]
    simp only [List.foldl_cons, List.foldl_nil, BasicLowPassMultiFilter.ctor_body,
      Option.some_bind, List.getElem?_eq_getElem hc1, List.getElem?_eq_getElem hv1]
    rw [zipWith_take_succ _ _ _ _ hc1 hv1]

/-- The loop of `filter`, run for `k` rounds inside both lists: the outputs of
the first `k` channels, and the filters with the first `k` advanced. -/
theorem BasicLowPassMultiFilter.filter_loop (ms : List ℚ) (fs : List BasicLowPassFilter)
    (k : Nat) (hf : k ≤ fs.length) (hm : k ≤ ms.length) :
    (List.range k).foldl (BasicLowPassMultiFilter.filter_body ms) (some ([], fs))
      = some (List.zipWith (fun f m => (BasicLowPassFilter.filter f m).1) (fs.take k) (ms.take k),
          List.zipWith (fun f m => (BasicLowPassFilter.filter f m).2) (fs.take k) (ms.take k)
            ++ fs.drop k) := by
  induction k with
  | zero => simp
  | succ k ih =>
    have hf1 : k < fs.length := hf
    have hm1 : k < ms.length := hm
    have hlen : (List.zipWith (fun f m => (BasicLowPassFilter.filter f m).2)
        (fs.take k) (ms.take k)).length = k := by
      simp [List.length_take, Nat.min_eq_left (le_of_lt hf1), Nat.min_eq_left (le_of_lt hm1)]
    rw [List.range_succ, List.foldl_append, ih (le_of_lt hf1) (le_of_lt hm1)]
    simp only [List.foldl_cons, List.foldl_nil, BasicLowPassMultiFilter.filter_body,
      Option.some_bind, getElem?_take_drop _ _ _ hlen, List.getElem?_eq_getElem hf1,
      List.getElem?_eq_getElem hm1, set_take_drop _ _ _ _ hf1 hlen]
    rw [zipWith_take_succ _ _ _ _ hf1 hm1, zipWith_take_succ _ _ _ _ hf1 hm1]

/-- The loop of `reset(reset_values)`, run for `k` rounds inside both lists:
the first `k` filters reset. -/
theorem BasicLowPassMultiFilter.reset_loop (vs : List ℚ) (fs : List BasicLowPassFilter)
    (k : Nat) (hf : k ≤ fs.length) (hv : k ≤ vs.length) :
    (List.range k).foldl (BasicLowPassMultiFilter.reset_body vs) (some fs)
      = some (List.zipWith BasicLowPassFilter.reset (fs.take k) (vs.take k) ++ fs.drop k) := by
  induction k with
  | zero => simp
  | succ k ih =>
    have hf1 : k < fs.length := hf
    have hv1 : k < vs.length := hv
    have hlen : (List.zipWith BasicLowPassFilter.reset (fs.take k) (vs.take k)).length = k := by
      simp [List.length_take, Nat.min_eq_left (le_of_lt hf1), Nat.min_eq_left (le_of_lt hv1)]
    rw [List.range_succ, List.foldl_append, ih (le_of_lt hf1) (le_of_lt hv1)]
    simp only [List.foldl_cons, List.foldl_nil, BasicLowPassMultiFilter.reset_body,
      Option.some_bind, getElem?_take_drop _ _ _ hlen, List.getElem?_eq_getElem hf1,
      List.getElem?_eq_getElem hv1, set_take_drop _ _ _ _ hf1 hlen]
    rw [zipWith_take_succ _ _ _ _ hf1 hv1]


/-! ### The multi filter -/

/-- The constructor on two vectors of one length: it returns, with one scalar
filter per pair. -/
theorem BasicLowPassMultiFilter.ctor_eq (cs vs : List ℚ) (h : cs.length = vs.length) :
    BasicLowPassMultiFilter.ctor cs vs
      = .returned () { num_filters_ := vs.length,
                       filters_ := List.zipWith BasicLowPassFilter.ctor cs vs } := by
  simp only [BasicLowPassMultiFilter.ctor]
  rw [BasicLowPassMultiFilter.ctor_loop cs vs vs.length (le_of_eq h.symm) (le_refl _)]
  rw [← h, List.take_length, h, List.take_length]

/-- The member `filter` on an object that stores as many filters as it counts
and on a vector of that length: it returns the channel outputs and advances
every channel. -/
theorem BasicLowPassMultiFilter.filter_eq (self : BasicLowPassMultiFilter) (ms : List ℚ)
    (hwf : self.filters_.length = self.num_filters_) (h : ms.length = self.num_filters_) :
    self.filter ms
      = .returned
          (List.zipWith (fun f m => (BasicLowPassFilter.filter f m).1) self.filters_ ms)
          { self with filters_ :=
              List.zipWith (fun f m => (BasicLowPassFilter.filter f m).2) self.filters_ ms } := by
  simp only [BasicLowPassMultiFilter.filter, h, ne_eq, not_true_eq_false, if_false]
  rw [BasicLowPassMultiFilter.filter_loop ms self.filters_ self.num_filters_
    (le_of_eq hwf.symm) (le_of_eq h.symm)]
  have h1 : List.take self.num_filters_ self.filters_ = self.filters_ := by
    rw [← hwf, List.take_length]
  have h2 : List.take self.num_filters_ ms = ms := by rw [← h, List.take_length]
  have h3 : List.drop self.num_filters_ self.filters_ = [] := by
    rw [← hwf, List.drop_length]
  simp only [h1, h2, h3, List.append_nil]

/-- The member `reset(reset_values)` on such an object and a vector of that
length: it returns and resets every channel. -/
theorem BasicLowPassMultiFilter.reset_eq (self : BasicLowPassMultiFilter) (vs : List ℚ)
    (hwf : self.filters_.length = self.num_filters_) (h : vs.length = self.num_filters_) :
    self.reset vs
      = .returned ()
          { self with filters_ := List.zipWith BasicLowPassFilter.reset self.filters_ vs } := by
  simp only [BasicLowPassMultiFilter.reset, h, ne_eq, not_true_eq_false, if_false]
  rw [BasicLowPassMultiFilter.reset_loop vs self.filters_ self.num_filters_
    (le_of_eq hwf.symm) (le_of_eq h.symm)]
  have h1 : List.take self.num_filters_ self.filters_ = self.filters_ := by
    rw [← hwf, List.take_length]
  have h2 : List.take self.num_filters_ vs = vs := by rw [← h, List.take_length]
  have h3 : List.drop self.num_filters_ self.filters_ = [] := by
    rw [← hwf, List.drop_length]
  simp only [h1, h2, h3, List.append_nil]

/-- Every call on an object that stores as many filters as it counts has a
defined behaviour and leaves such an object, with the same count, whether it
returns or throws. -/
theorem BasicLowPassMultiFilter.call_count (self : BasicLowPassMultiFilter)
    (c : MultiFilterCall) (hwf : self.filters_.length = self.num_filters_) :
    ∃ self1, self.call c = some self1 ∧ self1.num_filters_ = self.num_filters_ ∧
      self1.filters_.length = self.num_filters_ := by
  cases c with
  | filter ms =>
    by_cases h : ms.length = self.num_filters_
    · have hcall := congrArg Outcome.self? (BasicLowPassMultiFilter.filter_eq self ms hwf h)
      exact ⟨_, hcall, rfl, by simp [hwf, h]⟩
    · exact ⟨self, by simp [BasicLowPassMultiFilter.call, BasicLowPassMultiFilter.filter, h,
        Outcome.self?], rfl, hwf⟩
  | reset vs =>
    by_cases h : vs.length = self.num_filters_
    · have hcall := congrArg Outcome.self? (BasicLowPassMultiFilter.reset_eq self vs hwf h)
      exact ⟨_, hcall, rfl, by simp [hwf, h]⟩
    · exact ⟨self, by simp [BasicLowPassMultiFilter.call, BasicLowPassMultiFilter.reset, h,
        Outcome.self?], rfl, hwf⟩
  | reset_index index v =>
    by_cases h : int_to_size_t index ≥ self.num_filters_
    · exact ⟨self, by simp [BasicLowPassMultiFilter.call, BasicLowPassMultiFilter.reset_index, h,
        Outcome.self?], rfl, hwf⟩
    · have hlt : int_to_size_t index < self.filters_.length := by omega
      have hcall : self.call (.reset_index index v)
          = some
            { self with
              filters_ :=
                self.filters_.set (int_to_size_t index)
                  (self.filters_[int_to_size_t index].reset v) } := by
        simp only [BasicLowPassMultiFilter.call, BasicLowPassMultiFilter.reset_index, h,
          if_false, List.getElem?_eq_getElem hlt, Outcome.self?]
      exact ⟨_, hcall, rfl, by simp [hwf]⟩

/-- Every sequence of calls on such an object has a defined behaviour and
leaves such an object, with the same count. -/
theorem BasicLowPassMultiFilter.calls_count (self : BasicLowPassMultiFilter)
    (cs : List MultiFilterCall) (hwf : self.filters_.length = self.num_filters_) :
    ∃ self1, self.calls cs = some self1 ∧ self1.num_filters_ = self.num_filters_ ∧
      self1.filters_.length = self.num_filters_ := by
  induction cs generalizing self with
  | nil => exact ⟨self, rfl, rfl, hwf⟩
  | cons c cs ih =>
    obtain ⟨s1, hs1, hn1, hl1⟩ := BasicLowPassMultiFilter.call_count self c hwf
    obtain ⟨s2, hs2, hn2, hl2⟩ := ih s1 (by rw [hl1, hn1])
    exact ⟨s2, by simp [BasicLowPassMultiFilter.calls, hs1, hs2], by rw [hn2, hn1],
      by rw [hl2, hn1]⟩


/-- C11, at the failing inputs: the constructor compares no lengths and
throws nothing. With 5 coefficients and 3 initial values it returns a
3-channel filter built from the first 3 coefficients; with 3 coefficients and
5 initial values (the lengths of the claim's witness) it reads
`filter_coefficients[3]` past the end of the vector; and on no pair of vectors
does it end with an exception. -/
theorem BasicLowPassMultiFilter.ctor_length_mismatch :
    BasicLowPassMultiFilter.ctor [2, 2, 2, 2, 2] [0, 0, 0]
      = .returned ()
          { num_filters_ := 3,
            filters_ := [BasicLowPassFilter.ctor 2 0, BasicLowPassFilter.ctor 2 0,
                         BasicLowPassFilter.ctor 2 0] } ∧
    BasicLowPassMultiFilter.ctor [2, 2, 2] [0, 0, 0, 0, 0] = .undefined ∧
    (∀ (cs vs : List ℚ) (e : Exception) (s : BasicLowPassMultiFilter),
      BasicLowPassMultiFilter.ctor cs vs ≠ .raised e s) := by
  refine ⟨by decide, by decide, fun cs vs e s => ?_⟩
  simp only [BasicLowPassMultiFilter.ctor]
  split <;> simp

/-- C12: for every multi filter that stores as many scalar filters as it
counts (`N`) and every measurement vector `m`: `filter(m)` throws
`std::out_of_range` exactly when `length(m) ≠ N`; otherwise it returns a
vector of length `N` whose element `i` is what channel `i`'s scalar filter
returns on `m[i]`, and the new state of channel `i` is that scalar filter's
state after `filter(m[i])`, a function of the old channel `i` and `m[i]`
alone. A 4-element vector on the 3-channel filter constructed from
coefficients `[2,2,2]` and initial values `[0,0,0]` throws. -/
theorem BasicLowPassMultiFilter.multi_filter_spec :
    (∀ (self : BasicLowPassMultiFilter) (m : List ℚ),
      self.filters_.length = self.num_filters_ →
      ((∃ s, self.filter m = .raised .out_of_range s) ↔ m.length ≠ self.getNumberFilters) ∧
      (m.length = self.getNumberFilters →
        ∃ out fs, self.filter m = .returned out { self with filters_ := fs } ∧
          out.length = self.getNumberFilters ∧ fs.length = self.getNumberFilters ∧
          ∀ i, i < self.getNumberFilters →
            ∃ f x, self.filters_[i]? = some f ∧ m[i]? = some x ∧
              out[i]? = some (f.filter x).1 ∧ fs[i]? = some (f.filter x).2)) ∧
    (∀ self, BasicLowPassMultiFilter.ctor [2, 2, 2] [0, 0, 0] = .returned () self →
      self.filter [1, 1, 1, 1] = .raised .out_of_range self) := by
  refine ⟨fun self m hwf => ⟨?_, ?_⟩, fun self h => ?_⟩
  · by_cases h : m.length = self.num_filters_
    · simp [BasicLowPassMultiFilter.filter_eq self m hwf h, h,
        BasicLowPassMultiFilter.getNumberFilters]
    · simp [BasicLowPassMultiFilter.filter, h, BasicLowPassMultiFilter.getNumberFilters]
  · intro h
    simp only [BasicLowPassMultiFilter.getNumberFilters] at h ⊢
    refine ⟨_, _, BasicLowPassMultiFilter.filter_eq self m hwf h, by simp [hwf, h],
      by simp [hwf, h], fun i hi => ?_⟩
    have hf : i < self.filters_.length := by omega
    have hm : i < m.length := by omega
    exact ⟨self.filters_[i], m[i], List.getElem?_eq_getElem hf, List.getElem?_eq_getElem hm,
      by simp [List.getElem?_eq_getElem, hf, hm], by simp [List.getElem?_eq_getElem, hf, hm]⟩
  · rw [BasicLowPassMultiFilter.ctor_eq [2, 2, 2] [0, 0, 0] rfl] at h
    cases h
    rfl

/-- C12 at a concrete input: the 3-channel filter with coefficients 2 and
initial values 0, on the measurements `[1, 1, 1]`. -/
theorem BasicLowPassMultiFilter.multi_filter_spec_witness :
    ∃ out fs,
      BasicLowPassMultiFilter.filter
          { num_filters_ := 3,
            filters_ := [BasicLowPassFilter.ctor 2 0, BasicLowPassFilter.ctor 2 0,
                         BasicLowPassFilter.ctor 2 0] } [1, 1, 1]
        = .returned out { num_filters_ := 3, filters_ := fs } ∧
      out.length = 3 ∧ fs.length = 3 :=
  let ⟨out, fs, h, ho, hf, _⟩ :=
    (BasicLowPassMultiFilter.multi_filter_spec.1
      { num_filters_ := 3,
        filters_ := [BasicLowPassFilter.ctor 2 0, BasicLowPassFilter.ctor 2 0,
                     BasicLowPassFilter.ctor 2 0] } [1, 1, 1] rfl).2 rfl
  ⟨out, fs, h, ho, hf⟩

/-- A non-negative `int` converts to itself. -/
theorem int_to_size_t_nonneg (index : Int) (h0 : 0 ≤ index) (h1 : index < 2 ^ 31) :
    int_to_size_t index = index.toNat := by
  unfold int_to_size_t
  congr 1
  omega

/-- A negative `int` converts to a value of at least `2^64 - 2^31`. -/
theorem int_to_size_t_neg (index : Int) (h0 : index < 0) (h1 : -2 ^ 31 ≤ index) :
    2 ^ 64 - 2 ^ 31 ≤ int_to_size_t index := by
  unfold int_to_size_t
  omega

/-- C13: for every multi filter that stores as many scalar filters as it
counts (`N`, at most `2^64 - 2^31`, as every vector that fits in memory is),
every signed 32-bit `index` and every value: `reset(index, value)` throws
`std::out_of_range` exactly when `index` is not in `0 .. N-1`, a negative
index included; otherwise it returns, channel `index` is that channel reset
to `value`, and every other channel is unchanged. On the 3-channel filter
with coefficients 2 and initial values 0, the indices -1 and 3 throw. -/
theorem BasicLowPassMultiFilter.reset_index_spec :
    (∀ (self : BasicLowPassMultiFilter) (index : Int) (value : ℚ),
      self.filters_.length = self.num_filters_ →
      self.num_filters_ ≤ 2 ^ 64 - 2 ^ 31 →
      -2 ^ 31 ≤ index → index < 2 ^ 31 →
      ((∃ s, self.reset_index index value = .raised .out_of_range s)
        ↔ ¬(0 ≤ index ∧ index < self.getNumberFilters)) ∧
      (0 ≤ index → index < self.getNumberFilters →
        ∃ f fs, self.filters_[index.toNat]? = some f ∧
          self.reset_index index value = .returned () { self with filters_ := fs } ∧
          fs.length = self.getNumberFilters ∧
          fs[index.toNat]? = some (f.reset value) ∧
          ∀ j, j ≠ index.toNat → fs[j]? = self.filters_[j]?)) ∧
    (∀ (self : BasicLowPassMultiFilter) (value : ℚ),
      BasicLowPassMultiFilter.ctor [2, 2, 2] [0, 0, 0] = .returned () self →
      self.reset_index (-1) value = .raised .out_of_range self ∧
      self.reset_index 3 value = .raised .out_of_range self) := by
  refine ⟨fun self index value hwf hN hlo hhi => ⟨?_, ?_⟩, fun self value h => ?_⟩
  · simp only [BasicLowPassMultiFilter.getNumberFilters]
    by_cases h0 : 0 ≤ index
    · have hc := int_to_size_t_nonneg index h0 hhi
      by_cases h1 : index < self.num_filters_
      · have hlt : index.toNat < self.filters_.length := by omega
        have hge : ¬ (index.toNat ≥ self.num_filters_) := by omega
        simp [BasicLowPassMultiFilter.reset_index, hc, hge, List.getElem?_eq_getElem hlt, h0, h1]
      · have hge : index.toNat ≥ self.num_filters_ := by omega
        simp [BasicLowPassMultiFilter.reset_index, hc, hge, h1]
    · have hc := int_to_size_t_neg index (by omega) hlo
      have hge : int_to_size_t index ≥ self.num_filters_ := by omega
      simp [BasicLowPassMultiFilter.reset_index, hge, h0]
  · intro h0 h1
    simp only [BasicLowPassMultiFilter.getNumberFilters] at h1 ⊢
    have hc := int_to_size_t_nonneg index h0 hhi
    have hlt : index.toNat < self.filters_.length := by omega
    have hge : ¬ (index.toNat ≥ self.num_filters_) := by omega
    refine ⟨self.filters_[index.toNat],
      self.filters_.set index.toNat (self.filters_[index.toNat].reset value),
      List.getElem?_eq_getElem hlt, ?_, ?_, ?_, ?_⟩
    · simp only [BasicLowPassMultiFilter.reset_index, hc, hge, if_false,
        List.getElem?_eq_getElem hlt]
    · simp [hwf]
    · simp [hlt]
    · intro j hj
      simp [List.getElem?_set, Ne.symm hj]
  · rw [BasicLowPassMultiFilter.ctor_eq [2, 2, 2] [0, 0, 0] rfl] at h
    cases h
    exact ⟨by simp [BasicLowPassMultiFilter.reset_index, int_to_size_t],
      by simp [BasicLowPassMultiFilter.reset_index, int_to_size_t]⟩

/-- C13 at a concrete input: index 1 of the 3-channel filter with coefficients
2 and initial values 0, reset to 5. -/
theorem BasicLowPassMultiFilter.reset_index_spec_witness :
    ∃ f fs,
      ([BasicLowPassFilter.ctor 2 0, BasicLowPassFilter.ctor 2 0,
        BasicLowPassFilter.ctor 2 0] : List BasicLowPassFilter)[(1 : Int).toNat]? = some f ∧
      BasicLowPassMultiFilter.reset_index
          { num_filters_ := 3,
            filters_ := [BasicLowPassFilter.ctor 2 0, BasicLowPassFilter.ctor 2 0,
                         BasicLowPassFilter.ctor 2 0] } 1 5
        = .returned () { num_filters_ := 3, filters_ := fs } ∧
      fs[(1 : Int).toNat]? = some (f.reset 5) :=
  let ⟨f, fs, hf, h, _, h1, _⟩ :=
    (BasicLowPassMultiFilter.reset_index_spec.1
      { num_filters_ := 3,
        filters_ := [BasicLowPassFilter.ctor 2 0, BasicLowPassFilter.ctor 2 0,
                     BasicLowPassFilter.ctor 2 0] } 1 5 rfl (by norm_num) (by norm_num)
      (by norm_num)).2 (by norm_num) (by decide)
  ⟨f, fs, hf, h, h1⟩

/-- C14: a multi filter constructed from two sequences of one length counts
`length(initial_values)` filters and stores that many; after every sequence
of `filter`, `reset(values)` and `reset(index, value)` calls, returning or
throwing, it still does. -/
theorem BasicLowPassMultiFilter.channel_count_invariant (cs vs : List ℚ)
    (h : cs.length = vs.length) :
    ∃ self, BasicLowPassMultiFilter.ctor cs vs = .returned () self ∧
      self.getNumberFilters = vs.length ∧ self.filters_.length = vs.length ∧
      ∀ calls : List MultiFilterCall, ∃ self1, self.calls calls = some self1 ∧
        self1.getNumberFilters = vs.length ∧ self1.filters_.length = vs.length := by
  have hlen : (List.zipWith BasicLowPassFilter.ctor cs vs).length = vs.length := by
    simp [h]
  refine ⟨_, BasicLowPassMultiFilter.ctor_eq cs vs h, rfl, hlen, fun calls => ?_⟩
  obtain ⟨s1, hs1, hn1, hl1⟩ := BasicLowPassMultiFilter.calls_count
    { num_filters_ := vs.length, filters_ := List.zipWith BasicLowPassFilter.ctor cs vs }
    calls hlen
  exact ⟨s1, hs1, hn1, hl1⟩

/-- C14 at a concrete input: coefficients `[2,2,2]`, initial values `[0,0,0]`. -/
theorem BasicLowPassMultiFilter.channel_count_invariant_witness :
    ∃ self, BasicLowPassMultiFilter.ctor [2, 2, 2] [0, 0, 0] = .returned () self ∧
      self.getNumberFilters = 3 ∧ self.filters_.length = 3 ∧
      ∀ calls : List MultiFilterCall, ∃ self1, self.calls calls = some self1 ∧
        self1.getNumberFilters = 3 ∧ self1.filters_.length = 3 :=
  BasicLowPassMultiFilter.channel_count_invariant [2, 2, 2] [0, 0, 0] rfl

/-! ### Bounding -/

/-- On a total order `std::min` is the minimum. -/
theorem std_min_eq_min {T : Type} [LinearOrder T] (a b : T) : std_min a b = min a b := by
  unfold std_min
  split_ifs with h
  · exact (min_eq_right (le_of_lt h)).symm
  · exact (min_eq_left (not_lt.mp h)).symm

/-- On a total order `std::max` is the maximum. -/
theorem std_max_eq_max {T : Type} [LinearOrder T] (a b : T) : std_max a b = max a b := by
  unfold std_max
  split_ifs with h
  · exact (max_eq_right (le_of_lt h)).symm
  · exact (max_eq_left (not_lt.mp h)).symm

/-- The template `bound` in terms of the minimum and the maximum. -/
theorem bound_eq_max_min {T : Type} [LinearOrder T] (n lower upper : T) :
    bound n lower upper = max lower (min n upper) := by
  rw [bound, std_max_eq_max, std_min_eq_min]

/-- C15: for every `n`, `lower` and `upper` of a totally ordered type,
`bound(n, lower, upper) = max(lower, min(n, upper))`; hence when
`lower ≤ upper` the result lies in `[lower, upper]`, and it is `n` whenever
`lower ≤ n ≤ upper`. On the integers, `bound(1000,-100,100) = 100`,
`bound(-1000,-100,100) = -100` and `bound(42,-100,100) = 42`. -/
theorem bound_spec :
    (∀ (T : Type) [LinearOrder T] (n lower upper : T),
      bound n lower upper = max lower (min n upper) ∧
      (lower ≤ upper → lower ≤ bound n lower upper ∧ bound n lower upper ≤ upper) ∧
      (lower ≤ n → n ≤ upper → bound n lower upper = n)) ∧
    bound (1000 : Int) (-100) 100 = 100 ∧
    bound (-1000 : Int) (-100) 100 = -100 ∧
    bound (42 : Int) (-100) 100 = 42 := by
  refine ⟨fun T _ n lower upper => ⟨bound_eq_max_min n lower upper, fun h => ?_, fun h1 h2 => ?_⟩,
    by decide, by decide, by decide⟩
  · rw [bound_eq_max_min]
    exact ⟨le_max_left _ _, max_le h (min_le_right _ _)⟩
  · rw [bound_eq_max_min, min_eq_left h2, max_eq_right h1]

/-- C15 at a concrete input: on the rationals, with `-100 ≤ 100` and
`-100 ≤ 42 ≤ 100`. -/
theorem bound_spec_witness :
    ((-100 : ℚ) ≤ bound 42 (-100) 100 ∧ bound (42 : ℚ) (-100) 100 ≤ 100) ∧
    bound (42 : ℚ) (-100) 100 = 42 :=
  ⟨(bound_spec.1 ℚ 42 (-100) 100).2.1 (by norm_num),
   (bound_spec.1 ℚ 42 (-100) 100).2.2 (by norm_num) (by norm_num)⟩

/-- A loop that appends one element `g i` per index builds the list of the
`g i`, after what was there. -/
theorem foldl_push {α : Type} (g : Nat → α) (l : List Nat) (init : List α) :
    l.foldl (fun (out : List α) (i : Nat) => out ++ [g i]) init = init ++ l.map g := by
  induction l generalizing init with
  | nil => simp
  | cons i l ih => simp [List.foldl_cons, ih]

/-- Reading every index of a vector in order gives the vector. -/
theorem map_idx_range (v : List ℚ) : (List.range v.length).map (idx v) = v := by
  apply List.ext_getElem
  · simp
  · intro i h1 h2
    simp [idx, List.getD_eq_getElem?_getD, List.getElem?_eq_getElem h2]

/-- The vector that `boundAll` builds before it converts back. -/
theorem boundAll_eq {T U : Type} [VecConvertible T] [VecConvertible U] [Inhabited T]
    (input : T) (lower upper : U)
    (h1 : (VecConvertible.toVec input).length = (VecConvertible.toVec lower).length)
    (h2 : (VecConvertible.toVec input).length = (VecConvertible.toVec upper).length) :
    boundAll input lower upper
      = .ok (VecConvertible.fromVec
          ((List.range (VecConvertible.toVec input).length).map (fun i =>
            bound (idx (VecConvertible.toVec input) i) (idx (VecConvertible.toVec lower) i)
              (idx (VecConvertible.toVec upper) i)))
          (default : T)).2 := by
  have hc : ∀ (V : Type) [VecConvertible V] (a : V),
      (convert a ([] : List ℚ)).2 = VecConvertible.toVec a := fun _ _ _ => rfl
  simp only [boundAll, hc, ← h1, ← h2, ne_eq, not_true_eq_false, or_self, if_false]
  rw [foldl_push (fun i => bound (idx (VecConvertible.toVec input) i)
    (idx (VecConvertible.toVec lower) i) (idx (VecConvertible.toVec upper) i))]
  simp

/-- C16: for all vectors `input`, `lower` and `upper` of one length `n`,
`boundAll(input, lower, upper)` returns the vector of length `n` whose element
`i` is `bound(input[i], lower[i], upper[i])`. The input `[9,8,7,6,5,4,3,2,1]`
with `lower` all -5 and `upper` all 5 gives `[5,5,5,5,5,4,3,2,1]`. -/
theorem boundAll_vector_spec :
    (∀ input lower upper : List ℚ,
      input.length = lower.length → input.length = upper.length →
      ∃ r : List ℚ, boundAll input lower upper = .ok r ∧ r.length = input.length ∧
        ∀ i, i < input.length →
          ∃ a l u, input[i]? = some a ∧ lower[i]? = some l ∧ upper[i]? = some u ∧
            r[i]? = some (bound a l u)) ∧
    boundAll [(9 : ℚ), 8, 7, 6, 5, 4, 3, 2, 1] (List.replicate 9 (-5 : ℚ)) (List.replicate 9 (5 : ℚ))
      = .ok [5, 5, 5, 5, 5, 4, 3, 2, 1] := by
  refine ⟨fun input lower upper h1 h2 => ?_, by rfl⟩
  refine ⟨_, boundAll_eq input lower upper h1 h2, ?_, fun i hi => ?_⟩
  · show ((List.range input.length).map _).length = input.length
    simp
  · have hl : i < lower.length := by omega
    have hu : i < upper.length := by omega
    refine ⟨idx input i, idx lower i, idx upper i, idx_eq_getElem_some input i hi,
      idx_eq_getElem_some lower i hl, idx_eq_getElem_some upper i hu, ?_⟩
    show ((List.range input.length).map _)[i]? = _
    simp only [List.getElem?_map, List.getElem?_range hi, Option.map_some']
    rfl

/-- C16 at a concrete input: the three vectors of the test, of length 9. -/
theorem boundAll_vector_spec_witness :
    ∃ r : List ℚ,
      boundAll [(9 : ℚ), 8, 7, 6, 5, 4, 3, 2, 1] (List.replicate 9 (-5 : ℚ))
          (List.replicate 9 (5 : ℚ)) = .ok r ∧
      r.length = 9 :=
  let ⟨r, h, hl, _⟩ := boundAll_vector_spec.1 [(9 : ℚ), 8, 7, 6, 5, 4, 3, 2, 1]
    (List.replicate 9 (-5 : ℚ)) (List.replicate 9 (5 : ℚ)) rfl rfl
  ⟨r, h, hl⟩

/-- C17: `boundAll(input, lower, upper)` throws `std::invalid_argument`
exactly when the vectors of `input`, `lower` and `upper` do not all have one
length; when the three lengths agree it returns a value. -/
theorem boundAll_error_iff {T U : Type} [VecConvertible T] [VecConvertible U] [Inhabited T]
    (input : T) (lower upper : U) :
    (boundAll input lower upper = .error .invalid_argument ↔
      ¬((VecConvertible.toVec input).length = (VecConvertible.toVec lower).length ∧
        (VecConvertible.toVec input).length = (VecConvertible.toVec upper).length)) ∧
    ((VecConvertible.toVec input).length = (VecConvertible.toVec lower).length →
      (VecConvertible.toVec input).length = (VecConvertible.toVec upper).length →
      ∃ r, boundAll input lower upper = .ok r) := by
  constructor
  · by_cases h : (VecConvertible.toVec input).length = (VecConvertible.toVec lower).length ∧
        (VecConvertible.toVec input).length = (VecConvertible.toVec upper).length
    · rw [boundAll_eq input lower upper h.1 h.2]
      exact ⟨fun hh => Except.noConfusion hh, fun hn => absurd h hn⟩
    · have hc : ∀ (V : Type) [VecConvertible V] (a : V),
          (convert a ([] : List ℚ)).2 = VecConvertible.toVec a := fun _ _ _ => rfl
      have h3 : (VecConvertible.toVec input).length ≠ (VecConvertible.toVec lower).length ∨
          (VecConvertible.toVec input).length ≠ (VecConvertible.toVec upper).length := by
        by_contra hn
        push_neg at hn
        exact h hn
      simp only [boundAll, hc, h3, if_true, h, not_false_eq_true]
  · intro h1 h2
    exact ⟨_, boundAll_eq input lower upper h1 h2⟩

/-- C17 at a concrete input: a `Twist` bounded by two 6-element vectors
returns; bounded by two 5-element vectors it throws. -/
theorem boundAll_error_iff_witness :
    (∃ r : Twist, boundAll (default : Twist) (List.replicate 6 (0 : ℚ)) (List.replicate 6 (1 : ℚ))
      = .ok r) ∧
    boundAll (default : Twist) (List.replicate 5 (0 : ℚ)) (List.replicate 5 (1 : ℚ))
      = .error .invalid_argument :=
  ⟨(boundAll_error_iff (default : Twist) (List.replicate 6 (0 : ℚ))
      (List.replicate 6 (1 : ℚ))).2 rfl rfl,
   (boundAll_error_iff (default : Twist) (List.replicate 5 (0 : ℚ))
      (List.replicate 5 (1 : ℚ))).1.2 (by decide)⟩

/-- C18: bounds of another type than the input. For every `Wrench` `w` and
all 6-element vectors `lower` and `upper`, `boundAll(w, lower, upper)` returns
a `Wrench` `r` with `toVec(r)[i] = bound(toVec(w)[i], lower[i], upper[i])` for
every `i` in `0..5`. The wrench `(111,222,333,444,555,666)` with `lower` all
200 and `upper` all 400 gives force `(200,222,333)` and torque `(400,400,400)`. -/
theorem boundAll_wrench_spec :
    (∀ (w : Wrench) (lower upper : List ℚ), lower.length = 6 → upper.length = 6 →
      ∃ r : Wrench, boundAll w lower upper = .ok r ∧
        ∀ i, i < 6 →
          ∃ a l u, w.toVec[i]? = some a ∧ lower[i]? = some l ∧ upper[i]? = some u ∧
            r.toVec[i]? = some (bound a l u)) ∧
    boundAll ({ force := { x := 111, y := 222, z := 333 },
                torque := { x := 444, y := 555, z := 666 } } : Wrench)
        (List.replicate 6 (200 : ℚ)) (List.replicate 6 (400 : ℚ))
      = .ok { force := { x := 200, y := 222, z := 333 },
              torque := { x := 400, y := 400, z := 400 } } := by
  refine ⟨fun w lower upper h1 h2 => ?_, by rfl⟩
  have hw : (VecConvertible.toVec w).length = 6 := rfl
  refine ⟨_, boundAll_eq w lower upper (hw.trans h1.symm) (hw.trans h2.symm), fun i hi => ?_⟩
  have hl : i < lower.length := by omega
  have hu : i < upper.length := by omega
  refine ⟨idx w.toVec i, idx lower i, idx upper i, idx_eq_getElem_some _ i hi,
    idx_eq_getElem_some lower i hl, idx_eq_getElem_some upper i hu, ?_⟩
  rw [hw]
  interval_cases i <;> rfl

/-- C18 at a concrete input: the wrench and the 6-element bounds of the test. -/
theorem boundAll_wrench_spec_witness :
    ∃ r : Wrench,
      boundAll ({ force := { x := 111, y := 222, z := 333 },
                  torque := { x := 444, y := 555, z := 666 } } : Wrench)
          (List.replicate 6 (200 : ℚ)) (List.replicate 6 (400 : ℚ)) = .ok r ∧
      r.toVec[0]? = some (bound 111 200 400) :=
  let ⟨r, h, hr⟩ := boundAll_wrench_spec.1
    { force := { x := 111, y := 222, z := 333 }, torque := { x := 444, y := 555, z := 666 } }
    (List.replicate 6 (200 : ℚ)) (List.replicate 6 (400 : ℚ)) rfl rfl
  let ⟨_, _, _, ha, hl, hu, hb⟩ := hr 0 (by decide)
  ⟨r, h, by
    have ha1 := Option.some.inj ha
    have hl1 := Option.some.inj hl
    have hu1 := Option.some.inj hu
    rw [hb, ← ha1, ← hl1, ← hu1]
    rfl⟩

/-! ### Uniform bounding -/

/-- The overload `toVec(Eigen::VectorXd)` returns the coefficients. -/
theorem VectorXd.toVec_eq (v : VectorXd) : v.toVec = v.coeffs := by
  unfold VectorXd.toVec VectorXd.size
  rw [foldl_push (fun i => v.coeff i)]
  exact map_idx_range v.coeffs

/-- The loop of `fromVec` into a `VectorXd`, run for `k` rounds: the first `k`
coefficients are those of the input. -/
theorem VectorXd.fromVec_set_loop (input : List ℚ) (k : Nat) (hk : k ≤ input.length) :
    (List.range k).foldl
        (fun (vec : VectorXd) (i : Nat) => vec.setCoeff i (idx input i))
        { coeffs := List.replicate input.length 0 }
      = { coeffs := input.take k ++ (List.replicate input.length (0 : ℚ)).drop k } := by
  induction k with
  | zero => simp
  | succ k ih =>
    have hk1 : k < input.length := hk
    have hr : k < (List.replicate input.length (0 : ℚ)).length := by simpa using hk1
    have hlen : (input.take k).length = k := by
      simp [List.length_take, Nat.min_eq_left (le_of_lt hk1)]
    rw [List.range_succ, List.foldl_append, ih (le_of_lt hk1)]
    simp only [List.foldl_cons, List.foldl_nil, VectorXd.setCoeff,
      set_take_drop _ _ _ _ hr hlen]
    rw [List.take_succ, List.getElem?_eq_getElem hk1]
    simp [idx, List.getD_eq_getElem?_getD, List.getElem?_eq_getElem hk1]

/-- The overload `fromVec` into a `VectorXd` returns true and the vector of
the input's elements. -/
theorem VectorXd.fromVec_eq (input : List ℚ) (out : VectorXd) :
    VectorXd.fromVec input out = (true, { coeffs := input }) := by
  simp only [VectorXd.fromVec]
  rw [VectorXd.fromVec_set_loop input input.length (le_refl _)]
  simp

/-- The value of `min_multiplier` after the first `k` rounds of the loop of
`boundUniform`. -/
theorem boundUniform_loop (inp lim : VectorXd) (k : Nat) :
    0 ≤ (List.range k).foldl
        (fun (min_multiplier : ℚ) (i : Nat) =>
          if |inp.coeff i| > |lim.coeff i| then
            std_min min_multiplier (|lim.coeff i| / |inp.coeff i|)
          else min_multiplier) 1 ∧
    (List.range k).foldl
        (fun (min_multiplier : ℚ) (i : Nat) =>
          if |inp.coeff i| > |lim.coeff i| then
            std_min min_multiplier (|lim.coeff i| / |inp.coeff i|)
          else min_multiplier) 1 ≤ 1 ∧
    (∀ j, j < k → |inp.coeff j| > |lim.coeff j| →
      (List.range k).foldl
        (fun (min_multiplier : ℚ) (i : Nat) =>
          if |inp.coeff i| > |lim.coeff i| then
            std_min min_multiplier (|lim.coeff i| / |inp.coeff i|)
          else min_multiplier) 1 ≤ |lim.coeff j| / |inp.coeff j|) ∧
    ((∀ j, j < k → lim.coeff j = 0 → inp.coeff j = 0) →
      0 < (List.range k).foldl
        (fun (min_multiplier : ℚ) (i : Nat) =>
          if |inp.coeff i| > |lim.coeff i| then
            std_min min_multiplier (|lim.coeff i| / |inp.coeff i|)
          else min_multiplier) 1) := by
  induction k with
  | zero => simp
  | succ k ih =>
    obtain ⟨h0, h1, hle, hpos⟩ := ih
    rw [List.range_succ, List.foldl_append]
    simp only [List.foldl_cons, List.foldl_nil]
    generalize (List.range k).foldl
        (fun (min_multiplier : ℚ) (i : Nat) =>
          if |inp.coeff i| > |lim.coeff i| then
            std_min min_multiplier (|lim.coeff i| / |inp.coeff i|)
          else min_multiplier) 1 = s at h0 h1 hle hpos ⊢
    have hr : 0 ≤ |lim.coeff k| / |inp.coeff k| := div_nonneg (abs_nonneg _) (abs_nonneg _)
    by_cases hc : |inp.coeff k| > |lim.coeff k|
    · simp only [hc, if_true, std_min_eq_min]
      refine ⟨le_min h0 hr, le_trans (min_le_left _ _) h1, fun j hj hcj => ?_, fun hz => ?_⟩
      · rcases Nat.lt_succ_iff_lt_or_eq.mp hj with hlt | heq
        · exact le_trans (min_le_left _ _) (hle j hlt hcj)
        · subst heq
          exact min_le_right _ _
      · have hs : 0 < s := hpos (fun j hj => hz j (Nat.lt_succ_of_lt hj))
        have hin : 0 < |inp.coeff k| := lt_of_le_of_lt (abs_nonneg _) hc
        have hlim : lim.coeff k ≠ 0 := fun hl0 =>
          (ne_of_gt hin) (by rw [hz k (Nat.lt_succ_self k) hl0, abs_zero])
        exact lt_min hs (div_pos (abs_pos.mpr hlim) hin)
    · simp only [hc, if_false]
      refine ⟨h0, h1, fun j hj hcj => ?_, fun hz => hpos (fun j hj => hz j (Nat.lt_succ_of_lt hj))⟩
      rcases Nat.lt_succ_iff_lt_or_eq.mp hj with hlt | heq
      · exact hle j hlt hcj
      · subst heq
        exact absurd hcj hc

/-- The template `convert` into a `VectorXd` returns true and the vector of
the source's elements. -/
theorem convert_VectorXd {T : Type} [VecConvertible T] (a : T) (out : VectorXd) :
    convert a out = (true, { coeffs := VecConvertible.toVec a }) :=
  VectorXd.fromVec_eq (VecConvertible.toVec a) out

/-- On two vectors of one length `boundUniform` returns the input with every
element multiplied by `min_multiplier`. -/
theorem boundUniform_vector_eq (input limit : List ℚ) (h : input.length = limit.length) :
    boundUniform input limit
      = .ok (input.map (fun a =>
          a * boundUniform_min_multiplier { coeffs := input } { coeffs := limit })) := by
  have hi : (VecConvertible.toVec input : List ℚ) = input := rfl
  have hl : (VecConvertible.toVec limit : List ℚ) = limit := rfl
  have hs : ∀ v : VectorXd, (convert v ([] : List ℚ)).2 = v.coeffs := fun v =>
    VectorXd.toVec_eq v
  have hd : (default : List ℚ) = [] := rfl
  simp only [boundUniform, convert_VectorXd, hi, hl, VectorXd.size, h, ne_eq,
    not_true_eq_false, if_false, hd, hs, VectorXd.scale]

/-- C19 as stated fails: with the input `[1]` and the limit `[0]`, two vectors
of length 1, `min_multiplier` is 0, which is not in `(0, 1]`. -/
theorem boundUniform_scale_counterexample :
    (VecConvertible.toVec [(1 : ℚ)]).length = (VecConvertible.toVec [(0 : ℚ)]).length ∧
    boundUniform_min_multiplier (convert [(1 : ℚ)] (default : VectorXd)).2
        (convert [(0 : ℚ)] (default : VectorXd)).2 = 0 ∧
    ¬(0 < boundUniform_min_multiplier (convert [(1 : ℚ)] (default : VectorXd)).2
          (convert [(0 : ℚ)] (default : VectorXd)).2 ∧
      boundUniform_min_multiplier (convert [(1 : ℚ)] (default : VectorXd)).2
          (convert [(0 : ℚ)] (default : VectorXd)).2 ≤ 1) := by
  have hs : boundUniform_min_multiplier (convert [(1 : ℚ)] (default : VectorXd)).2
      (convert [(0 : ℚ)] (default : VectorXd)).2 = 0 := by
    rw [convert_VectorXd, convert_VectorXd]
    simp [boundUniform_min_multiplier, VectorXd.size, VectorXd.coeff, idx, std_min,
      VecConvertible.toVec, StdVector.toVec, List.range_succ]
  refine ⟨rfl, hs, ?_⟩
  rw [hs]
  norm_num

/-- C19, amended: for every input and limit whose vectors have one length,
the `min_multiplier` that `boundUniform` computes satisfies `0 ≤ s ≤ 1`. -/
theorem boundUniform_scale_bounds {T U : Type} [VecConvertible T] [VecConvertible U]
    (input : T) (limit : U)
    (_h : (VecConvertible.toVec input).length = (VecConvertible.toVec limit).length) :
    0 ≤ boundUniform_min_multiplier (convert input (default : VectorXd)).2
        (convert limit (default : VectorXd)).2 ∧
    boundUniform_min_multiplier (convert input (default : VectorXd)).2
        (convert limit (default : VectorXd)).2 ≤ 1 := by
  rw [convert_VectorXd, convert_VectorXd]
  obtain ⟨h0, h1, -, -⟩ := boundUniform_loop { coeffs := VecConvertible.toVec input }
    { coeffs := VecConvertible.toVec limit } (VecConvertible.toVec input).length
  exact ⟨h0, h1⟩

/-- C19, amended, at a concrete input: the two vectors of the test, of
length 5. -/
theorem boundUniform_scale_bounds_witness :
    0 ≤ boundUniform_min_multiplier
        (convert [(-10 : ℚ), 10, 0, -5, -5] (default : VectorXd)).2
        (convert [(-20 : ℚ), 5, -10, 1, 100] (default : VectorXd)).2 ∧
    boundUniform_min_multiplier
        (convert [(-10 : ℚ), 10, 0, -5, -5] (default : VectorXd)).2
        (convert [(-20 : ℚ), 5, -10, 1, 100] (default : VectorXd)).2 ≤ 1 :=
  boundUniform_scale_bounds [(-10 : ℚ), 10, 0, -5, -5] [(-20 : ℚ), 5, -10, 1, 100] rfl

/-- C20: for all vectors `input` and `limit` of one length, the result `r` of
`boundUniform(input, limit)` has that length and respects every element's
symmetric bound: `|r[i]| ≤ |limit[i]|` at every index `i`. -/
theorem boundUniform_respects_limit (input limit : List ℚ)
    (h : input.length = limit.length) :
    ∃ r : List ℚ, boundUniform input limit = .ok r ∧ r.length = input.length ∧
      ∀ i, i < input.length →
        ∃ x l, r[i]? = some x ∧ limit[i]? = some l ∧ |x| ≤ |l| := by
  obtain ⟨h0, h1, hle, -⟩ := boundUniform_loop { coeffs := input } { coeffs := limit }
    input.length
  refine ⟨_, boundUniform_vector_eq input limit h, by simp, fun i hi => ?_⟩
  have hl : i < limit.length := by omega
  refine ⟨idx input i * boundUniform_min_multiplier { coeffs := input } { coeffs := limit },
    idx limit i, ?_, idx_eq_getElem_some limit i hl, ?_⟩
  · rw [List.getElem?_map, idx_eq_getElem_some input i hi]
    rfl
  · have hs0 : 0 ≤ boundUniform_min_multiplier { coeffs := input } { coeffs := limit } := h0
    have hs1 : boundUniform_min_multiplier { coeffs := input } { coeffs := limit } ≤ 1 := h1
    rw [abs_mul, abs_of_nonneg hs0]
    by_cases hc : |idx input i| > |idx limit i|
    · have hin : 0 < |idx input i| := lt_of_le_of_lt (abs_nonneg _) hc
      have hsr : boundUniform_min_multiplier { coeffs := input } { coeffs := limit }
          ≤ |idx limit i| / |idx input i| := hle i hi hc
      calc |idx input i| * boundUniform_min_multiplier { coeffs := input } { coeffs := limit }
          ≤ |idx input i| * (|idx limit i| / |idx input i|) :=
            mul_le_mul_of_nonneg_left hsr (le_of_lt hin)
        _ = |idx limit i| := by field_simp
    · calc |idx input i| * boundUniform_min_multiplier { coeffs := input } { coeffs := limit }
          ≤ |idx input i| * 1 := mul_le_mul_of_nonneg_left hs1 (abs_nonneg _)
        _ = |idx input i| := mul_one _
        _ ≤ |idx limit i| := not_lt.mp hc

/-- C20 at a concrete input: the two vectors of the test, of length 5. -/
theorem boundUniform_respects_limit_witness :
    ∃ r : List ℚ,
      boundUniform [(-10 : ℚ), 10, 0, -5, -5] [(-20 : ℚ), 5, -10, 1, 100] = .ok r ∧
      r.length = 5 :=
  let ⟨r, h, hl, _⟩ :=
    boundUniform_respects_limit [(-10 : ℚ), 10, 0, -5, -5] [(-20 : ℚ), 5, -10, 1, 100] rfl
  ⟨r, h, hl⟩

/-- The value of `min_multiplier` after the first `k` rounds of the loop of
`boundUniform` is 1 or the ratio of one of the indices seen that exceed their
limit. -/
theorem boundUniform_loop_attained (inp lim : VectorXd) (k : Nat) :
    (List.range k).foldl
        (fun (min_multiplier : ℚ) (i : Nat) =>
          if |inp.coeff i| > |lim.coeff i| then
            std_min min_multiplier (|lim.coeff i| / |inp.coeff i|)
          else min_multiplier) 1 = 1 ∨
    ∃ j, j < k ∧ |inp.coeff j| > |lim.coeff j| ∧
      (List.range k).foldl
        (fun (min_multiplier : ℚ) (i : Nat) =>
          if |inp.coeff i| > |lim.coeff i| then
            std_min min_multiplier (|lim.coeff i| / |inp.coeff i|)
          else min_multiplier) 1 = |lim.coeff j| / |inp.coeff j| := by
  induction k with
  | zero => simp
  | succ k ih =>
    rw [List.range_succ, List.foldl_append]
    simp only [List.foldl_cons, List.foldl_nil]
    generalize (List.range k).foldl
        (fun (min_multiplier : ℚ) (i : Nat) =>
          if |inp.coeff i| > |lim.coeff i| then
            std_min min_multiplier (|lim.coeff i| / |inp.coeff i|)
          else min_multiplier) 1 = s at ih ⊢
    have hold : s = 1 ∨ ∃ j, j < k + 1 ∧ |inp.coeff j| > |lim.coeff j| ∧
        s = |lim.coeff j| / |inp.coeff j| := by
      rcases ih with h | ⟨j, hj, hc, hs⟩
      · exact Or.inl h
      · exact Or.inr ⟨j, Nat.lt_succ_of_lt hj, hc, hs⟩
    by_cases hc : |inp.coeff k| > |lim.coeff k|
    · simp only [hc, if_true, std_min_eq_min]
      rcases le_total s (|lim.coeff k| / |inp.coeff k|) with hle | hle
      · rw [min_eq_left hle]
        exact hold
      · rw [min_eq_right hle]
        exact Or.inr ⟨k, Nat.lt_succ_self k, hc, rfl⟩
    · simp only [hc, if_false]
      exact hold

/-- Every element of the input times `min_multiplier` is within its limit. -/
theorem boundUniform_scaled_le (input limit : List ℚ) (i : Nat) (hi : i < input.length) :
    |idx input i * boundUniform_min_multiplier { coeffs := input } { coeffs := limit }|
      ≤ |idx limit i| := by
  obtain ⟨h0, h1, hle, -⟩ := boundUniform_loop { coeffs := input } { coeffs := limit }
    input.length
  have hs0 : 0 ≤ boundUniform_min_multiplier { coeffs := input } { coeffs := limit } := h0
  have hs1 : boundUniform_min_multiplier { coeffs := input } { coeffs := limit } ≤ 1 := h1
  rw [abs_mul, abs_of_nonneg hs0]
  by_cases hc : |idx input i| > |idx limit i|
  · have hin : 0 < |idx input i| := lt_of_le_of_lt (abs_nonneg _) hc
    have hsr : boundUniform_min_multiplier { coeffs := input } { coeffs := limit }
        ≤ |idx limit i| / |idx input i| := hle i hi hc
    calc |idx input i| * boundUniform_min_multiplier { coeffs := input } { coeffs := limit }
        ≤ |idx input i| * (|idx limit i| / |idx input i|) :=
          mul_le_mul_of_nonneg_left hsr (le_of_lt hin)
      _ = |idx limit i| := by field_simp
  · calc |idx input i| * boundUniform_min_multiplier { coeffs := input } { coeffs := limit }
        ≤ |idx input i| * 1 := mul_le_mul_of_nonneg_left hs1 (abs_nonneg _)
      _ = |idx input i| := mul_one _
      _ ≤ |idx limit i| := not_lt.mp hc

/-- An element read through `[i]?` is the one `idx` reads. -/
theorem idx_of_getElem_some (v : List ℚ) (i : Nat) (x : ℚ) (h : v[i]? = some x) : idx v i = x := by
  simp [idx, List.getD_eq_getElem?_getD, h]

/-- With no element over its limit, `min_multiplier` is 1. -/
theorem boundUniform_min_multiplier_eq_one (input limit : List ℚ)
    (hb : ∀ i, i < input.length → |idx input i| ≤ |idx limit i|) :
    boundUniform_min_multiplier { coeffs := input } { coeffs := limit } = 1 := by
  rcases boundUniform_loop_attained { coeffs := input } { coeffs := limit } input.length with
    h | ⟨j, hj, hc, -⟩
  · exact h
  · exact absurd (hb j hj) (not_le.mpr hc)

/-- C21: for all vectors `input` and `limit` of one length,
`boundUniform(input, limit)[i] = s * input[i]` at every index `i`, with the one
factor `s` that is the least of 1 and of the ratios `|limit[j]| / |input[j]|`
over the indices `j` with `|input[j]| > |limit[j]|`. The input
`[-10,10,0,-5,-5]` with the limit `[-20,5,-10,1,100]` gives `s = 1/5` and the
output `[-2,2,0,-1,-1]`. -/
theorem boundUniform_scale_spec :
    (∀ input limit : List ℚ, input.length = limit.length →
      ∃ (s : ℚ) (r : List ℚ),
        s = boundUniform_min_multiplier (convert input (default : VectorXd)).2
              (convert limit (default : VectorXd)).2 ∧
        boundUniform input limit = .ok r ∧ r.length = input.length ∧
        (∀ i, i < input.length → ∃ x, input[i]? = some x ∧ r[i]? = some (s * x)) ∧
        IsLeast {q : ℚ | q = 1 ∨ ∃ (j : Nat) (x l : ℚ), input[j]? = some x ∧ limit[j]? = some l ∧
          |x| > |l| ∧ q = |l| / |x|} s) ∧
    boundUniform_min_multiplier (convert [(-10 : ℚ), 10, 0, -5, -5] (default : VectorXd)).2
        (convert [(-20 : ℚ), 5, -10, 1, 100] (default : VectorXd)).2 = 1 / 5 ∧
    boundUniform [(-10 : ℚ), 10, 0, -5, -5] [(-20 : ℚ), 5, -10, 1, 100]
      = .ok [-2, 2, 0, -1, -1] := by
  have hs : boundUniform_min_multiplier { coeffs := [(-10 : ℚ), 10, 0, -5, -5] }
      { coeffs := [(-20 : ℚ), 5, -10, 1, 100] } = 1 / 5 := by
    simp [boundUniform_min_multiplier, VectorXd.size, VectorXd.coeff, idx, std_min,
      List.range_succ]
    norm_num [abs_of_nonneg, abs_of_neg]
  refine ⟨fun input limit h => ?_, ?_, ?_⟩
  · refine ⟨boundUniform_min_multiplier { coeffs := input } { coeffs := limit },
      input.map (fun a => a * boundUniform_min_multiplier { coeffs := input } { coeffs := limit }),
      ?_, boundUniform_vector_eq input limit h, by simp, fun i hi => ?_, ?_, ?_⟩
    · rw [convert_VectorXd, convert_VectorXd]
      rfl
    · refine ⟨idx input i, idx_eq_getElem_some input i hi, ?_⟩
      rw [List.getElem?_map, idx_eq_getElem_some input i hi, mul_comm]
      rfl
    · rcases boundUniform_loop_attained { coeffs := input } { coeffs := limit } input.length with
        h1 | ⟨j, hj, hc, hs⟩
      · exact Or.inl h1
      · exact Or.inr ⟨j, idx input j, idx limit j, idx_eq_getElem_some input j hj,
          idx_eq_getElem_some limit j (by omega), hc, hs⟩
    · intro q hq
      obtain ⟨-, h1, hle, -⟩ := boundUniform_loop { coeffs := input } { coeffs := limit }
        input.length
      rcases hq with hq1 | ⟨j, x, l, hx, hl, hc, hq⟩
      · rw [hq1]
        exact h1
      · have hj : j < input.length := by
          by_contra hn
          rw [List.getElem?_eq_none (not_lt.mp hn)] at hx
          exact Option.noConfusion hx
        have hxi := idx_of_getElem_some input j x hx
        have hli := idx_of_getElem_some limit j l hl
        rw [hq, ← hxi, ← hli]
        exact hle j hj (by rw [VectorXd.coeff, VectorXd.coeff, hxi, hli]; exact hc)
  · rw [convert_VectorXd, convert_VectorXd]
    exact hs
  · rw [boundUniform_vector_eq [(-10 : ℚ), 10, 0, -5, -5] [(-20 : ℚ), 5, -10, 1, 100] rfl, hs]
    norm_num

/-- C21 at a concrete input: the two vectors of the test, of length 5. -/
theorem boundUniform_scale_spec_witness :
    ∃ (s : ℚ) (r : List ℚ),
      boundUniform [(-10 : ℚ), 10, 0, -5, -5] [(-20 : ℚ), 5, -10, 1, 100] = .ok r ∧
      r.length = 5 ∧
      ∀ i, i < 5 → ∃ x, [(-10 : ℚ), 10, 0, -5, -5][i]? = some x ∧ r[i]? = some (s * x) :=
  let ⟨s, r, _, h, hl, hr, _⟩ :=
    boundUniform_scale_spec.1 [(-10 : ℚ), 10, 0, -5, -5] [(-20 : ℚ), 5, -10, 1, 100] rfl
  ⟨s, r, h, hl, hr⟩

/-- C27: maximality of the uniform scale. For all vectors `input` and `limit`
of one length, with `s` the factor that `boundUniform` applies, every `s'` in
`[0, 1]` with `|s' * input[i]| ≤ |limit[i]|` at every index `i` satisfies
`s' ≤ s`. -/
theorem boundUniform_scale_maximal (input limit : List ℚ) (h : input.length = limit.length)
    (s' : ℚ) (_h0 : 0 ≤ s') (h1 : s' ≤ 1)
    (hb : ∀ (i : Nat) (x l : ℚ), input[i]? = some x → limit[i]? = some l → |s' * x| ≤ |l|) :
    boundUniform input limit
      = .ok (input.map (fun a =>
          a * boundUniform_min_multiplier (convert input (default : VectorXd)).2
                (convert limit (default : VectorXd)).2)) ∧
    s' ≤ boundUniform_min_multiplier (convert input (default : VectorXd)).2
          (convert limit (default : VectorXd)).2 := by
  rw [convert_VectorXd, convert_VectorXd]
  refine ⟨boundUniform_vector_eq input limit h, ?_⟩
  have hi : (VecConvertible.toVec input : List ℚ) = input := rfl
  have hl : (VecConvertible.toVec limit : List ℚ) = limit := rfl
  rw [hi, hl]
  rcases boundUniform_loop_attained { coeffs := input } { coeffs := limit } input.length with
    hs | ⟨j, hj, hc, hs⟩
  · rw [show boundUniform_min_multiplier { coeffs := input } { coeffs := limit } = 1 from hs]
    exact h1
  · rw [show boundUniform_min_multiplier { coeffs := input } { coeffs := limit }
      = |idx limit j| / |idx input j| from hs]
    have hin : 0 < |idx input j| := lt_of_le_of_lt (abs_nonneg _) hc
    have hbj := hb j (idx input j) (idx limit j) (idx_eq_getElem_some input j hj)
      (idx_eq_getElem_some limit j (by omega))
    rw [abs_mul] at hbj
    rw [le_div_iff₀ hin]
    exact le_trans (mul_le_mul_of_nonneg_right (le_abs_self s') (abs_nonneg _)) hbj

/-- C27 at a concrete input: the two vectors of the test and `s' = 1/10`. -/
theorem boundUniform_scale_maximal_witness :
    (1 / 10 : ℚ) ≤ boundUniform_min_multiplier
        (convert [(-10 : ℚ), 10, 0, -5, -5] (default : VectorXd)).2
        (convert [(-20 : ℚ), 5, -10, 1, 100] (default : VectorXd)).2 :=
  (boundUniform_scale_maximal [(-10 : ℚ), 10, 0, -5, -5] [(-20 : ℚ), 5, -10, 1, 100] rfl
    (1 / 10) (by norm_num) (by norm_num)
    (fun i x l hx hl => by
      have hi : i < 5 := by
        by_contra hn
        rw [List.getElem?_eq_none (by simpa using hn)] at hx
        exact Option.noConfusion hx
      interval_cases i <;> simp at hx hl <;> subst hx <;> subst hl <;>
        norm_num [abs_of_nonneg, abs_of_neg])).2

/-- C28: for all vectors `input` and `limit` of one length, if
`|input[i]| ≤ |limit[i]|` at every index then `boundUniform(input, limit)` is
`input`; and `boundUniform` is idempotent: bounding its own result by the same
limit gives that result again. -/
theorem boundUniform_fixed_point :
    (∀ input limit : List ℚ, input.length = limit.length →
      (∀ (i : Nat) (x l : ℚ), input[i]? = some x → limit[i]? = some l → |x| ≤ |l|) →
      boundUniform input limit = .ok input) ∧
    (∀ input limit : List ℚ, input.length = limit.length →
      ∃ r : List ℚ, boundUniform input limit = .ok r ∧ boundUniform r limit = .ok r) := by
  have key : ∀ input limit : List ℚ, input.length = limit.length →
      (∀ i, i < input.length → |idx input i| ≤ |idx limit i|) →
      boundUniform input limit = .ok input := by
    intro input limit h hb
    rw [boundUniform_vector_eq input limit h,
      boundUniform_min_multiplier_eq_one input limit hb]
    simp
  refine ⟨fun input limit h hb => key input limit h (fun i hi =>
      hb i (idx input i) (idx limit i) (idx_eq_getElem_some input i hi)
        (idx_eq_getElem_some limit i (by omega))), fun input limit h => ?_⟩
  refine ⟨_, boundUniform_vector_eq input limit h, key _ limit (by simp [h]) (fun i hi => ?_)⟩
  have hi' : i < input.length := by simpa using hi
  have hx : idx (input.map (fun a =>
      a * boundUniform_min_multiplier { coeffs := input } { coeffs := limit })) i
      = idx input i * boundUniform_min_multiplier { coeffs := input } { coeffs := limit } := by
    apply idx_of_getElem_some
    rw [List.getElem?_map, idx_eq_getElem_some input i hi']
    rfl
  rw [hx]
  exact boundUniform_scaled_le input limit i hi'

/-- C28 at a concrete input: `[1, -2, 0]` is within the limit `[3, 2, 0]`. -/
theorem boundUniform_fixed_point_witness :
    boundUniform [(1 : ℚ), -2, 0] [(3 : ℚ), 2, 0] = .ok [1, -2, 0] ∧
    ∃ r : List ℚ, boundUniform [(-10 : ℚ), 10, 0, -5, -5] [(-20 : ℚ), 5, -10, 1, 100] = .ok r ∧
      boundUniform r [(-20 : ℚ), 5, -10, 1, 100] = .ok r :=
  ⟨boundUniform_fixed_point.1 [(1 : ℚ), -2, 0] [(3 : ℚ), 2, 0] rfl
    (fun i x l hx hl => by
      have hi : i < 3 := by
        by_contra hn
        rw [List.getElem?_eq_none (by simpa using hn)] at hx
        exact Option.noConfusion hx
      interval_cases i <;> simp at hx hl <;> subst hx <;> subst hl <;>
        norm_num [abs_of_nonneg, abs_of_neg]),
   boundUniform_fixed_point.2 [(-10 : ℚ), 10, 0, -5, -5] [(-20 : ℚ), 5, -10, 1, 100] rfl⟩

/-! ### The typed filter -/

/-- The constructor of `RosLowPassFilter<T>` returns, whatever the
coefficients: one channel per element of their vector, every initial value
zero. -/
theorem RosLowPassFilter.ros_ctor_eq {T : Type} [VecConvertible T] (c : T) :
    RosLowPassFilter.ctor c
      = .returned ()
          { multifilter_ :=
              { num_filters_ := (VecConvertible.toVec c).length,
                filters_ := List.zipWith BasicLowPassFilter.ctor (VecConvertible.toVec c)
                  (List.replicate (VecConvertible.toVec c).length 0) } } := by
  have hc : (convert c ([] : List ℚ)).2 = VecConvertible.toVec c := rfl
  simp only [RosLowPassFilter.ctor, hc]
  rw [BasicLowPassMultiFilter.ctor_eq _ _ (List.length_replicate _ _).symm]
  simp

/-- The member `filter` of `RosLowPassFilter<T>` on a measurement whose vector
has as many elements as the owned multi filter has channels. -/
theorem RosLowPassFilter.ros_filter_eq {T : Type} [VecConvertible T] [Inhabited T]
    (self : RosLowPassFilter T) (m : T)
    (hwf : self.multifilter_.filters_.length = self.multifilter_.num_filters_)
    (h : (VecConvertible.toVec m).length = self.multifilter_.num_filters_) :
    self.filter m
      = .returned
          (VecConvertible.fromVec
            (List.zipWith (fun f x => (BasicLowPassFilter.filter f x).1)
              self.multifilter_.filters_ (VecConvertible.toVec m))
            (default : T)).2
          { multifilter_ :=
              { num_filters_ := self.multifilter_.num_filters_,
                filters_ := List.zipWith (fun f x => (BasicLowPassFilter.filter f x).2)
                  self.multifilter_.filters_ (VecConvertible.toVec m) } } := by
  have hc : (convert m ([] : List ℚ)).2 = VecConvertible.toVec m := rfl
  simp only [RosLowPassFilter.filter, hc]
  rw [BasicLowPassMultiFilter.filter_eq _ _ hwf h]
  rfl

/-- The member `reset` of `RosLowPassFilter<T>` on a value whose vector has as
many elements as the owned multi filter has channels. -/
theorem RosLowPassFilter.ros_reset_eq {T : Type} [VecConvertible T]
    (self : RosLowPassFilter T) (v : T)
    (hwf : self.multifilter_.filters_.length = self.multifilter_.num_filters_)
    (h : (VecConvertible.toVec v).length = self.multifilter_.num_filters_) :
    self.reset v
      = .returned ()
          { multifilter_ :=
              { num_filters_ := self.multifilter_.num_filters_,
                filters_ := List.zipWith BasicLowPassFilter.reset
                  self.multifilter_.filters_ (VecConvertible.toVec v) } } := by
  have hc : (convert v ([] : List ℚ)).2 = VecConvertible.toVec v := rfl
  simp only [RosLowPassFilter.reset, hc]
  rw [BasicLowPassMultiFilter.reset_eq _ _ hwf h]

/-- On a type whose vectors all have `n` elements, every sequence of calls on
a typed filter with `n` channels returns. -/
theorem RosLowPassFilter.all_return_of_arity {T : Type} [VecConvertible T] [Inhabited T]
    (n : Nat) (harity : ∀ a : T, (VecConvertible.toVec a).length = n)
    (cs : List (RosFilterCall T)) (self : RosLowPassFilter T)
    (hn : self.multifilter_.num_filters_ = n) (hwf : self.multifilter_.filters_.length = n) :
    self.all_return cs = true := by
  induction cs generalizing self with
  | nil => rfl
  | cons c cs ih =>
    cases c with
    | filter m =>
      simp only [RosLowPassFilter.all_return]
      rw [RosLowPassFilter.ros_filter_eq self m (by rw [hwf, hn]) (by rw [harity, hn])]
      exact ih _ hn (by simp [hwf, harity])
    | reset v =>
      simp only [RosLowPassFilter.all_return]
      rw [RosLowPassFilter.ros_reset_eq self v (by rw [hwf, hn]) (by rw [harity, hn])]
      exact ih _ hn (by simp [hwf, harity])

/-- C22: a `RosLowPassFilter<Wrench>` constructed from a coefficient wrench
`c` owns six channels whose initial values are all zero; for every `c` with no
channel equal to -1 and every measurement wrench `m`, the first `filter(m)`
returns the wrench whose vector has `toVec(m)[i] / (1 + toVec(c)[i])` at every
index `i`, which is `fromVec` of what the owned multi filter returns on
`toVec(m)`. -/
theorem RosLowPassFilter.first_filter_Wrench (c m : Wrench)
    (_hc : ∀ k ∈ c.toVec, k ≠ -1) :
    ∃ (self : RosLowPassFilter Wrench) (r : Wrench) (self1 : RosLowPassFilter Wrench),
      RosLowPassFilter.ctor c = .returned () self ∧
      self.multifilter_
        = { num_filters_ := 6,
            filters_ := c.toVec.map (fun k => BasicLowPassFilter.ctor k 0) } ∧
      self.filter m = .returned r self1 ∧
      (∀ i, i < 6 → ∃ x k, m.toVec[i]? = some x ∧ c.toVec[i]? = some k ∧
        r.toVec[i]? = some (x / (1 + k))) ∧
      (∃ out mf, self.multifilter_.filter m.toVec = .returned out mf ∧
        r = (Wrench.fromVec out default).2 ∧ self1.multifilter_ = mf) := by
  refine ⟨_, _, _, RosLowPassFilter.ros_ctor_eq c, rfl, RosLowPassFilter.ros_filter_eq _ m rfl rfl,
    fun i hi => ?_, _, _, BasicLowPassMultiFilter.filter_eq _ m.toVec rfl rfl, rfl, rfl⟩
  have hfirst : ∀ k x : ℚ,
      (BasicLowPassFilter.filter (BasicLowPassFilter.ctor k 0) x).1 = x / (1 + k) := by
    intro k x
    simp only [BasicLowPassFilter.filter, BasicLowPassFilter.ctor]
    ring
  interval_cases i
  all_goals
    refine ⟨_, _, rfl, rfl, ?_⟩
    simp [VecConvertible.toVec, VecConvertible.fromVec, Wrench.toVec, Vector3.toVec,
      Wrench.fromVec, idx, List.replicate, hfirst]

/-- C22 at a concrete input: every coefficient 2, the measurement
`(111,222,333,444,555,666)`. -/
theorem RosLowPassFilter.first_filter_Wrench_witness :
    ∃ (self : RosLowPassFilter Wrench) (r : Wrench) (self1 : RosLowPassFilter Wrench),
      RosLowPassFilter.ctor ({ force := { x := 2, y := 2, z := 2 },
                               torque := { x := 2, y := 2, z := 2 } } : Wrench)
        = .returned () self ∧
      self.filter { force := { x := 111, y := 222, z := 333 },
                    torque := { x := 444, y := 555, z := 666 } } = .returned r self1 ∧
      r.toVec[0]? = some (111 / (1 + 2)) :=
  let ⟨self, r, self1, h1, _, h2, h3, _⟩ :=
    RosLowPassFilter.first_filter_Wrench
      { force := { x := 2, y := 2, z := 2 }, torque := { x := 2, y := 2, z := 2 } }
      { force := { x := 111, y := 222, z := 333 }, torque := { x := 444, y := 555, z := 666 } }
      (fun k hk => by
        simp [Wrench.toVec, Vector3.toVec] at hk
        rw [hk]
        norm_num)
  let ⟨x, k, hx, hk, hr⟩ := h3 0 (by decide)
  ⟨self, r, self1, h1, h2, by
    have hx1 := Option.some.inj hx
    have hk1 := Option.some.inj hk
    rw [hr, ← hx1, ← hk1]
    rfl⟩

/-- C25: on a message type whose vectors all have one length `n`, a
`RosLowPassFilter<T>` constructed from any coefficient value owns `n`
channels, and every sequence of `filter(m)` and `reset(v)` calls returns: no
call throws `std::out_of_range`. The fixed-arity message types are such
types. -/
theorem RosLowPassFilter.never_out_of_range :
    (∀ (T : Type) [VecConvertible T] [Inhabited T] (n : Nat),
      (∀ a : T, (VecConvertible.toVec a).length = n) →
      ∀ (c : T) (cs : List (RosFilterCall T)),
        ∃ self : RosLowPassFilter T, RosLowPassFilter.ctor c = .returned () self ∧
          self.multifilter_.getNumberFilters = n ∧ self.all_return cs = true) ∧
    (∀ a : Vector3, (VecConvertible.toVec a).length = 3) ∧
    (∀ a : Point, (VecConvertible.toVec a).length = 3) ∧
    (∀ a : Point32, (VecConvertible.toVec a).length = 3) ∧
    (∀ a : Pose2D, (VecConvertible.toVec a).length = 3) ∧
    (∀ a : Quaternion, (VecConvertible.toVec a).length = 4) ∧
    (∀ a : Accel, (VecConvertible.toVec a).length = 6) ∧
    (∀ a : Twist, (VecConvertible.toVec a).length = 6) ∧
    (∀ a : Wrench, (VecConvertible.toVec a).length = 6) ∧
    (∀ a : Pose, (VecConvertible.toVec a).length = 7) ∧
    (∀ a : Transform, (VecConvertible.toVec a).length = 7) ∧
    (∀ a : Vector3Stamped, (VecConvertible.toVec a).length = 3) ∧
    (∀ a : PointStamped, (VecConvertible.toVec a).length = 3) ∧
    (∀ a : QuaternionStamped, (VecConvertible.toVec a).length = 4) ∧
    (∀ a : AccelStamped, (VecConvertible.toVec a).length = 6) ∧
    (∀ a : TwistStamped, (VecConvertible.toVec a).length = 6) ∧
    (∀ a : WrenchStamped, (VecConvertible.toVec a).length = 6) ∧
    (∀ a : PoseStamped, (VecConvertible.toVec a).length = 7) ∧
    (∀ a : TransformStamped, (VecConvertible.toVec a).length = 7) := by
  refine ⟨fun T _ _ n harity c cs => ?_, fun _ => rfl, fun _ => rfl, fun _ => rfl, fun _ => rfl, fun _ => rfl, fun _ => rfl, fun _ => rfl, fun _ => rfl, fun _ => rfl, fun _ => rfl, fun _ => rfl, fun _ => rfl, fun _ => rfl, fun _ => rfl, fun _ => rfl, fun _ => rfl, fun _ => rfl, fun _ => rfl⟩
  refine ⟨_, RosLowPassFilter.ros_ctor_eq c, harity c, ?_⟩
  exact RosLowPassFilter.all_return_of_arity n harity cs _ (harity c) (by simp [harity])

/-- C25 at a concrete input: a `RosLowPassFilter<Wrench>` with every
coefficient 2, reset to a wrench and fed two measurements. -/
theorem RosLowPassFilter.never_out_of_range_witness :
    ∃ self : RosLowPassFilter Wrench,
      RosLowPassFilter.ctor ({ force := { x := 2, y := 2, z := 2 },
                               torque := { x := 2, y := 2, z := 2 } } : Wrench)
        = .returned () self ∧
      self.multifilter_.getNumberFilters = 6 ∧
      self.all_return
        [RosFilterCall.reset { force := { x := 111, y := 222, z := 333 },
                               torque := { x := 444, y := 555, z := 666 } },
         RosFilterCall.filter { force := { x := 200, y := 222, z := 333 },
                                torque := { x := 444, y := 555, z := 666 } },
         RosFilterCall.filter { force := { x := 250, y := 222, z := 333 },
                                torque := { x := 444, y := 555, z := 666 } }] = true :=
  RosLowPassFilter.never_out_of_range.1 Wrench 6 (fun _ => rfl) _ _

/-- A scalar filter with coefficient 2, reset to `v` and then fed `x`, returns
`(x + 2 v) / 3`. -/
theorem BasicLowPassFilter.reset_filter_two (f : BasicLowPassFilter) (v x : ℚ)
    (h : f.filter_coeff_ = 2) : ((f.reset v).filter x).1 = (x + 2 * v) / 3 := by
  simp only [BasicLowPassFilter.filter, BasicLowPassFilter.reset, h]
  ring

/-- C23: for a `RosLowPassFilter<Wrench>` whose six channels all have
coefficient 2, in whatever state, and for all wrenches `v` and `m`: `reset(v)`
returns and the next `filter(m)` returns the wrench whose vector has
`(toVec(m)[i] + 2 * toVec(v)[i]) / 3` at every index `i`, so a channel on which
`m` agrees with `v` comes back unchanged. The test: the filter constructed
from the coefficients `[2,2,2,2,2,2]`, reset to `(111,222,333,444,555,666)`,
then fed that wrench with `force.x = 200` and again with `force.x = 250`,
returns `force.x = 1772/9` and `222, 333, 444, 555, 666` elsewhere. -/
theorem RosLowPassFilter.reset_then_filter_Wrench :
    (∀ (self : RosLowPassFilter Wrench) (v m : Wrench),
      self.multifilter_.num_filters_ = 6 → self.multifilter_.filters_.length = 6 →
      (∀ f ∈ self.multifilter_.filters_, f.filter_coeff_ = 2) →
      ∃ (self1 : RosLowPassFilter Wrench) (r : Wrench) (self2 : RosLowPassFilter Wrench),
        self.reset v = .returned () self1 ∧ self1.filter m = .returned r self2 ∧
        ∀ i, i < 6 → ∃ x y, m.toVec[i]? = some x ∧ v.toVec[i]? = some y ∧
          r.toVec[i]? = some ((x + 2 * y) / 3) ∧ (x = y → r.toVec[i]? = some y)) ∧
    (∃ (coeffs : Wrench) (self self1 : RosLowPassFilter Wrench) (r1 : Wrench)
        (self2 : RosLowPassFilter Wrench) (r2 : Wrench) (self3 : RosLowPassFilter Wrench),
      convert [(2 : ℚ), 2, 2, 2, 2, 2] (default : Wrench) = (true, coeffs) ∧
      RosLowPassFilter.ctor coeffs = .returned () self ∧
      self.multifilter_.num_filters_ = 6 ∧ self.multifilter_.filters_.length = 6 ∧
      (∀ f ∈ self.multifilter_.filters_, f.filter_coeff_ = 2) ∧
      self.reset { force := { x := 111, y := 222, z := 333 },
                   torque := { x := 444, y := 555, z := 666 } } = .returned () self1 ∧
      self1.filter { force := { x := 200, y := 222, z := 333 },
                     torque := { x := 444, y := 555, z := 666 } } = .returned r1 self2 ∧
      self2.filter { force := { x := 250, y := 222, z := 333 },
                     torque := { x := 444, y := 555, z := 666 } } = .returned r2 self3 ∧
      r2 = { force := { x := 1772 / 9, y := 222, z := 333 },
             torque := { x := 444, y := 555, z := 666 } }) := by
  constructor
  · intro self v m hn hl hcoef
    obtain ⟨⟨n, fs⟩⟩ := self
    simp only at hn hl hcoef
    subst hn
    rcases fs with _ | ⟨f0, _ | ⟨f1, _ | ⟨f2, _ | ⟨f3, _ | ⟨f4, _ | ⟨f5, _ | ⟨f6, fs⟩⟩⟩⟩⟩⟩⟩ <;>
      simp only [List.length_cons, List.length_nil] at hl <;> try omega
    have h0 := BasicLowPassFilter.reset_filter_two f0 v.force.x m.force.x (hcoef f0 (by simp))
    have h1 := BasicLowPassFilter.reset_filter_two f1 v.force.y m.force.y (hcoef f1 (by simp))
    have h2 := BasicLowPassFilter.reset_filter_two f2 v.force.z m.force.z (hcoef f2 (by simp))
    have h3 := BasicLowPassFilter.reset_filter_two f3 v.torque.x m.torque.x (hcoef f3 (by simp))
    have h4 := BasicLowPassFilter.reset_filter_two f4 v.torque.y m.torque.y (hcoef f4 (by simp))
    have h5 := BasicLowPassFilter.reset_filter_two f5 v.torque.z m.torque.z (hcoef f5 (by simp))
    refine ⟨_, _, _, RosLowPassFilter.ros_reset_eq _ v rfl rfl,
      RosLowPassFilter.ros_filter_eq _ m rfl rfl, fun i hi => ?_⟩
    interval_cases i
    all_goals
      refine ⟨_, _, rfl, rfl, ?_, fun hxy => ?_⟩
      · simp [VecConvertible.toVec, VecConvertible.fromVec, Wrench.toVec, Vector3.toVec,
          Wrench.fromVec, idx, h0, h1, h2, h3, h4, h5]
      · simp [VecConvertible.toVec, VecConvertible.fromVec, Wrench.toVec, Vector3.toVec,
          Wrench.fromVec, idx, h0, h1, h2, h3, h4, h5] at hxy ⊢
        rw [hxy]
        ring
  · refine ⟨_, _, _, _, _, _, _, rfl, RosLowPassFilter.ros_ctor_eq _, rfl, rfl, ?_,
      RosLowPassFilter.ros_reset_eq _ _ rfl rfl, RosLowPassFilter.ros_filter_eq _ _ rfl rfl,
      RosLowPassFilter.ros_filter_eq _ _ rfl rfl, ?_⟩
    · intro f hf
      simp [VecConvertible.toVec, Wrench.toVec, Vector3.toVec, Wrench.fromVec, idx,
        StdVector.toVec, convert, VecConvertible.fromVec, BasicLowPassFilter.ctor] at hf
      rw [hf]
    · simp [VecConvertible.toVec, VecConvertible.fromVec, Wrench.toVec, Vector3.toVec,
        Wrench.fromVec, idx, StdVector.toVec, convert, BasicLowPassFilter.ctor,
        BasicLowPassFilter.reset, BasicLowPassFilter.filter]
      norm_num

/-- C23 at a concrete input: the filter with every coefficient 2 in its state
after construction, reset to `(111,222,333,444,555,666)` and fed that wrench
with `force.x = 200`. -/
theorem RosLowPassFilter.reset_then_filter_Wrench_witness :
    ∃ (self1 : RosLowPassFilter Wrench) (r : Wrench) (self2 : RosLowPassFilter Wrench),
      RosLowPassFilter.reset
          ({ multifilter_ :=
              { num_filters_ := 6,
                filters_ := List.replicate 6 (BasicLowPassFilter.ctor 2 0) } } :
            RosLowPassFilter Wrench)
          { force := { x := 111, y := 222, z := 333 },
            torque := { x := 444, y := 555, z := 666 } } = .returned () self1 ∧
      self1.filter { force := { x := 200, y := 222, z := 333 },
                     torque := { x := 444, y := 555, z := 666 } } = .returned r self2 ∧
      r.toVec[0]? = some ((200 + 2 * 111) / 3) :=
  let ⟨self1, r, self2, h1, h2, h3⟩ :=
    RosLowPassFilter.reset_then_filter_Wrench.1
      { multifilter_ :=
          { num_filters_ := 6, filters_ := List.replicate 6 (BasicLowPassFilter.ctor 2 0) } }
      { force := { x := 111, y := 222, z := 333 }, torque := { x := 444, y := 555, z := 666 } }
      { force := { x := 200, y := 222, z := 333 }, torque := { x := 444, y := 555, z := 666 } }
      rfl rfl
      (fun f hf => by
        rw [List.eq_of_mem_replicate hf]
        rfl)
  let ⟨x, y, hx, hy, hr, _⟩ := h3 0 (by decide)
  ⟨self1, r, self2, h1, h2, by
    have hx1 := Option.some.inj hx
    have hy1 := Option.some.inj hy
    rw [hr, ← hx1, ← hy1]
    rfl⟩

/-! ### The quaternion overload, as written -/

/-- C24: for every 4-element input vector `v = [a, b, c, d]`, `fromVec` into a
`geometry_msgs::Quaternion` returns true and sets `x = v[0]`, `y = v[1]`,
`z = v[2]` and `w = v[2]`: the fourth field comes from the third element, and
the fourth element never reaches the output. The test's `tf2::Quaternion`
`(40, 41, 42, 44)` converts to `(40, 41, 42, 42)`. -/
theorem Quaternion_fromVec_as_written :
    (∀ (v : List ℚ) (out : Quaternion), v.length = 4 →
      ∃ a b c d, v = [a, b, c, d] ∧
        Quaternion.fromVec v out = (true, { x := a, y := b, z := c, w := c })) ∧
    (∀ (a b c d d1 : ℚ) (out : Quaternion),
      Quaternion.fromVec [a, b, c, d] out = Quaternion.fromVec [a, b, c, d1] out) ∧
    (∀ out : Quaternion,
      convert ({ x := 40, y := 41, z := 42, w := 44 } : Tf2Quaternion) out
        = (true, { x := 40, y := 41, z := 42, w := 42 })) := by
  refine ⟨fun v out h => ?_, fun _ _ _ _ _ _ => rfl, fun _ => rfl⟩
  rcases v with _ | ⟨a, _ | ⟨b, _ | ⟨c, _ | ⟨d, _ | ⟨e, v⟩⟩⟩⟩⟩ <;>
    simp only [List.length_cons, List.length_nil] at h <;> try omega
  exact ⟨a, b, c, d, rfl, rfl⟩

/-- C24 at a concrete input: the vector `[40, 41, 42, 44]`. -/
theorem Quaternion_fromVec_as_written_witness :
    ∃ a b c d, [(40 : ℚ), 41, 42, 44] = [a, b, c, d] ∧
      Quaternion.fromVec [40, 41, 42, 44] default = (true, { x := a, y := b, z := c, w := c }) :=
  Quaternion_fromVec_as_written.1 [40, 41, 42, 44] default rfl

/-! ### No overshoot -/

/-- One step of a filter with coefficient at least 1 keeps the output between
`a` and `b` when the newest slot, the stored output and the input are. -/
theorem BasicLowPassFilter.filter_between (s : BasicLowPassFilter) (a b x : ℚ)
    (hc : 1 ≤ s.filter_coeff_)
    (h0 : a ≤ s.previous_measurements_0 ∧ s.previous_measurements_0 ≤ b)
    (hy : a ≤ s.previous_filtered_measurement_ ∧ s.previous_filtered_measurement_ ≤ b)
    (hx : a ≤ x ∧ x ≤ b) :
    a ≤ (s.filter x).1 ∧ (s.filter x).1 ≤ b := by
  have hpos : (0 : ℚ) < 1 + s.filter_coeff_ := by linarith
  have hval : (s.filter x).1
      = (s.previous_measurements_0 + x
          + (s.filter_coeff_ - 1) * s.previous_filtered_measurement_) / (1 + s.filter_coeff_) := by
    simp only [BasicLowPassFilter.filter]
    ring
  have hc1 : 0 ≤ s.filter_coeff_ - 1 := by linarith
  have hlo : (s.filter_coeff_ - 1) * a
      ≤ (s.filter_coeff_ - 1) * s.previous_filtered_measurement_ :=
    mul_le_mul_of_nonneg_left hy.1 hc1
  have hhi : (s.filter_coeff_ - 1) * s.previous_filtered_measurement_
      ≤ (s.filter_coeff_ - 1) * b :=
    mul_le_mul_of_nonneg_left hy.2 hc1
  rw [hval]
  constructor
  · rw [le_div_iff₀ hpos]
    nlinarith [h0.1, hx.1]
  · rw [div_le_iff₀ hpos]
    nlinarith [h0.2, hx.2]

/-- The outputs of a filter with coefficient at least 1 whose newest slot and
stored output lie between `a` and `b`, fed inputs between `a` and `b`, all lie
between `a` and `b`. -/
theorem BasicLowPassFilter.filter_outputs_between (xs : List ℚ) (s : BasicLowPassFilter)
    (a b : ℚ) (hc : 1 ≤ s.filter_coeff_)
    (h0 : a ≤ s.previous_measurements_0 ∧ s.previous_measurements_0 ≤ b)
    (hy : a ≤ s.previous_filtered_measurement_ ∧ s.previous_filtered_measurement_ ≤ b)
    (hx : ∀ x ∈ xs, a ≤ x ∧ x ≤ b) :
    ∀ y ∈ s.filter_outputs xs, a ≤ y ∧ y ≤ b := by
  induction xs generalizing s with
  | nil => intro y hy1; simp [BasicLowPassFilter.filter_outputs] at hy1
  | cons x xs ih =>
    have hx0 := hx x (List.mem_cons_self x xs)
    have hstep := BasicLowPassFilter.filter_between s a b x hc h0 hy hx0
    intro y hy1
    simp only [BasicLowPassFilter.filter_outputs, List.mem_cons] at hy1
    rcases hy1 with h | h
    · rw [h]; exact hstep
    · exact ih (s.filter x).2 hc hx0 hstep (fun z hz => hx z (List.mem_cons_of_mem x hz)) y h

/-- C26: no overshoot for a coefficient at least 1. For every filter with
`c ≥ 1` and every interval `[a, b]`, if the newest history slot, the stored
output and the input `x` lie in `[a, b]`, then `filter(x)` returns a value in
`[a, b]`, and afterwards the newest slot and the stored output lie in `[a, b]`
and the coefficient is unchanged; hence a filter constructed with an initial
value in `[a, b]` and fed only inputs from `[a, b]` only ever returns values in
`[a, b]`. -/
theorem BasicLowPassFilter.no_overshoot :
    (∀ (s : BasicLowPassFilter) (a b x : ℚ), 1 ≤ s.filter_coeff_ →
      a ≤ s.previous_measurements_0 ∧ s.previous_measurements_0 ≤ b →
      a ≤ s.previous_filtered_measurement_ ∧ s.previous_filtered_measurement_ ≤ b →
      a ≤ x ∧ x ≤ b →
      (a ≤ (s.filter x).1 ∧ (s.filter x).1 ≤ b) ∧
      (a ≤ (s.filter x).2.previous_measurements_0 ∧
        (s.filter x).2.previous_measurements_0 ≤ b) ∧
      (a ≤ (s.filter x).2.previous_filtered_measurement_ ∧
        (s.filter x).2.previous_filtered_measurement_ ≤ b) ∧
      (s.filter x).2.filter_coeff_ = s.filter_coeff_) ∧
    (∀ (c v0 a b : ℚ) (xs : List ℚ), 1 ≤ c → a ≤ v0 ∧ v0 ≤ b →
      (∀ x ∈ xs, a ≤ x ∧ x ≤ b) →
      ∀ y ∈ (BasicLowPassFilter.ctor c v0).filter_outputs xs, a ≤ y ∧ y ≤ b) := by
  refine ⟨fun s a b x hc h0 hy hx => ?_, fun c v0 a b xs hc hv hx => ?_⟩
  · have hstep := BasicLowPassFilter.filter_between s a b x hc h0 hy hx
    exact ⟨hstep, hx, hstep, rfl⟩
  · exact BasicLowPassFilter.filter_outputs_between xs (BasicLowPassFilter.ctor c v0) a b
      hc hv hv hx

/-- C26 at a concrete input: coefficient 2, initial value 0, the interval
`[0, 1]` and the inputs `1, 1`: the outputs `1/3` and `7/9` lie in `[0, 1]`. -/
theorem BasicLowPassFilter.no_overshoot_witness :
    ∀ y ∈ (BasicLowPassFilter.ctor 2 0).filter_outputs [1, 1], (0 : ℚ) ≤ y ∧ y ≤ 1 :=
  BasicLowPassFilter.no_overshoot.2 2 0 0 1 [1, 1] (by norm_num) (by norm_num)
    (fun x hx => by
      simp at hx
      rw [hx]
      norm_num)

/-! ### Length checks come first -/

/-- C29: for every multi filter with `N` channels, `filter(m)` and
`reset(values)` with a vector of a length other than `N`, and
`reset(index, value)` with a signed 32-bit `index` outside `0 .. N-1`
(`N ≤ 2^64 - 2^31`), throw `std::out_of_range` with the object exactly as it
was before the call: every channel keeps both history slots, its stored
output and its coefficient. -/
theorem BasicLowPassMultiFilter.length_check_atomic :
    (∀ (self : BasicLowPassMultiFilter) (m : List ℚ), m.length ≠ self.getNumberFilters →
      self.filter m = .raised .out_of_range self ∧
      (self.filter m).self? = some self) ∧
    (∀ (self : BasicLowPassMultiFilter) (values : List ℚ),
      values.length ≠ self.getNumberFilters →
      self.reset values = .raised .out_of_range self ∧
      (self.reset values).self? = some self) ∧
    (∀ (self : BasicLowPassMultiFilter) (index : Int) (value : ℚ),
      self.num_filters_ ≤ 2 ^ 64 - 2 ^ 31 → -2 ^ 31 ≤ index → index < 2 ^ 31 →
      ¬(0 ≤ index ∧ index < self.getNumberFilters) →
      self.reset_index index value = .raised .out_of_range self ∧
      (self.reset_index index value).self? = some self) := by
  refine ⟨fun self m h => ?_, fun self values h => ?_, fun self index value hN hlo hhi h => ?_⟩
  · have h1 : self.filter m = .raised .out_of_range self := by
      simp only [BasicLowPassMultiFilter.getNumberFilters] at h
      simp [BasicLowPassMultiFilter.filter, h]
    exact ⟨h1, by rw [h1]; rfl⟩
  · have h1 : self.reset values = .raised .out_of_range self := by
      simp only [BasicLowPassMultiFilter.getNumberFilters] at h
      simp [BasicLowPassMultiFilter.reset, h]
    exact ⟨h1, by rw [h1]; rfl⟩
  · have hge : int_to_size_t index ≥ self.num_filters_ := by
      simp only [BasicLowPassMultiFilter.getNumberFilters] at h
      by_cases h0 : 0 ≤ index
      · rw [int_to_size_t_nonneg index h0 hhi]
        have : ¬ index < self.num_filters_ := fun hlt => h ⟨h0, hlt⟩
        omega
      · have := int_to_size_t_neg index (by omega) hlo
        omega
    have h1 : self.reset_index index value = .raised .out_of_range self := by
      simp [BasicLowPassMultiFilter.reset_index, hge]
    exact ⟨h1, by rw [h1]; rfl⟩

/-- C29 at a concrete input: the 3-channel filter with coefficients 2 and
initial values 0, a 4-element vector, and the indices 3 and -1. -/
theorem BasicLowPassMultiFilter.length_check_atomic_witness :
    BasicLowPassMultiFilter.filter
        { num_filters_ := 3, filters_ := List.replicate 3 (BasicLowPassFilter.ctor 2 0) }
        [1, 1, 1, 1]
      = .raised .out_of_range
          { num_filters_ := 3, filters_ := List.replicate 3 (BasicLowPassFilter.ctor 2 0) } ∧
    BasicLowPassMultiFilter.reset
        { num_filters_ := 3, filters_ := List.replicate 3 (BasicLowPassFilter.ctor 2 0) }
        [1, 1, 1, 1]
      = .raised .out_of_range
          { num_filters_ := 3, filters_ := List.replicate 3 (BasicLowPassFilter.ctor 2 0) } ∧
    BasicLowPassMultiFilter.reset_index
        { num_filters_ := 3, filters_ := List.replicate 3 (BasicLowPassFilter.ctor 2 0) }
        (-1) 5
      = .raised .out_of_range
          { num_filters_ := 3, filters_ := List.replicate 3 (BasicLowPassFilter.ctor 2 0) } :=
  ⟨(BasicLowPassMultiFilter.length_check_atomic.1 _ [1, 1, 1, 1] (by decide)).1,
   (BasicLowPassMultiFilter.length_check_atomic.2.1 _ [1, 1, 1, 1] (by decide)).1,
   (BasicLowPassMultiFilter.length_check_atomic.2.2 _ (-1) 5 (by norm_num) (by norm_num)
      (by norm_num) (by norm_num)).1⟩

/-! ### Polygons, both ways -/

/-- A loop that appends three elements per index builds the list of the
triples, after what was there. -/
theorem foldl_push3 {α : Type} (a b c : Nat → α) (l : List Nat) (init : List α) :
    l.foldl (fun (out : List α) (i : Nat) => ((out ++ [a i]) ++ [b i]) ++ [c i]) init
      = init ++ l.flatMap (fun i => [a i, b i, c i]) := by
  induction l generalizing init with
  | nil => simp
  | cons i l ih =>
    rw [List.foldl_cons, ih]
    simp

/-- Reading every index of a point list in order gives the list. -/
theorem map_getD_range (pts : List Point32) :
    (List.range pts.length).map (fun i => pts.getD i default) = pts := by
  apply List.ext_getElem
  · simp
  · intro i h1 h2
    simp [List.getD_eq_getElem?_getD, List.getElem?_eq_getElem h2]

/-- The overload `toVec(geometry_msgs::Polygon)` lists the coordinates point by
point. -/
theorem Polygon.toVec_flat (p : Polygon) :
    p.toVec = p.points.flatMap (fun pt => [pt.x, pt.y, pt.z]) := by
  unfold Polygon.toVec
  rw [foldl_push3 (fun i => (p.points.getD i default).x) (fun i => (p.points.getD i default).y)
    (fun i => (p.points.getD i default).z), List.nil_append]
  conv_rhs => rw [← map_getD_range p.points, List.flatMap_map]

/-- The coordinate list of `n` points has `3 n` elements. -/
theorem length_flat_points (pts : List Point32) :
    (pts.flatMap (fun pt => [pt.x, pt.y, pt.z])).length = 3 * pts.length := by
  induction pts with
  | nil => rfl
  | cons pt pts ih =>
    simp only [List.flatMap_cons, List.length_append, List.length_cons, List.length_nil, ih]
    omega

/-- The three coordinates of point `i` sit at `3 i`, `3 i + 1` and `3 i + 2` of
the coordinate list. -/
theorem idx_flat_points (pts : List Point32) (i : Nat) (hi : i < pts.length) :
    ({ x := idx (pts.flatMap (fun pt => [pt.x, pt.y, pt.z])) (3 * i),
       y := idx (pts.flatMap (fun pt => [pt.x, pt.y, pt.z])) (3 * i + 1),
       z := idx (pts.flatMap (fun pt => [pt.x, pt.y, pt.z])) (3 * i + 2) } : Point32)
      = pts[i] := by
  induction pts generalizing i with
  | nil => simp at hi
  | cons pt pts ih =>
    cases i with
    | zero => rfl
    | succ j =>
      have hj : j < pts.length := by simpa using hi
      have h3 : 3 * (j + 1) = 3 * j + 3 := by ring
      have h4 : 3 * (j + 1) + 1 = (3 * j + 1) + 3 := by ring
      have h5 : 3 * (j + 1) + 2 = (3 * j + 2) + 3 := by ring
      have step : ∀ k, idx ((pt :: pts).flatMap (fun pt => [pt.x, pt.y, pt.z])) (k + 3)
          = idx (pts.flatMap (fun pt => [pt.x, pt.y, pt.z])) k := fun k => rfl
      rw [h4, h5, h3, step, step, step, ih j hj]
      rfl

/-- The coordinate list of the first `k` points that `fromVec` reads from `v`
is the first `3 k` elements of `v`. -/
theorem flat_points_of_vector (v : List ℚ) (k : Nat) (hk : 3 * k ≤ v.length) :
    ((List.range k).map (fun i =>
        ({ x := idx v (3 * i), y := idx v (3 * i + 1), z := idx v (3 * i + 2) } : Point32))).flatMap
      (fun pt => [pt.x, pt.y, pt.z]) = v.take (3 * k) := by
  induction k with
  | zero => simp
  | succ k ih =>
    have h0 : 3 * k < v.length := by omega
    have h1 : 3 * k + 1 < v.length := by omega
    have h2 : 3 * k + 2 < v.length := by omega
    rw [List.range_succ, List.map_append, List.flatMap_append, ih (by omega)]
    have ht : v.take (3 * (k + 1)) = v.take (3 * k) ++ [v[3 * k], v[3 * k + 1], v[3 * k + 2]] := by
      have e : 3 * (k + 1) = 3 * k + 1 + 1 + 1 := by ring
      rw [e, List.take_succ, List.take_succ, List.take_succ, List.getElem?_eq_getElem h0,
        List.getElem?_eq_getElem h1, List.getElem?_eq_getElem h2]
      simp only [Option.toList, List.append_assoc, List.cons_append, List.nil_append]
    rw [ht]
    simp [idx, List.getD_eq_getElem?_getD, List.getElem?_eq_getElem h0,
      List.getElem?_eq_getElem h1, List.getElem?_eq_getElem h2]

/-- An element of a vector read through `idx` inside the vector is one of its
members. -/
theorem idx_mem (v : List ℚ) (k : Nat) (h : k < v.length) : idx v k ∈ v := by
  have h1 : idx v k = v[k] := by
    simp [idx, List.getD_eq_getElem?_getD, List.getElem?_eq_getElem h]
  rw [h1]
  exact List.getElem_mem h

/-- With a conversion that leaves the coordinates of `p` unchanged, `fromVec`
of `toVec(p)` returns true and gives `p` back. -/
theorem Polygon.fromVec_with_toVec (narrow : ℚ → ℚ) (p out : Polygon)
    (hfix : ∀ pt ∈ p.points, narrow pt.x = pt.x ∧ narrow pt.y = pt.y ∧ narrow pt.z = pt.z) :
    Polygon.fromVec_with narrow p.toVec out = (true, p) := by
  have hlen : p.toVec.length = 3 * p.points.length := by
    rw [Polygon.toVec_flat, length_flat_points]
  have hmod : p.toVec.length % 3 = 0 := by omega
  have hflag : (Polygon.fromVec_with narrow p.toVec out).1 = true := by
    simp [Polygon.fromVec_with, hmod]
  have hpts := Polygon.fromVec_points narrow p.toVec out hmod
  have hdiv : p.toVec.length / 3 = p.points.length := by omega
  rw [hdiv] at hpts
  have hp : (Polygon.fromVec_with narrow p.toVec out).2.points = p.points := by
    rw [hpts]
    apply List.ext_getElem
    · simp
    · intro i h1 h2
      simp only [List.getElem_map, List.getElem_range]
      rw [Polygon.toVec_flat]
      have hi := idx_flat_points p.points i h2
      have hx := congrArg Point32.x hi
      have hy := congrArg Point32.y hi
      have hz := congrArg Point32.z hi
      simp only at hx hy hz
      obtain ⟨fx, fy, fz⟩ := hfix p.points[i] (List.getElem_mem h2)
      rw [hx, hy, hz, fx, fy, fz]
  rw [Prod.ext_iff]
  refine ⟨hflag, ?_⟩
  show (Polygon.fromVec_with narrow p.toVec out).2 = p
  cases hq : (Polygon.fromVec_with narrow p.toVec out).2 with
  | mk pts =>
    rw [hq] at hp
    cases p
    simp only at hp
    rw [hp]

/-- With a conversion that leaves the elements of `v` unchanged, `toVec` of
the polygon that `fromVec` builds from `v`, of a length that is a multiple of
3, is `v`. -/
theorem Polygon.toVec_fromVec_with (narrow : ℚ → ℚ) (v : List ℚ) (out : Polygon)
    (h : v.length % 3 = 0) (hfix : ∀ x ∈ v, narrow x = x) :
    (Polygon.fromVec_with narrow v out).1 = true ∧
    (Polygon.fromVec_with narrow v out).2.toVec = v := by
  refine ⟨by simp [Polygon.fromVec_with, h], ?_⟩
  have hmap : (List.range (v.length / 3)).map (fun i =>
        ({ x := narrow (idx v (3 * i)), y := narrow (idx v (3 * i + 1)),
           z := narrow (idx v (3 * i + 2)) } : Point32))
      = (List.range (v.length / 3)).map (fun i =>
        ({ x := idx v (3 * i), y := idx v (3 * i + 1), z := idx v (3 * i + 2) } : Point32)) := by
    apply List.map_congr_left
    intro i hi
    have hi1 : i < v.length / 3 := List.mem_range.mp hi
    rw [hfix _ (idx_mem v (3 * i) (by omega)), hfix _ (idx_mem v (3 * i + 1) (by omega)),
      hfix _ (idx_mem v (3 * i + 2) (by omega))]
  rw [Polygon.toVec_flat, Polygon.fromVec_points narrow v out h, hmap,
    flat_points_of_vector v (v.length / 3) (by omega)]
  have : 3 * (v.length / 3) = v.length := by omega
  rw [this, List.take_length]

/-- C30: the polygon conversions are inverse to each other, coordinates being
exact numbers, that is with the conversion to `float` taken as the identity.
For every `Polygon` `p`, `fromVec(toVec(p), out)` returns true and `out` has
the points of `p` in their order; for every vector `v` whose length is a
multiple of 3, `toVec` of the polygon that `fromVec(v)` builds is `v`. With
the conversion to `float` that the code applies, the first holds for every
polygon whose coordinates are `float` values, as those of a `Point32` are, and
the second for every such vector whose elements are `float` values. -/
theorem Polygon_conversions_inverse :
    (∀ p out : Polygon, Polygon.fromVec_with id p.toVec out = (true, p)) ∧
    (∀ (v : List ℚ) (out : Polygon), v.length % 3 = 0 →
      (Polygon.fromVec_with id v out).1 = true ∧
      (Polygon.fromVec_with id v out).2.toVec = v) ∧
    (∀ p out : Polygon,
      (∀ pt ∈ p.points, double_to_float pt.x = pt.x ∧ double_to_float pt.y = pt.y ∧
        double_to_float pt.z = pt.z) →
      Polygon.fromVec p.toVec out = (true, p)) ∧
    (∀ (v : List ℚ) (out : Polygon), v.length % 3 = 0 →
      (∀ x ∈ v, double_to_float x = x) →
      (Polygon.fromVec v out).1 = true ∧ (Polygon.fromVec v out).2.toVec = v) :=
  ⟨fun p out => Polygon.fromVec_with_toVec id p out (fun _ _ => ⟨rfl, rfl, rfl⟩),
   fun v out h => Polygon.toVec_fromVec_with id v out h (fun _ _ => rfl),
   fun p out hfix => Polygon.fromVec_with_toVec double_to_float p out hfix,
   fun v out h hfix => Polygon.toVec_fromVec_with double_to_float v out h hfix⟩

/-- C30 at a concrete input: the 9-element vector of the test, whose elements
are `float` values. -/
theorem Polygon_conversions_inverse_witness :
    (Polygon.fromVec [9, 8, 7, 6, 5, 4, 3, 2, 1] default).1 = true ∧
    (Polygon.fromVec [9, 8, 7, 6, 5, 4, 3, 2, 1] default).2.toVec
      = [9, 8, 7, 6, 5, 4, 3, 2, 1] :=
  Polygon_conversions_inverse.2.2.2 [9, 8, 7, 6, 5, 4, 3, 2, 1] default (by decide)
    (fun x hx => by
      obtain ⟨-, d1, d2, d3, d4, d5, d6, d7, d8, d9⟩ := double_to_float_digits
      simp only [List.mem_cons, List.mem_singleton, List.not_mem_nil, or_false] at hx
      rcases hx with h | h | h | h | h | h | h | h | h <;> rw [h] <;> assumption)

/-! ### What a conversion leaves in the output object -/

/-- C31: a failing `fromVec` leaves an unstamped output untouched. For each of
`Vector3`, `Quaternion`, `Accel`, `Point`, `Point32`, `Polygon`, `Pose`,
`Pose2D`, `Transform`, `Twist` and `Wrench`, and every input vector on which
`fromVec` returns false, the output object after the call is the output
object before the call. A 9-element vector leaves a `Twist` as it was. -/
theorem fromVec_failure_untouched :
    (∀ (v : List ℚ) (out : Vector3), (Vector3.fromVec v out).1 = false →
      (Vector3.fromVec v out).2 = out) ∧
    (∀ (v : List ℚ) (out : Quaternion), (Quaternion.fromVec v out).1 = false →
      (Quaternion.fromVec v out).2 = out) ∧
    (∀ (v : List ℚ) (out : Accel), (Accel.fromVec v out).1 = false →
      (Accel.fromVec v out).2 = out) ∧
    (∀ (v : List ℚ) (out : Point), (Point.fromVec v out).1 = false →
      (Point.fromVec v out).2 = out) ∧
    (∀ (v : List ℚ) (out : Point32), (Point32.fromVec v out).1 = false →
      (Point32.fromVec v out).2 = out) ∧
    (∀ (v : List ℚ) (out : Polygon), (Polygon.fromVec v out).1 = false →
      (Polygon.fromVec v out).2 = out) ∧
    (∀ (v : List ℚ) (out : Pose), (Pose.fromVec v out).1 = false →
      (Pose.fromVec v out).2 = out) ∧
    (∀ (v : List ℚ) (out : Pose2D), (Pose2D.fromVec v out).1 = false →
      (Pose2D.fromVec v out).2 = out) ∧
    (∀ (v : List ℚ) (out : Transform), (Transform.fromVec v out).1 = false →
      (Transform.fromVec v out).2 = out) ∧
    (∀ (v : List ℚ) (out : Twist), (Twist.fromVec v out).1 = false →
      (Twist.fromVec v out).2 = out) ∧
    (∀ (v : List ℚ) (out : Wrench), (Wrench.fromVec v out).1 = false →
      (Wrench.fromVec v out).2 = out) ∧
    (∀ out : Twist, Twist.fromVec [9, 8, 7, 6, 5, 4, 3, 2, 1] out = (false, out)) := by
  refine ⟨?_, ?_, ?_, ?_, ?_, ?_, ?_, ?_, ?_, ?_, ?_, fun _ => rfl⟩
  all_goals
    intro v out
    simp only [Vector3.fromVec, Quaternion.fromVec, Accel.fromVec, Point.fromVec,
      Point32.fromVec, Polygon.fromVec, Polygon.fromVec_with, Pose.fromVec, Pose2D.fromVec,
      Transform.fromVec,
      Twist.fromVec, Wrench.fromVec]
    split_ifs with h <;> simp

/-- C31 at a concrete input: the 9-element vector of the test and a `Twist`
that held `(1, 2, 3, 4, 5, 6)`. -/
theorem fromVec_failure_untouched_witness :
    (Twist.fromVec [9, 8, 7, 6, 5, 4, 3, 2, 1]
        { linear := { x := 1, y := 2, z := 3 }, angular := { x := 4, y := 5, z := 6 } }).2
      = { linear := { x := 1, y := 2, z := 3 }, angular := { x := 4, y := 5, z := 6 } } :=
  fromVec_failure_untouched.2.2.2.2.2.2.2.2.2.1 [9, 8, 7, 6, 5, 4, 3, 2, 1]
    { linear := { x := 1, y := 2, z := 3 }, angular := { x := 4, y := 5, z := 6 } } rfl

/-- C32: the effect of `fromVec` on a Stamped output. For each of the nine
Stamped types and every input vector, the header of the output is what it was
before the call (and so is `child_frame_id` of a `TransformStamped`); the
payload is always overwritten by what the payload's `fromVec` leaves in a
freshly declared payload: the decoded value when the call returns true, the
same whatever a payload object held before, and the default-constructed
payload, all zero or empty, when it returns false. -/
theorem fromVec_Stamped_effect :
    (∀ (v : List ℚ) (out : AccelStamped),
      (AccelStamped.fromVec v out).2.header = out.header ∧
      (AccelStamped.fromVec v out).2.accel = (Accel.fromVec v default).2 ∧
      ((AccelStamped.fromVec v out).1 = true →
        ∀ p : Accel, (AccelStamped.fromVec v out).2.accel = (Accel.fromVec v p).2) ∧
      ((AccelStamped.fromVec v out).1 = false → (AccelStamped.fromVec v out).2.accel = default)) ∧
    (∀ (v : List ℚ) (out : PointStamped),
      (PointStamped.fromVec v out).2.header = out.header ∧
      (PointStamped.fromVec v out).2.point = (Point.fromVec v default).2 ∧
      ((PointStamped.fromVec v out).1 = true →
        ∀ p : Point, (PointStamped.fromVec v out).2.point = (Point.fromVec v p).2) ∧
      ((PointStamped.fromVec v out).1 = false → (PointStamped.fromVec v out).2.point = default)) ∧
    (∀ (v : List ℚ) (out : PolygonStamped),
      (PolygonStamped.fromVec v out).2.header = out.header ∧
      (PolygonStamped.fromVec v out).2.polygon = (Polygon.fromVec v default).2 ∧
      ((PolygonStamped.fromVec v out).1 = true →
        ∀ p : Polygon, (PolygonStamped.fromVec v out).2.polygon = (Polygon.fromVec v p).2) ∧
      ((PolygonStamped.fromVec v out).1 = false → (PolygonStamped.fromVec v out).2.polygon = default)) ∧
    (∀ (v : List ℚ) (out : PoseStamped),
      (PoseStamped.fromVec v out).2.header = out.header ∧
      (PoseStamped.fromVec v out).2.pose = (Pose.fromVec v default).2 ∧
      ((PoseStamped.fromVec v out).1 = true →
        ∀ p : Pose, (PoseStamped.fromVec v out).2.pose = (Pose.fromVec v p).2) ∧
      ((PoseStamped.fromVec v out).1 = false → (PoseStamped.fromVec v out).2.pose = default)) ∧
    (∀ (v : List ℚ) (out : QuaternionStamped),
      (QuaternionStamped.fromVec v out).2.header = out.header ∧
      (QuaternionStamped.fromVec v out).2.quaternion = (Quaternion.fromVec v default).2 ∧
      ((QuaternionStamped.fromVec v out).1 = true →
        ∀ p : Quaternion, (QuaternionStamped.fromVec v out).2.quaternion = (Quaternion.fromVec v p).2) ∧
      ((QuaternionStamped.fromVec v out).1 = false → (QuaternionStamped.fromVec v out).2.quaternion = default)) ∧
    (∀ (v : List ℚ) (out : TransformStamped),
      (TransformStamped.fromVec v out).2.header = out.header ∧
      (TransformStamped.fromVec v out).2.child_frame_id = out.child_frame_id ∧
      (TransformStamped.fromVec v out).2.transform = (Transform.fromVec v default).2 ∧
      ((TransformStamped.fromVec v out).1 = true →
        ∀ p : Transform, (TransformStamped.fromVec v out).2.transform = (Transform.fromVec v p).2) ∧
      ((TransformStamped.fromVec v out).1 = false → (TransformStamped.fromVec v out).2.transform = default)) ∧
    (∀ (v : List ℚ) (out : TwistStamped),
      (TwistStamped.fromVec v out).2.header = out.header ∧
      (TwistStamped.fromVec v out).2.twist = (Twist.fromVec v default).2 ∧
      ((TwistStamped.fromVec v out).1 = true →
        ∀ p : Twist, (TwistStamped.fromVec v out).2.twist = (Twist.fromVec v p).2) ∧
      ((TwistStamped.fromVec v out).1 = false → (TwistStamped.fromVec v out).2.twist = default)) ∧
    (∀ (v : List ℚ) (out : Vector3Stamped),
      (Vector3Stamped.fromVec v out).2.header = out.header ∧
      (Vector3Stamped.fromVec v out).2.vector = (Vector3.fromVec v default).2 ∧
      ((Vector3Stamped.fromVec v out).1 = true →
        ∀ p : Vector3, (Vector3Stamped.fromVec v out).2.vector = (Vector3.fromVec v p).2) ∧
      ((Vector3Stamped.fromVec v out).1 = false → (Vector3Stamped.fromVec v out).2.vector = default)) ∧
    (∀ (v : List ℚ) (out : WrenchStamped),
      (WrenchStamped.fromVec v out).2.header = out.header ∧
      (WrenchStamped.fromVec v out).2.wrench = (Wrench.fromVec v default).2 ∧
      ((WrenchStamped.fromVec v out).1 = true →
        ∀ p : Wrench, (WrenchStamped.fromVec v out).2.wrench = (Wrench.fromVec v p).2) ∧
      ((WrenchStamped.fromVec v out).1 = false → (WrenchStamped.fromVec v out).2.wrench = default)) := by
  refine ⟨?_, ?_, ?_, ?_, ?_, ?_, ?_, ?_, ?_⟩
  all_goals
    intro v out
    simp only [AccelStamped.fromVec, PointStamped.fromVec, PolygonStamped.fromVec,
      PoseStamped.fromVec, QuaternionStamped.fromVec, TransformStamped.fromVec,
      TwistStamped.fromVec, Vector3Stamped.fromVec, WrenchStamped.fromVec,
      Vector3.fromVec, Quaternion.fromVec, Accel.fromVec, Point.fromVec,
      Polygon.fromVec, Polygon.fromVec_with, Pose.fromVec, Transform.fromVec, Twist.fromVec,
      Wrench.fromVec]
    split_ifs with h <;> simp

/-- C32 at a concrete input: a `TwistStamped` with a header, converted from the
6-element vector `[1,2,3,4,5,6]` (true) and from the 9-element vector of the
test (false). -/
theorem fromVec_Stamped_effect_witness :
    TwistStamped.fromVec [1, 2, 3, 4, 5, 6]
        { header := { seq := 7, stamp_sec := 1, stamp_nsec := 2, frame_id := "base" },
          twist := { linear := { x := 9, y := 9, z := 9 }, angular := { x := 9, y := 9, z := 9 } } }
      = (true,
          { header := { seq := 7, stamp_sec := 1, stamp_nsec := 2, frame_id := "base" },
            twist := { linear := { x := 1, y := 2, z := 3 },
                       angular := { x := 4, y := 5, z := 6 } } }) ∧
    (TwistStamped.fromVec [9, 8, 7, 6, 5, 4, 3, 2, 1]
        { header := { seq := 7, stamp_sec := 1, stamp_nsec := 2, frame_id := "base" },
          twist := { linear := { x := 9, y := 9, z := 9 },
                     angular := { x := 9, y := 9, z := 9 } } }).2.twist = default :=
  ⟨rfl,
   (fromVec_Stamped_effect.2.2.2.2.2.2.1 [9, 8, 7, 6, 5, 4, 3, 2, 1]
      { header := { seq := 7, stamp_sec := 1, stamp_nsec := 2, frame_id := "base" },
        twist := { linear := { x := 9, y := 9, z := 9 },
                   angular := { x := 9, y := 9, z := 9 } } }).2.2.2 rfl⟩

end nrg_tools
